import Mathlib

/-! Client-side state layer of the note-taking frontend.

A shallow embedding of the folder, query and mutation logic found in
`src/components/Sidebar.js`, `src/components/FolderView.js`,
`src/components/Dashboard.js`, `src/components/NoteEditor.js` and
`src/services/api.js`.

Conventions of the embedding:

* a JavaScript string is a list of characters (`Str`); the empty string is the
  only falsy string;
* a value that may be `undefined`/`null` is an `Option`;
* an `async` handler is a pure function of the component state and of the
  outcomes of the remote calls it awaits; it returns the state held by React
  when the handler has run to completion together with the ordered trace of
  the effects it performed (state-setter calls, remote calls, toasts);
* `setX(v)` on a mounted component stores `v` in the corresponding field.
-/

namespace NotesFrontend

/-! ## JavaScript strings -/

/-- A JavaScript string, as the sequence of its characters. -/
abbrev Str := List Char

/-- Truthiness of a string: only the empty string is falsy. -/
def truthy (s : Str) : Bool := !s.isEmpty

/-- Truthiness of a possibly-undefined string. -/
def truthyOpt : Option Str → Bool
  | none => false
  | some s => truthy s

/-- The expression `a || b` on strings. -/
def orElse (a b : Str) : Str := if truthy a then a else b

/-- The expression `a || b` where `a` may be undefined. -/
def orElseOpt (a : Option Str) (b : Str) : Str :=
  match a with
  | none => b
  | some s => orElse s b

/-- The method `String.prototype.lastIndexOf(c)`: the index of the last occurrence of the
character `c`, or `-1` when there is none. -/
def lastIndexOf : Str → Char → Int
  | [], _ => -1
  | x :: xs, c =>
    let r := lastIndexOf xs c
    if 0 ≤ r then r + 1 else if x = c then 0 else -1

/-- The method `String.prototype.substring(a, b)`: both arguments are clamped to
`[0, length]` and swapped when `a > b`. -/
def substring (s : Str) (a b : Int) : Str :=
  let a' := min a.toNat s.length
  let b' := min b.toNat s.length
  (s.drop (min a' b')).take (max a' b' - min a' b')

/-- White space and line terminators of ECMAScript, the characters removed by
`String.prototype.trim`. -/
def isTrimChar (c : Char) : Bool :=
  let n := c.toNat
  n == 0x09 || n == 0x0A || n == 0x0B || n == 0x0C || n == 0x0D || n == 0x20 ||
  n == 0xA0 || n == 0x1680 || (0x2000 ≤ n && n ≤ 0x200A) || n == 0x2028 ||
  n == 0x2029 || n == 0x202F || n == 0x205F || n == 0x3000 || n == 0xFEFF

/-- The method `String.prototype.trim()`. -/
def trim (s : Str) : Str :=
  ((s.dropWhile isTrimChar).reverse.dropWhile isTrimChar).reverse

/-- The method `Array.prototype.join(sep)` on an array of strings. -/
def join (sep : Str) : List Str → Str
  | [] => []
  | [x] => x
  | x :: y :: rest => x ++ sep ++ join sep (y :: rest)

/-! ## Toasts and errors -/

/-- The `status` of a toast. -/
inductive ToastStatus where
  | error
  | success
  deriving DecidableEq, Repr

/-- The argument of a `toast({...})` call. An absent `description` is `none`;
an absent `isClosable` is `false`. -/
structure Toast where
  title : Str
  description : Option Str
  status : ToastStatus
  duration : Nat
  isClosable : Bool
  deriving DecidableEq, Repr

/-- A value caught by a `catch (error)` clause: `message` is `error.message`
and `responseMessage` is `error.response?.data?.message`. -/
structure JSError where
  message : Str
  responseMessage : Option Str
  deriving DecidableEq, Repr

/-! ## Folders (`Sidebar.js`) -/

/-- A folder object held in the `folders` state of the sidebar. -/
structure Folder where
  path : Str
  name : Str
  deriving DecidableEq, Repr

/-- The expression `f.path.substring(0, f.path.lastIndexOf('/')) || '/'` of
`renderFolders` (`Sidebar.js`, line 205). -/
def parentOf (path : Str) : Str :=
  orElse (substring path 0 (lastIndexOf path '/')) "/".toList

/-- The `subfolders` constant of `renderFolders(parentPath)`: the folders
that `renderFolders` renders, one `SidebarItem` each, as the children of
`parentPath` (`Sidebar.js`, lines 204-207). -/
def subfolders (folders : List Folder) (parentPath : Str) : List Folder :=
  folders.filter (fun f =>
    let folderParentPath := parentOf f.path
    folderParentPath == parentPath)

/-! ## Note editor (`NoteEditor.js`) -/

/-- The note passed to the editor as the `note` prop, as far as `handleSave`
reads it: its `_id`, possibly undefined. -/
structure EditedNote where
  _id : Option Str
  deriving DecidableEq, Repr

/-- The props and the ref of `NoteEditor` read by `handleSave`:
`editorRef` is `none` while `editorRef.current` is null and otherwise holds
what `editorRef.current.getContent()` returns. -/
structure EditorEnv where
  note : Option EditedNote
  folder : Str
  editorRef : Option Str
  deriving DecidableEq, Repr

/-- The `useState` cells of `NoteEditor`. -/
structure EditorState where
  title : Str
  content : Str
  tags : List Str
  category : Str
  newTag : Str
  isSaving : Bool
  existingTags : List Str
  existingCategories : List Str
  newCategory : Str
  images : List Str
  isFavorite : Bool
  deriving DecidableEq, Repr

/-- The `noteData` object built by `handleSave`. -/
structure NoteData where
  title : Str
  content : Str
  tags : List Str
  category : Str
  folder : Str
  images : List Str
  isFavorite : Bool
  deriving DecidableEq, Repr

/-- The effects of `handleSave`, in the order they are performed. The type
`R` is the type of the value a save call resolves to. -/
inductive EditorEffect (R : Type) where
  | toast (t : Toast)
  | setIsSaving (b : Bool)
  | updateNote (id : Str) (data : NoteData)
  | createNote (data : NoteData)
  | getAllCategories
  | onSave (savedNote : R)
  deriving DecidableEq, Repr

/-- Whether an effect is one of the two remote save calls. -/
def EditorEffect.isSaveCall {R : Type} : EditorEffect R → Bool
  | .updateNote _ _ => true
  | .createNote _ => true
  | _ => false

/-- Whether an effect is a remote call of any kind. -/
def EditorEffect.isRemoteCall {R : Type} : EditorEffect R → Bool
  | .updateNote _ _ => true
  | .createNote _ => true
  | .getAllCategories => true
  | _ => false

/-- The content `handleSave` validates and sends:
`editorRef.current ? editorRef.current.getContent() : content`. -/
def currentContent (env : EditorEnv) (s : EditorState) : Str :=
  match env.editorRef with
  | some c => c
  | none => s.content

/-- The id read by `note?._id`, when it is truthy. -/
def noteId (env : EditorEnv) : Option Str :=
  match env.note with
  | none => none
  | some n =>
    match n._id with
    | none => none
    | some id => if truthy id then some id else none

/-- The toast of the `catch` clause of `handleSave`. -/
def saveErrorToast (e : JSError) : Toast :=
  { title := "Error saving note".toList
    description := some (orElseOpt e.responseMessage "Please try again".toList)
    status := .error, duration := 3000, isClosable := true }

/-- The `noteData` object built by `handleSave` (`NoteEditor.js`, lines
123-131), `currentContent` being the content it has just validated. -/
def buildNoteData (env : EditorEnv) (s : EditorState) (currentContent : Str) : NoteData :=
  { title := trim s.title
    content := currentContent
    tags := s.tags.map (fun tag => trim tag)
    category := trim s.category
    folder := env.folder
    images := s.images
    isFavorite := s.isFavorite }

/-- The remote save call of `handleSave` (`NoteEditor.js`, lines 133-138):
`updateNote` when `note?._id` is truthy, `createNote` otherwise. -/
def saveCall (R : Type) (env : EditorEnv) (noteData : NoteData) : EditorEffect R :=
  match noteId env with
  | some id => .updateNote id noteData
  | none => .createNote noteData

/-- The handler `NoteEditor.handleSave` (`NoteEditor.js`, lines 88-163).
`save` is the outcome of the awaited `updateNote`/`createNote` call and `cats`
the outcome of the awaited `getAllCategories` call made for a favorite note. -/
def handleSave {R : Type} (env : EditorEnv) (s : EditorState)
    (save : Except JSError R) (cats : Except JSError Unit) :
    EditorState × List (EditorEffect R) :=
  if !truthy (trim s.title) then
    (s, [.toast { title := "Title is required".toList, description := none,
                  status := .error, duration := 3000, isClosable := true }])
  else if !truthy s.category then
    (s, [.toast { title := "Category is required".toList,
                  description := some "Please select or create a category".toList,
                  status := .error, duration := 3000, isClosable := true }])
  else
    let currentContent := currentContent env s
    if !truthy (trim currentContent) then
      (s, [.toast { title := "Content is required".toList, description := none,
                    status := .error, duration := 3000, isClosable := true }])
    else
      let noteData := buildNoteData env s currentContent
      let call : EditorEffect R := saveCall R env noteData
      let done : EditorState := { s with isSaving := false }
      let saved : Toast :=
        { title := "Note saved successfully".toList, description := none,
          status := .success, duration := 3000, isClosable := true }
      match save with
      | .error e =>
        (done, [.setIsSaving true, call, .toast (saveErrorToast e), .setIsSaving false])
      | .ok savedNote =>
        if s.isFavorite then
          match cats with
          | .error e =>
            (done, [.setIsSaving true, call, .getAllCategories,
                    .toast (saveErrorToast e), .setIsSaving false])
          | .ok _ =>
            (done, [.setIsSaving true, call, .getAllCategories, .toast saved,
                    .onSave savedNote, .setIsSaving false])
        else
          (done, [.setIsSaving true, call, .toast saved, .onSave savedNote,
                  .setIsSaving false])

/-! ## Notes API (`api.js`) -/

/-- A note, as held in the `notes` state of a dashboard view. -/
structure Note where
  _id : Str
  title : Str
  content : Str
  tags : List Str
  category : Str
  folder : Str
  isFavorite : Bool
  isArchived : Bool
  deriving DecidableEq, Repr

/-- The query-parameter object passed to the list operations of `notesAPI`;
a property that is absent or undefined is `none`. -/
structure Params where
  sort : Option Str
  order : Option Str
  folder : Option Str
  tags : Option Str
  search : Option Str
  category : Option Str
  deriving DecidableEq, Repr

/-- A call of one of the five list operations of `notesAPI`. -/
inductive ListCall where
  | getFavorites (params : Params)
  | getArchived (params : Params)
  | getNotesByCategory (category : Str) (params : Params)
  | getNotesByFolder (folderId : Str) (params : Params)
  | getNotes (params : Params)
  deriving DecidableEq, Repr

/-- The five view kinds. -/
inductive ViewKind where
  | favorites
  | archived
  | byCategory
  | byFolder
  | all
  deriving DecidableEq, Repr

/-- The view kind a list call selects. -/
def ListCall.kind : ListCall → ViewKind
  | .getFavorites _ => .favorites
  | .getArchived _ => .archived
  | .getNotesByCategory _ _ => .byCategory
  | .getNotesByFolder _ _ => .byFolder
  | .getNotes _ => .all

/-- The `params` that `notesAPI.getNotes` hands to `api.get('/notes', ...)`
(`api.js`, lines 92-96): the given ones with `sort` and `order` defaulted. -/
def getNotesParams (params : Params) : Params :=
  { params with
    sort := some (orElseOpt params.sort "updatedAt".toList)
    order := some (orElseOpt params.order "desc".toList) }

/-- The query parameters each list operation sends to the remote store:
`getNotes` defaults `sort` and `order`, the other four pass `params` on
unchanged (`api.js`, lines 89-183). -/
def ListCall.requestParams : ListCall → Params
  | .getFavorites params => params
  | .getArchived params => params
  | .getNotesByCategory _ params => params
  | .getNotesByFolder _ params => params
  | .getNotes params => getNotesParams params

/-- What a list operation resolves to, as far as the dashboard reads it:
`data` is `some notes` when `response.data` is an array and `none` otherwise. -/
structure NotesResponse where
  data : Option (List Note)
  deriving DecidableEq, Repr

/-- What `notesAPI.updateNote` resolves to, as far as the dashboard reads it. -/
structure NoteResponse where
  data : Note
  deriving DecidableEq, Repr

/-! ## Dashboard (`Dashboard.js`) -/

/-- The props of `Dashboard` together with the `category` route parameter. -/
structure DashProps where
  filterFavorites : Bool
  filterArchived : Bool
  filterByCategory : Bool
  folderPath : Option Str
  hideTitle : Bool
  category : Option Str
  deriving DecidableEq, Repr

/-- The `useState` cells of `Dashboard`. -/
structure DashState where
  notes : List Note
  selectedNote : Option Note
  isLoading : Bool
  searchQuery : Str
  selectedTags : List Str
  sortBy : Str
  sortOrder : Str
  categories : List Str
  selectedCategory : Str
  deriving DecidableEq, Repr

/-- The initial values of the `useState` cells (`Dashboard.js`, lines 52-60). -/
def initialDashState : DashState :=
  { notes := [], selectedNote := none, isLoading := true, searchQuery := [],
    selectedTags := [], sortBy := "updatedAt".toList, sortOrder := "desc".toList,
    categories := [], selectedCategory := [] }

/-- The effects of the dashboard handlers, in the order they are performed. -/
inductive DashEffect where
  | setIsLoading (b : Bool)
  | setNotes (notes : List Note)
  | list (call : ListCall)
  | updateNote (id : Str) (body : Note)
  | deleteNote (id : Str)
  | toast (t : Toast)
  deriving DecidableEq, Repr

/-- Whether an effect is a call of a list operation. -/
def DashEffect.isListCall : DashEffect → Bool
  | .list _ => true
  | _ => false

/-- Whether an effect is a state-setter call. -/
def DashEffect.isSetter : DashEffect → Bool
  | .setIsLoading _ => true
  | .setNotes _ => true
  | _ => false

/-- The `params` object built by `fetchNotes` (`Dashboard.js`, lines 82-98). -/
def fetchParams (props : DashProps) (st : DashState) : Params :=
  { sort := some st.sortBy
    order := some st.sortOrder
    folder := props.folderPath
    tags := if st.selectedTags.length > 0 then some (join ",".toList st.selectedTags) else none
    search := if truthy st.searchQuery then some st.searchQuery else none
    category := if truthy st.selectedCategory then some st.selectedCategory else none }

/-- The list operation `fetchNotes` calls (`Dashboard.js`, lines 100-111). -/
def fetchNotesCall (props : DashProps) (st : DashState) : ListCall :=
  let params := fetchParams props st
  if props.filterFavorites then .getFavorites params
  else if props.filterArchived then .getArchived params
  else if props.filterByCategory && truthyOpt props.category then
    .getNotesByCategory (props.category.getD []) params
  else if truthyOpt props.folderPath then
    .getNotesByFolder (props.folderPath.getD []) params
  else .getNotes params

/-- The toast of the `catch` clause of `fetchNotes`. -/
def fetchErrorToast (error : JSError) : Toast :=
  { title := "Error fetching notes".toList, description := some error.message,
    status := .error, duration := 3000, isClosable := true }

/-- The part of `fetchNotes` that runs before the `await`: `setIsLoading(true)`
and the list call (`Dashboard.js`, lines 80-111). -/
def fetchNotesStart (props : DashProps) (st : DashState) : DashState × List DashEffect :=
  ({ st with isLoading := true }, [.setIsLoading true, .list (fetchNotesCall props st)])

/-- The part of `fetchNotes` that runs once the list call has settled with
`outcome`: `setNotes` or the error toast, then `setIsLoading(false)`
(`Dashboard.js`, lines 113-124). -/
def fetchNotesSettle (st : DashState) (outcome : Except JSError NotesResponse) :
    DashState × List DashEffect :=
  match outcome with
  | .ok response =>
    let notes := match response.data with
      | some arr => arr
      | none => []
    ({ st with notes := notes, isLoading := false }, [.setNotes notes, .setIsLoading false])
  | .error error =>
    ({ st with isLoading := false }, [.toast (fetchErrorToast error), .setIsLoading false])

/-- One complete run of `Dashboard.fetchNotes` (`Dashboard.js`, lines 79-125),
`outcome` being the outcome of the awaited list call. -/
def fetchNotes (props : DashProps) (st : DashState) (outcome : Except JSError NotesResponse) :
    DashState × List DashEffect :=
  let started := fetchNotesStart props st
  let settled := fetchNotesSettle started.1 outcome
  (settled.1, started.2 ++ settled.2)

/-- The handler `Dashboard.handleToggleFavorite` (`Dashboard.js`, lines
173-195), `outcome` being the outcome of the awaited `updateNote` call. -/
def handleToggleFavorite (st : DashState) (note : Note)
    (outcome : Except JSError NoteResponse) : DashState × List DashEffect :=
  let call := DashEffect.updateNote note._id { note with isFavorite := !note.isFavorite }
  match outcome with
  | .ok updatedNote =>
    let notes := st.notes.map (fun n => if n._id = note._id then updatedNote.data else n)
    ({ st with notes := notes },
      [call, .setNotes notes,
       .toast { title := if note.isFavorite then "Removed from favorites".toList
                         else "Added to favorites".toList,
                description := none, status := .success, duration := 2000,
                isClosable := false }])
  | .error error =>
    (st, [call,
          .toast { title := "Error updating note".toList, description := some error.message,
                   status := .error, duration := 3000, isClosable := false }])

/-- The three items of the "Sort By" menu (`Dashboard.js`, lines 284-309). -/
inductive SortItem where
  | lastModified
  | createdDate
  | title
  deriving DecidableEq, Repr

/-- The `onClick` handler of a "Sort By" menu item. -/
def selectSort (item : SortItem) (st : DashState) : DashState :=
  match item with
  | .lastModified => { st with sortBy := "updatedAt".toList, sortOrder := "desc".toList }
  | .createdDate => { st with sortBy := "createdAt".toList, sortOrder := "desc".toList }
  | .title => { st with sortBy := "title".toList, sortOrder := "asc".toList }

/-- The handler `handleTagSelect` (`Dashboard.js`, lines 253-260). -/
def handleTagSelect (tag : Str) (st : DashState) : DashState :=
  { st with selectedTags :=
      if st.selectedTags.contains tag then st.selectedTags.filter (fun t => t != tag)
      else st.selectedTags ++ [tag] }

/-- The user actions that change the query state of a dashboard: the sort
menu, `handleSearch`, `handleTagSelect` and the category `Select`. -/
inductive DashAction where
  | sort (item : SortItem)
  | search (query : Str)
  | tagSelect (tag : Str)
  | selectCategory (value : Str)
  deriving DecidableEq, Repr

/-- The state after a user action. -/
def applyAction (a : DashAction) (st : DashState) : DashState :=
  match a with
  | .sort item => selectSort item st
  | .search query => { st with searchQuery := query }
  | .tagSelect tag => handleTagSelect tag st
  | .selectCategory value => { st with selectedCategory := value }

/-! ## Life cycle of a dashboard view (`Dashboard.js`, lines 79-140)

The view is run as a state machine whose events are the things the event loop
can deliver: a user action or a change of props (followed by the re-render), a
poll timer firing, an in-flight list call settling, and the unmount. The
browser and React contribute three rules: `setInterval` arms a timer under a
fresh non-zero id, `clearInterval(id)` disarms the timer with that id, and a
state-setter call addressed to an unmounted component is dropped. The
categories request issued by the same effect only feeds `categories` and is
left out. -/

/-- The values captured by a `fetchNotes` callback when `useCallback`
created it. -/
structure Callback where
  props : DashProps
  st : DashState
  deriving DecidableEq, Repr

/-- The values of the dependency array of `useCallback`. -/
structure Deps where
  filterFavorites : Bool
  filterArchived : Bool
  category : Option Str
  folderPath : Option Str
  sortBy : Str
  sortOrder : Str
  selectedTags : List Str
  searchQuery : Str
  selectedCategory : Str
  deriving DecidableEq, Repr

/-- The dependency array of `useCallback` (`Dashboard.js`, line 125). -/
def deps (props : DashProps) (st : DashState) : Deps :=
  { filterFavorites := props.filterFavorites, filterArchived := props.filterArchived,
    category := props.category, folderPath := props.folderPath, sortBy := st.sortBy,
    sortOrder := st.sortOrder, selectedTags := st.selectedTags,
    searchQuery := st.searchQuery, selectedCategory := st.selectedCategory }

/-- An interval armed by `setInterval(callback, delay)`, under the id the
browser returned. -/
structure Interval where
  id : Nat
  delay : Nat
  callback : Callback
  deriving DecidableEq, Repr

/-- A dashboard view together with the part of its environment it drives. -/
structure View where
  mounted : Bool
  props : DashProps
  st : DashState
  callback : Callback
  pollingInterval : Option Nat
  timers : List Interval
  nextTimerId : Nat
  pending : List ListCall
  issued : List ListCall
  toasts : List Toast
  deriving DecidableEq, Repr

/-- A state-setter call: applied when the component is mounted, dropped
otherwise. -/
def View.setState (v : View) (f : DashState → DashState) : View :=
  if v.mounted then { v with st := f v.st } else v

/-- A call of the callback `cb`, up to its `await`: `setIsLoading(true)`, then
the list call is issued and stays in flight. -/
def View.startFetch (v : View) (cb : Callback) : View :=
  let call := fetchNotesCall cb.props cb.st
  let v := v.setState (fun st => (fetchNotesStart cb.props st).1)
  { v with pending := v.pending ++ [call], issued := v.issued ++ [call] }

/-- The body of the polling effect (`Dashboard.js`, lines 129-133):
`fetchNotes()`, then `setInterval(fetchNotes, 30000)` stored in
`pollingInterval.current`. -/
def View.runEffect (v : View) : View :=
  let v := v.startFetch v.callback
  { v with timers := v.timers ++
             [{ id := v.nextTimerId, delay := 30000, callback := v.callback }]
           pollingInterval := some v.nextTimerId
           nextTimerId := v.nextTimerId + 1 }

/-- The cleanup of the polling effect (`Dashboard.js`, lines 135-139). -/
def View.cleanup (v : View) : View :=
  match v.pollingInterval with
  | some id => if id ≠ 0 then { v with timers := v.timers.filter (fun t => t.id ≠ id) } else v
  | none => v

/-- The first render and the first run of the effect. -/
def mount (props : DashProps) : View :=
  View.runEffect
    { mounted := true, props := props, st := initialDashState,
      callback := { props := props, st := initialDashState },
      pollingInterval := none, timers := [], nextTimerId := 1,
      pending := [], issued := [], toasts := [] }

/-- A re-render with new props and new query state: when a dependency of
`useCallback` changed, `fetchNotes` is re-created and the effect, which
depends on it, is cleaned up and run again. -/
def View.rerender (v : View) (props : DashProps) (st : DashState) : View :=
  if deps props st = deps v.callback.props v.callback.st then
    { v with props := props, st := st }
  else
    View.runEffect
      (View.cleanup { v with props := props, st := st, callback := { props := props, st := st } })

/-- The events delivered to a view. -/
inductive Event where
  | action (a : DashAction)
  | newProps (props : DashProps)
  | refresh
  | tick (id : Nat)
  | settle (i : Nat) (outcome : Except JSError NotesResponse)
  | unmount
  deriving Repr

/-- One event.
* `action`, `newProps`: only a mounted view renders;
* `refresh`: the `fetchNotes()` call of `handleSaveNote`;
* `tick id`: the interval `id` fires if it is armed, and calls its callback;
* `settle i outcome`: the `i`-th list call in flight settles and the rest of
  `fetchNotes` runs (`setNotes` or the error toast, then
  `setIsLoading(false)`);
* `unmount`: the cleanup of the effect runs and the component is gone. -/
def View.step (v : View) : Event → View
  | .action a => if v.mounted then v.rerender v.props (applyAction a v.st) else v
  | .newProps props => if v.mounted then v.rerender props v.st else v
  | .refresh => if v.mounted then v.startFetch v.callback else v
  | .tick id =>
    match v.timers.find? (fun t => t.id = id) with
    | some t => v.startFetch t.callback
    | none => v
  | .settle i outcome =>
    if i < v.pending.length then
      let v := { v with pending := v.pending.eraseIdx i }
      let v := v.setState (fun st => (fetchNotesSettle st outcome).1)
      match outcome with
      | .ok _ => v
      | .error error => { v with toasts := v.toasts ++ [fetchErrorToast error] }
    else v
  | .unmount => if v.mounted then { View.cleanup v with mounted := false } else v

/-- A sequence of events, in order. -/
def View.run (v : View) (events : List Event) : View :=
  events.foldl View.step v

/-- The notes a successful response installs:
`Array.isArray(response.data) ? response.data : []`. -/
def NotesResponse.notes (response : NotesResponse) : List Note :=
  match response.data with
  | some arr => arr
  | none => []

/-- The timer discipline of a view: a mounted view has exactly one armed
timer, the one recorded in `pollingInterval.current`, calling the current
callback; an unmounted view has none. -/
def View.TimerInv (v : View) : Prop :=
  0 < v.nextTimerId ∧
  (v.mounted = true →
    ∃ id, 0 < id ∧ v.pollingInterval = some id ∧
      v.timers = [{ id := id, delay := 30000, callback := v.callback }]) ∧
  (v.mounted = false → v.timers = [])

/-! ## Folder handlers (`Sidebar.js`, `FolderView.js`) -/

/-- The `useState` cells of `Sidebar` and the `isOpen` flag of its
new-folder dialog. `expandedFolders` lists the paths whose entry has been
set, with the value stored. -/
structure SidebarState where
  folders : List Folder
  categories : List Str
  expandedFolders : List (Str × Bool)
  isOpen : Bool
  newFolderName : Str
  currentPath : Str
  deriving DecidableEq, Repr

/-- The initial values of the cells of `Sidebar` (`Sidebar.js`, lines 87-96). -/
def initialSidebarState : SidebarState :=
  { folders := [], categories := [], expandedFolders := [], isOpen := false,
    newFolderName := [], currentPath := "/".toList }

/-- The payload of a folder-contents response, as far as it is read. -/
structure FolderData where
  folders : List Folder
  deriving DecidableEq, Repr

/-- The effects of the folder handlers, in the order they are performed.
The remote calls carry the arguments the handler passes to `foldersAPI`:
`createFolder first name` is the call
`foldersAPI.createFolder(first, { name })`. -/
inductive FolderEffect where
  | toast (t : Toast)
  | createFolder (first : Str) (name : Str)
  | renameFolder (path : Str) (newName : Str)
  | getFolderContents (id : Str)
  | setFolders (folders : List Folder)
  | setFolderData (data : Option FolderData)
  | setIsLoading (b : Bool)
  | setNewFolderName (v : Str)
  | setNewName (v : Str)
  | onClose
  | onRenameClose
  | onNewFolderClose
  deriving DecidableEq, Repr

/-- Whether an effect is a remote call. -/
def FolderEffect.isRemoteCall : FolderEffect → Bool
  | .createFolder _ _ => true
  | .renameFolder _ _ => true
  | .getFolderContents _ => true
  | _ => false

/-- Whether an effect is the remote create-folder call. -/
def FolderEffect.isCreateCall : FolderEffect → Bool
  | .createFolder _ _ => true
  | _ => false

/-- The toast shown by both create handlers and by the rename handler for a
blank name. -/
def nameRequiredToast : Toast :=
  { title := "Folder name is required".toList, description := none, status := .error,
    duration := 2000, isClosable := false }

/-- The function `Sidebar.fetchFolders` (`Sidebar.js`, lines 103-116).
`fetched` is the outcome of its `try` block up to the argument of
`setFolders`: an error when the request is rejected or the response has no
`data`, otherwise `response.data.folders` (`none` when that is missing). -/
def fetchFolders (s : SidebarState) (fetched : Except JSError (Option (List Folder))) :
    SidebarState × List FolderEffect :=
  match fetched with
  | .ok folders =>
    let value := match folders with
      | some l => l
      | none => []
    ({ s with folders := value }, [.getFolderContents "/".toList, .setFolders value])
  | .error error =>
    (s, [.getFolderContents "/".toList,
         .toast { title := "Error fetching folders".toList, description := some error.message,
                  status := .error, duration := 3000, isClosable := true }])

/-- The handler `Sidebar.handleCreateFolder` (`Sidebar.js`, lines 133-163).
`created` is the outcome of the awaited `createFolder` call and `fetched` the
outcome of the `fetchFolders` run that follows a successful creation. -/
def Sidebar.handleCreateFolder (s : SidebarState) (created : Except JSError Unit)
    (fetched : Except JSError (Option (List Folder))) : SidebarState × List FolderEffect :=
  if !truthy (trim s.newFolderName) then (s, [.toast nameRequiredToast])
  else
    match created with
    | .ok _ =>
      let refreshed := fetchFolders s fetched
      ({ refreshed.1 with isOpen := false, newFolderName := [] },
        [.createFolder s.currentPath s.newFolderName] ++ refreshed.2 ++
        [.onClose, .setNewFolderName [],
         .toast { title := "Folder created".toList, description := none, status := .success,
                  duration := 2000, isClosable := false }])
    | .error error =>
      (s, [.createFolder s.currentPath s.newFolderName,
           .toast { title := "Error creating folder".toList,
                    description := some error.message, status := .error,
                    duration := 3000, isClosable := false }])

/-- The `useState` cells of `FolderView`, the open flags of its three dialogs
and the `*` route parameter `folderPath`. -/
structure FolderViewState where
  folderPath : Option Str
  folderData : Option FolderData
  isLoading : Bool
  selectedFolder : Option Folder
  newName : Str
  newFolderName : Str
  isDeleteOpen : Bool
  isRenameOpen : Bool
  isNewFolderOpen : Bool
  deriving DecidableEq, Repr

/-- The function `FolderView.fetchFolderContents` (`FolderView.js`, lines
61-77). `fetched` is the outcome of the awaited `getFolderContents` call: when
it succeeds, the `data` of the response. -/
def fetchFolderContents (s : FolderViewState) (fetched : Except JSError (Option FolderData)) :
    FolderViewState × List FolderEffect :=
  let id := orElseOpt s.folderPath []
  match fetched with
  | .ok data =>
    ({ s with folderData := data, isLoading := false },
      [.setIsLoading true, .getFolderContents id, .setFolderData data, .setIsLoading false])
  | .error error =>
    ({ s with isLoading := false },
      [.setIsLoading true, .getFolderContents id,
       .toast { title := "Error fetching folder contents".toList,
                description := some error.message, status := .error, duration := 3000,
                isClosable := true },
       .setIsLoading false])

/-- The handler `FolderView.handleCreateFolder` (`FolderView.js`, lines
129-159). `created` is the outcome of the awaited `createFolder` call and
`fetched` the outcome of the `fetchFolderContents` run started after a
successful creation (the handler does not await it; the state returned is the
one reached when that run has finished too). -/
def FolderView.handleCreateFolder (s : FolderViewState) (created : Except JSError Unit)
    (fetched : Except JSError (Option FolderData)) : FolderViewState × List FolderEffect :=
  if !truthy (trim s.newFolderName) then (s, [.toast nameRequiredToast])
  else
    let call := FolderEffect.createFolder (orElseOpt s.folderPath []) (trim s.newFolderName)
    match created with
    | .ok _ =>
      let closed := { s with isNewFolderOpen := false, newFolderName := [] }
      let refreshed := fetchFolderContents closed fetched
      (refreshed.1,
        [call,
         .toast { title := "Folder created".toList, description := none, status := .success,
                  duration := 2000, isClosable := false }] ++
        refreshed.2.take 2 ++ [.onNewFolderClose, .setNewFolderName []] ++ refreshed.2.drop 2)
    | .error error =>
      (s, [call,
           .toast { title := "Error creating folder".toList,
                    description := some error.message, status := .error,
                    duration := 3000, isClosable := false }])

/-- The names of the methods that `foldersAPI` defines (`api.js`, lines
222-324). -/
def foldersAPIMethods : List Str :=
  ["getFolders".toList, "getFolder".toList, "createFolder".toList, "updateFolder".toList,
   "deleteFolder".toList, "getFolderContents".toList, "getFolderNotes".toList,
   "getFolderDetails".toList, "getFolderHierarchy".toList, "moveFolder".toList]

/-- The error thrown by a call of a property that is not a function. -/
def notAFunction (callee : Str) : JSError :=
  { message := callee ++ " is not a function".toList, responseMessage := none }

/-- The outcome of `await foldersAPI.renameFolder(...)` against `api.js`:
`remote` when `foldersAPI` defines the method, and the `TypeError` of calling
an undefined property when it does not. -/
def renameFolderOutcome (remote : Except JSError Unit) : Except JSError Unit :=
  if foldersAPIMethods.contains "renameFolder".toList then remote
  else .error (notAFunction "foldersAPI.renameFolder".toList)

/-- The toast of the `catch` clause of `handleRenameFolder`. -/
def renameErrorToast (error : JSError) : Toast :=
  { title := "Error renaming folder".toList, description := some error.message,
    status := .error, duration := 3000, isClosable := false }

/-- The `TypeError` thrown by `selectedFolder.path` while `selectedFolder`
is null (the wording of the message depends on the engine). -/
def readPathOfNull : JSError :=
  { message := "Cannot read properties of null".toList, responseMessage := none }

/-- The handler `FolderView.handleRenameFolder` (`FolderView.js`, lines
99-127). `renamed` is the outcome of the awaited `foldersAPI.renameFolder(...)`
call and `fetched` the outcome of the `fetchFolderContents` run started after
a successful rename (not awaited by the handler; the state returned is the one
reached when that run has finished too). -/
def handleRenameFolder (s : FolderViewState) (renamed : Except JSError Unit)
    (fetched : Except JSError (Option FolderData)) : FolderViewState × List FolderEffect :=
  if !truthy (trim s.newName) then (s, [.toast nameRequiredToast])
  else
    match s.selectedFolder with
    | none => (s, [.toast (renameErrorToast readPathOfNull)])
    | some selectedFolder =>
      let call := FolderEffect.renameFolder selectedFolder.path (trim s.newName)
      match renamed with
      | .ok _ =>
        let closed := { s with isRenameOpen := false, newName := [] }
        let refreshed := fetchFolderContents closed fetched
        (refreshed.1,
          [call,
           .toast { title := "Folder renamed".toList, description := none,
                    status := .success, duration := 2000, isClosable := false }] ++
          refreshed.2.take 2 ++ [.onRenameClose, .setNewName []] ++ refreshed.2.drop 2)
      | .error error => (s, [call, .toast (renameErrorToast error)])

/-- The folder state held by the client while a folder page is shown: the
sidebar and the folder view are separate components of the authenticated
layout, each with its own state. -/
structure FolderPage where
  sidebar : SidebarState
  view : FolderViewState
  deriving DecidableEq, Repr

/-- A rename requested on the folder page: `handleRenameFolder` runs in the
folder view; nothing in it reaches the state of the sidebar. -/
def FolderPage.rename (p : FolderPage) (renamed : Except JSError Unit)
    (fetched : Except JSError (Option FolderData)) : FolderPage × List FolderEffect :=
  let r := handleRenameFolder p.view renamed fetched
  ({ p with view := r.1 }, r.2)

/-- All folder paths held locally on a folder page. -/
def FolderPage.heldPaths (p : FolderPage) : List Str :=
  p.sidebar.folders.map (fun f => f.path) ++
    (match p.view.folderData with
     | some d => d.folders.map (fun f => f.path)
     | none => [])

/-! ## Create-folder request (`api.js`, lines 242-253) -/

/-- A property key of a plain object: an array index or any other name. -/
inductive PropKey where
  | index (i : Nat)
  | named (name : Str)
  deriving DecidableEq, Repr

/-- A property value of a request body, as far as the folder calls produce
one: `null` or a string. -/
inductive Prim where
  | null
  | str (s : Str)
  deriving DecidableEq, Repr

/-- A plain object: its own enumerable properties in order, keys unique. -/
abbrev JSObject := List (PropKey × Prim)

/-- The value bound to the parameter `folderData` of
`foldersAPI.createFolder`: a string or a plain object. -/
inductive FolderDataArg where
  | str (s : Str)
  | obj (props : JSObject)
  deriving DecidableEq, Repr

/-- The own enumerable properties copied by the spread `...folderData`: the
properties of an object, and for a string one property per index holding the
character at that index (strings with a character above `U+FFFF`, which has
one index per UTF-16 code unit, are outside the model). -/
def ownProps : FolderDataArg → JSObject
  | .str s => s.enum.map (fun p => (PropKey.index p.1, Prim.str [p.2]))
  | .obj props => props

/-- The value of `folderData.parentId`: `none` for undefined. A string has no
such property. -/
def parentIdOf : FolderDataArg → Option Prim
  | .str _ => none
  | .obj props => props.lookup (PropKey.named "parentId".toList)

/-- The expression `folderData.parentId || null`. -/
def parentIdOrNull (folderData : FolderDataArg) : Prim :=
  match parentIdOf folderData with
  | some (.str s) => if truthy s then .str s else .null
  | _ => .null

/-- A property definition in an object literal: an existing key keeps its
place and takes the new value, a new key is added at the end. -/
def setProp (o : JSObject) (k : PropKey) (v : Prim) : JSObject :=
  if o.any (fun p => p.1 == k) then o.map (fun p => if p.1 == k then (k, v) else p)
  else o ++ [(k, v)]

/-- The body `foldersAPI.createFolder(folderData)` posts to `/folders`:
`{ ...folderData, parentId: folderData.parentId || null }`. -/
def createFolderBody (folderData : FolderDataArg) : JSObject :=
  setProp (ownProps folderData) (PropKey.named "parentId".toList) (parentIdOrNull folderData)

/-- The body posted by the call `foldersAPI.createFolder(first, { name })`
the create-folder handlers make: `createFolder` has the single parameter
`folderData`, which is bound to `first`; the object holding the name is bound
to no parameter. -/
def handlerCreateFolderBody (first : Str) (_name : Str) : JSObject :=
  createFolderBody (.str first)

/-- The body posted by an effect of a folder handler, when the effect is the
create-folder call. -/
def FolderEffect.createBody : FolderEffect → Option JSObject
  | .createFolder first name => some (handlerCreateFolderBody first name)
  | _ => none

/-! ## Lazy child merge (`Sidebar.js`, lines 165-192) -/

/-- The updater passed to `setFolders` by `toggleFolder` (`Sidebar.js`, lines
174-182): a copy of the held list to which every fetched folder is pushed
unless a folder with its path is already there. -/
def mergeFolders (prev : List Folder) (fetched : List Folder) : List Folder :=
  fetched.foldl
    (fun newFolders folder =>
      if (newFolders.find? (fun f => f.path == folder.path)).isSome then newFolders
      else newFolders ++ [folder])
    prev

/-- The value of `expandedFolders[path]`, undefined being falsy. -/
def isExpanded (expandedFolders : List (Str × Bool)) (path : Str) : Bool :=
  match expandedFolders.lookup path with
  | some b => b
  | none => false

/-- The object `{ ...prev, [path]: value }`. -/
def setExpanded (prev : List (Str × Bool)) (path : Str) (value : Bool) : List (Str × Bool) :=
  if prev.any (fun p => p.1 == path) then prev.map (fun p => if p.1 == path then (path, value) else p)
  else prev ++ [(path, value)]

/-- The handler `Sidebar.toggleFolder` (`Sidebar.js`, lines 165-192).
`fetched` is the outcome of the awaited request: an error when it is
rejected, the array `response.data.folders` otherwise. A response without a
folder array, on which the updater of `setFolders` throws outside the `try`
block when React runs it, is outside the model. The effect trace lists the
remote call and the toast. -/
def toggleFolder (s : SidebarState) (path : Str) (fetched : Except JSError (List Folder)) :
    SidebarState × List FolderEffect :=
  let toggled := { s with
    expandedFolders := setExpanded s.expandedFolders path (!isExpanded s.expandedFolders path) }
  if !isExpanded s.expandedFolders path then
    match fetched with
    | .ok folders =>
      ({ toggled with folders := mergeFolders toggled.folders folders },
        [.getFolderContents path])
    | .error error =>
      (toggled,
        [.getFolderContents path,
         .toast { title := "Error fetching subfolders".toList,
                  description := some error.message, status := .error, duration := 3000,
                  isClosable := false }])
  else (toggled, [])

/-! ## Breadcrumbs (`FolderView.js`, lines 161-185; `NotePage.js`, lines 99-125) -/

/-- The method `String.prototype.split(sep)` for a one-character separator. -/
def split (sep : Char) : Str → List Str
  | [] => [[]]
  | c :: cs =>
    if c = sep then [] :: split sep cs
    else
      match split sep cs with
      | [] => [[c]]
      | h :: t => (c :: h) :: t

/-- The path `'/' + s1 + '/' + ... + '/' + sn` built from the segments
`s1..sn`. -/
def pathOfSegments : List Str → Str
  | [] => []
  | s :: rest => '/' :: s ++ pathOfSegments rest

/-- The non-empty segments of a folder path:
`folderPath ? folderPath.split('/').filter(Boolean) : []`. -/
def segments (folderPath : Option Str) : List Str :=
  match folderPath with
  | some p => if truthy p then (split '/' p).filter truthy else []
  | none => []

/-- One `BreadcrumbItem` rendered from `paths.map`: its React key, its label,
the value of `fullPath` when it was rendered, the route its link navigates to
when it is clicked and whether it is the last of the mapped items. -/
structure Crumb where
  key : Str
  label : Str
  fullPath : Str
  target : Str
  isLast : Bool
  deriving DecidableEq, Repr

/-- The value that the variable `fullPath`, declared once with `let` outside
the callback of `paths.map`, holds after the callback has run over the parts
from `index` on. -/
def fullPathAfter : Nat → Str → List Str → Str
  | _, fullPath, [] => fullPath
  | index, fullPath, part :: rest =>
    fullPathAfter (index + 1) (if index = 0 then [] else fullPath ++ "/".toList ++ part) rest

/-- The callback of `paths.map((part, index) => ...)` run over the parts from
`index` on, `fullPath` being the variable it updates and `total` the value of
`paths.length`. The `onClick` closure of every item reads the one variable
`fullPath` when the link is clicked, not a copy taken when the item was
rendered: `clicked` is the value the variable holds then. -/
def crumbsFrom (total : Nat) (clicked : Str) : Nat → Str → List Str → List Crumb
  | _, _, [] => []
  | index, fullPath, part :: rest =>
    let fullPath := if index = 0 then [] else fullPath ++ "/".toList ++ part
    { key := orElse fullPath "root".toList
      label := if index = 0 then "Root".toList else part
      fullPath := fullPath
      target := if index = 0 then "/dashboard".toList else "/folders".toList ++ clicked
      isLast := index == total - 1 } :: crumbsFrom total clicked (index + 1) fullPath rest

/-- The items `renderBreadcrumbs` maps from `paths`, the array
`['/', ...segments]`, for a folder path (`FolderView.js`, lines 162-182). A
link is clicked after the rendering, when `fullPath` holds the value the last
run of the callback left in it. -/
def renderBreadcrumbs (folderPath : Option Str) : List Crumb :=
  let paths := "/".toList :: segments folderPath
  crumbsFrom paths.length (fullPathAfter 0 [] paths) 0 [] paths

/-- The note of `NotePage`, as far as its breadcrumbs read it. -/
structure PageNote where
  folder : Option Str
  title : Str
  deriving DecidableEq, Repr

/-- The breadcrumbs of `NotePage` (`NotePage.js`, lines 99-125): nothing
while no note is loaded; otherwise the items mapped from the folder path of
the note, followed by one item showing the title of the note. -/
def NotePage.renderBreadcrumbs (note : Option PageNote) : Option (List Crumb × Str) :=
  match note with
  | none => none
  | some note =>
    let paths := "/".toList :: segments note.folder
    some (crumbsFrom paths.length (fullPathAfter 0 [] paths) 0 [] paths, note.title)

/-! ## Response interceptor (`api.js`, lines 25-60) -/

/-- The value of the `data` property of a response body: undefined, a
primitive, or an array or object (`value`). -/
inductive DataField (A : Type) where
  | undefined
  | null
  | bool (b : Bool)
  | number (n : Int)
  | string (s : Str)
  | value (a : A)
  deriving DecidableEq, Repr

/-- Truthiness of a `data` property: arrays and objects are truthy. -/
def DataField.truthy {A : Type} : DataField A → Bool
  | .undefined => false
  | .null => false
  | .bool b => b
  | .number n => n != 0
  | .string s => !s.isEmpty
  | .value _ => true

/-- The body of a server response (`response.data`), as far as the
interceptor reads it: `success` is `none` unless the property is a boolean,
`message` is `none` when the property is undefined. The body is an object; a
`null` body, on which reading `success` throws, is outside the model. -/
structure Body (A : Type) where
  success : Option Bool
  message : Option Str
  data : DataField A
  deriving DecidableEq, Repr

/-- What axios hands to the response interceptor: a response for the
fulfilled handler, or an error, with the response of the server when one was
received, for the rejected handler. -/
inductive AxiosOutcome (A : Type) where
  | response (status : Nat) (body : Body A)
  | error (response : Option (Nat × Body A))
  deriving DecidableEq, Repr

/-- What the fulfilled handler resolves to: `response.data.data` when that is
truthy, the whole body otherwise. -/
inductive Resolved (A : Type) where
  | data (d : DataField A)
  | body (b : Body A)
  deriving DecidableEq, Repr

/-- The error object `{ message, errors }` the interceptor rejects with: it
has no `response` property. -/
def rejection (message : Str) : JSError :=
  { message := message, responseMessage := none }

/-- The response interceptor (`api.js`, lines 26-60): `.ok` for a resolved
promise, `.error` for a rejected one. -/
def responseInterceptor {A : Type} : AxiosOutcome A → Except JSError (Resolved A)
  | .response _ body =>
    if body.success = some false then
      .error (rejection (orElseOpt body.message "Operation failed".toList))
    else if body.data.truthy then .ok (.data body.data)
    else .ok (.body body)
  | .error none =>
    .error (rejection "Network error - please check your internet connection".toList)
  | .error (some (status, body)) =>
    if status = 401 then .error (rejection "Session expired - please login again".toList)
    else .error (rejection (orElseOpt body.message "Something went wrong".toList))

/-- Whether the interceptor removes the stored token and redirects to
`/login` (`api.js`, lines 47-49). -/
def clearsSession {A : Type} : AxiosOutcome A → Bool
  | .error (some (status, _)) => status == 401
  | _ => false

/-! ## Delete and archive (`Dashboard.js`, lines 152-219) -/

/-- The handler `Dashboard.handleDeleteNote` (`Dashboard.js`, lines 152-171).
`confirmed` is what `window.confirm` returned and `outcome` the outcome of the
awaited `deleteNote` call. -/
def handleDeleteNote (st : DashState) (noteId : Str) (confirmed : Bool)
    (outcome : Except JSError Unit) : DashState × List DashEffect :=
  if confirmed then
    match outcome with
    | .ok _ =>
      let notes := st.notes.filter (fun note => note._id != noteId)
      ({ st with notes := notes },
        [.deleteNote noteId, .setNotes notes,
         .toast { title := "Note deleted".toList, description := none, status := .success,
                  duration := 2000, isClosable := false }])
    | .error error =>
      (st, [.deleteNote noteId,
            .toast { title := "Error deleting note".toList, description := some error.message,
                     status := .error, duration := 3000, isClosable := false }])
  else (st, [])

/-- The handler `Dashboard.handleToggleArchive` (`Dashboard.js`, lines
197-219), `outcome` being the outcome of the awaited `updateNote` call. -/
def handleToggleArchive (st : DashState) (note : Note)
    (outcome : Except JSError NoteResponse) : DashState × List DashEffect :=
  let call := DashEffect.updateNote note._id { note with isArchived := !note.isArchived }
  match outcome with
  | .ok updatedNote =>
    let notes := st.notes.map (fun n => if n._id = note._id then updatedNote.data else n)
    ({ st with notes := notes },
      [call, .setNotes notes,
       .toast { title := if note.isArchived then "Note unarchived".toList
                         else "Note archived".toList,
                description := none, status := .success, duration := 2000,
                isClosable := false }])
  | .error error =>
    (st, [call,
          .toast { title := "Error updating note".toList, description := some error.message,
                   status := .error, duration := 3000, isClosable := false }])

/-- Whether an effect is a remote call that changes a note. -/
def DashEffect.isMutationCall : DashEffect → Bool
  | .updateNote _ _ => true
  | .deleteNote _ => true
  | _ => false

/-- The state after an effect: a state-setter call stores its argument, any
other effect leaves the state as it is. -/
def DashEffect.apply : DashEffect → DashState → DashState
  | .setIsLoading b, st => { st with isLoading := b }
  | .setNotes notes, st => { st with notes := notes }
  | _, st => st

/-- The state of the view at the moment its first note-changing remote call
is issued: the state-setter calls that precede the call in the trace, applied
to the state the handler started from. -/
def stateAtCall (st : DashState) (effects : List DashEffect) : DashState :=
  (effects.takeWhile (fun e => !e.isMutationCall)).foldl (fun s e => e.apply s) st

/-! ## Rendering of the notes (`Dashboard.js`, lines 364-399) -/

/-- What the dashboard shows in place of the notes grid. -/
inductive NotesPane where
  | skeletons
  | noNotesFound
  | cards (notes : List Note)
  deriving DecidableEq, Repr

/-- The notes area of the dashboard: skeletons while loading, a message when
there is no note, otherwise one `NoteCard` per element of `notes`, in order. -/
def renderNotes (st : DashState) : NotesPane :=
  if st.isLoading then .skeletons
  else if st.notes.length = 0 then .noNotesFound
  else .cards st.notes

/-- The invariant of the memoised callback: the values it captured agree
with the current props and state on every dependency of `useCallback`. -/
def View.CallbackInv (v : View) : Prop :=
  deps v.callback.props v.callback.st = deps v.props v.st

/-! ## Call sites of `Dashboard` (`App.js`, `Favorites.js`, `Archive.js`, `FolderView.js`) -/

/-- The places that render a `Dashboard`: the routes `/dashboard` and
`/categories/:category` of `App.js` (lines 96-103 and 136-143),
`Favorites.js` (line 11, route `/favorites`), `Archive.js` (line 11, route
`/archive`) and `FolderView.js` (lines 289-293, route `/folders/*`, with the
path of the folder it shows). -/
inductive CallSite where
  | dashboard
  | favorites
  | archive
  | folderView (folderPath : Option Str)
  | categories (category : Str)
  deriving DecidableEq, Repr

/-- The props a call site passes, together with the `category` parameter
that `useParams()` yields under its route: only the route
`/categories/:category` defines one, and only its element passes
`filterByCategory`. -/
def CallSite.props : CallSite → DashProps
  | .dashboard =>
    { filterFavorites := false, filterArchived := false, filterByCategory := false,
      folderPath := none, hideTitle := false, category := none }
  | .favorites =>
    { filterFavorites := true, filterArchived := false, filterByCategory := false,
      folderPath := none, hideTitle := false, category := none }
  | .archive =>
    { filterFavorites := false, filterArchived := true, filterByCategory := false,
      folderPath := none, hideTitle := false, category := none }
  | .folderView folderPath =>
    { filterFavorites := false, filterArchived := false, filterByCategory := false,
      folderPath := some (orElseOpt folderPath "/".toList), hideTitle := true, category := none }
  | .categories category =>
    { filterFavorites := false, filterArchived := false, filterByCategory := true,
      folderPath := none, hideTitle := false, category := some category }

/-- An event the application can deliver to a dashboard: a change of props
delivers the props of a call site. -/
def Event.fromCallSite : Event → Prop
  | .newProps props => ∃ site : CallSite, props = site.props
  | _ => True

/-- The `filterByCategory` flag of the current props, and of the props the
memoised callback captured, is set exactly when the route defines a
category. -/
def View.FlagInv (v : View) : Prop :=
  v.props.filterByCategory = v.props.category.isSome ∧
  v.callback.props.filterByCategory = v.callback.props.category.isSome

/-! ## Note requests (`api.js`, lines 113-136) and tag handlers (`NoteEditor.js`) -/

/-- The body of a create or update request for a note; a `folder` of `null`
is `none`. -/
structure NoteBody where
  title : Str
  content : Str
  tags : List Str
  category : Str
  folder : Option Str
  images : List Str
  isFavorite : Bool
  deriving DecidableEq, Repr

/-- The body `notesAPI.createNote(note)` posts (`api.js`, lines 115-121):
the note with `category` defaulted to `'Uncategorized'` and `folder` to
`null`; the `tags` and `images` arrays, always truthy, stay as they are. -/
def createNoteBody (note : NoteData) : NoteBody :=
  { title := note.title
    content := note.content
    tags := note.tags
    category := orElse note.category "Uncategorized".toList
    folder := if truthy note.folder then some note.folder else none
    images := note.images
    isFavorite := note.isFavorite }

/-- The body `notesAPI.updateNote(id, note)` puts (`api.js`, line 130): the
note as it is. -/
def updateNoteBody (note : NoteData) : NoteBody :=
  { title := note.title
    content := note.content
    tags := note.tags
    category := note.category
    folder := some note.folder
    images := note.images
    isFavorite := note.isFavorite }

/-- The body sent to the remote store by an effect of `handleSave`, when the
effect is a save call. -/
def EditorEffect.requestBody {R : Type} : EditorEffect R → Option NoteBody
  | .updateNote _ data => some (updateNoteBody data)
  | .createNote data => some (createNoteBody data)
  | _ => none

/-- The handler `handleAddTag(tagToAdd)` (`NoteEditor.js`, lines 165-171);
`tagToAdd` is `none` when the handler is called without an argument. -/
def handleAddTag (tagToAdd : Option Str) (s : EditorState) : EditorState :=
  let trimmedTag := trim (orElseOpt tagToAdd s.newTag)
  if truthy trimmedTag && !s.tags.contains trimmedTag then
    { s with tags := s.tags ++ [trimmedTag], newTag := [] }
  else s

/-- The handler `handleRemoveTag(tagToRemove)` (`NoteEditor.js`, lines
173-175). -/
def handleRemoveTag (tagToRemove : Str) (s : EditorState) : EditorState :=
  { s with tags := s.tags.filter (fun tag => tag != tagToRemove) }

/-- The user operations on the tags of the editor: typing in the tag input,
adding a tag (the typed one or a suggested one) and removing a tag. -/
inductive TagOp where
  | typeTag (value : Str)
  | add (tagToAdd : Option Str)
  | remove (tagToRemove : Str)
  deriving DecidableEq, Repr

/-- The editor state after a tag operation. -/
def applyTagOp (s : EditorState) : TagOp → EditorState
  | .typeTag value => { s with newTag := value }
  | .add tagToAdd => handleAddTag tagToAdd s
  | .remove tagToRemove => handleRemoveTag tagToRemove s

/-! ## Saving from the dashboard (`Dashboard.js`, lines 221-247) -/

/-- The effects of `handleSaveNote`, in order; `fetchNotes` is the call that
starts the refresh, which the handler does not await. -/
inductive SaveNoteEffect where
  | setNotes (notes : List Note)
  | onClose
  | toast (t : Toast)
  | fetchNotes
  deriving DecidableEq, Repr

/-- The handler `Dashboard.handleSaveNote(savedNote)` (`Dashboard.js`, lines
221-247), up to its return: the state it leaves while the refresh it started
is still in flight. -/
def handleSaveNote (props : DashProps) (st : DashState) (savedNote : NoteResponse) :
    DashState × List SaveNoteEffect :=
  let notes :=
    match st.selectedNote with
    | some _ =>
      st.notes.map (fun note => if note._id = savedNote.data._id then savedNote.data else note)
    | none => savedNote.data :: st.notes
  let title := match st.selectedNote with
    | some _ => "Note updated".toList
    | none => "Note created".toList
  ((fetchNotesStart props { st with notes := notes }).1,
    [.setNotes notes, .onClose,
     .toast { title := title, description := none, status := .success, duration := 2000,
              isClosable := false },
     .fetchNotes])

/-! ## Folder tree rendering (`Sidebar.js`, lines 201-229) -/

/-- What `renderFolders` returns: `null`, or the `VStack` holding one
`SidebarItem` per subfolder, each with the rendering of its own subfolders as
children. -/
inductive Rendered where
  | null
  | vstack (items : List (Folder × Rendered))

/-- The list of the values when every element of the list has one. -/
def allSome {α : Type} : List (Option α) → Option (List α)
  | [] => some []
  | none :: _ => none
  | some a :: rest =>
    match allSome rest with
    | some l => some (a :: l)
    | none => none

/-- The function `renderFolders(parentPath)` (`Sidebar.js`, lines 201-229),
run with a bound on the depth of the recursion: `none` when the bound is
exhausted before the computation has returned. The children expression
`renderFolders(folder.path)` of every item is evaluated when the item is
built, whether the folder is expanded or not. -/
def renderFolders (folders : List Folder) : Nat → Str → Option Rendered
  | 0, _ => none
  | fuel + 1, parentPath =>
    let subs := subfolders folders parentPath
    if subs.length = 0 then some .null
    else
      match allSome (subs.map (fun folder =>
          match renderFolders folders fuel folder.path with
          | some r => some (folder, r)
          | none => none)) with
      | some items => some (.vstack items)
      | none => none

/-! ## Registration form (`Register.js`, lines 37-118) -/

/-- The `formData` state of `Register`. -/
structure RegisterForm where
  name : Str
  email : Str
  password : Str
  confirmPassword : Str
  deriving DecidableEq, Repr

/-- The `newErrors` object of `validateForm`: a property that was not
assigned is `none`. -/
structure FormErrors where
  name : Option Str
  email : Option Str
  password : Option Str
  confirmPassword : Option Str
  deriving DecidableEq, Repr

/-- The value of `Object.keys(newErrors).length`. -/
def FormErrors.keyCount (e : FormErrors) : Nat :=
  (if e.name.isSome then 1 else 0) + (if e.email.isSome then 1 else 0) +
  (if e.password.isSome then 1 else 0) + (if e.confirmPassword.isSome then 1 else 0)

/-- The classes of characters the pattern `\S+@\S+\.\S+` tells apart. -/
inductive Sym where
  | atSign
  | dot
  | other
  | space
  deriving DecidableEq, Repr

/-- The class of a character: `space` for the characters `\s` matches (the
white space and line terminators of ECMAScript), otherwise `@`, `.` or any
other character. -/
def classify (c : Char) : Sym :=
  if isTrimChar c then .space
  else if c = '@' then .atSign
  else if c = '.' then .dot
  else .other

/-- The class `\S`. -/
def nonSpace : RegularExpression Sym :=
  RegularExpression.char Sym.atSign + RegularExpression.char Sym.dot +
    RegularExpression.char Sym.other

/-- Any character. -/
def anySym : RegularExpression Sym := nonSpace + RegularExpression.char Sym.space

/-- The pattern `\S+`. -/
def nonSpaces : RegularExpression Sym := nonSpace * RegularExpression.star nonSpace

/-- The pattern `\S+@\S+\.\S+`. -/
def emailPattern : RegularExpression Sym :=
  nonSpaces * RegularExpression.char Sym.atSign * nonSpaces *
    RegularExpression.char Sym.dot * nonSpaces

/-- The test `/\S+@\S+\.\S+/.test(s)`: some substring of `s` matches the
pattern. The pattern has no `u` flag and is matched against UTF-16 code
units; both code units of a character above `U+FFFF` are matched by `\S` and
by nothing else of the pattern, as the class `other` is, so a match exists
among the code units iff one exists among the characters. -/
def testEmail (s : Str) : Bool :=
  (RegularExpression.star anySym * emailPattern * RegularExpression.star anySym).rmatch
    (s.map classify)

/-- The number of UTF-16 code units that encode a character: two (a
surrogate pair) for a character above `U+FFFF`, one otherwise. -/
def utf16Units (c : Char) : Nat := if c.toNat < 0x10000 then 1 else 2

/-- The `length` property of a string: the number of its UTF-16 code units. -/
def jsLength (s : Str) : Nat := (s.map utf16Units).sum

/-- The function `Register.validateForm` (`Register.js`, lines 37-57): the
errors it passes to `setErrors` and the boolean it returns. -/
def validateForm (formData : RegisterForm) : FormErrors × Bool :=
  let newErrors : FormErrors :=
    { name := if !truthy (trim formData.name) then some "Name is required".toList else none
      email :=
        if !truthy (trim formData.email) then some "Email is required".toList
        else if !testEmail formData.email then some "Email is invalid".toList
        else none
      password :=
        if !truthy formData.password then some "Password is required".toList
        else if jsLength formData.password < 6 then
          some "Password must be at least 6 characters".toList
        else none
      confirmPassword :=
        if formData.password ≠ formData.confirmPassword then
          some "Passwords do not match".toList
        else none }
  (newErrors, newErrors.keyCount == 0)

/-- The `useState` cells of `Register`. -/
structure RegisterState where
  formData : RegisterForm
  errors : FormErrors
  showPassword : Bool
  isLoading : Bool
  deriving DecidableEq, Repr

/-- What the registration request resolves to, as far as it is read:
`response.ok` and the `message` of the parsed body. -/
structure RegisterResponse where
  ok : Bool
  message : Option Str
  deriving DecidableEq, Repr

/-- The effects of `handleSubmit`, in order; `register` is the request
posted to `/api/auth/register` with the body it carries. -/
inductive RegisterEffect where
  | preventDefault
  | setErrors (errors : FormErrors)
  | setIsLoading (b : Bool)
  | register (name email password : Str)
  | toast (t : Toast)
  | navigate (route : Str)
  deriving DecidableEq, Repr

/-- Whether an effect is the registration request. -/
def RegisterEffect.isRequest : RegisterEffect → Bool
  | .register _ _ _ => true
  | _ => false

/-- The handler `Register.handleSubmit` (`Register.js`, lines 74-118).
`outcome` is the outcome of the awaited `fetch` and `response.json()`: an
error when either fails. -/
def handleSubmit (s : RegisterState) (outcome : Except JSError RegisterResponse) :
    RegisterState × List RegisterEffect :=
  let validated := validateForm s.formData
  if !validated.2 then
    ({ s with errors := validated.1 }, [.preventDefault, .setErrors validated.1])
  else
    let request := RegisterEffect.register s.formData.name s.formData.email s.formData.password
    let failed (message : Str) : RegisterState × List RegisterEffect :=
      ({ s with errors := validated.1, isLoading := false },
        [.preventDefault, .setErrors validated.1, .setIsLoading true, request,
         .toast { title := "Error".toList, description := some message, status := .error,
                  duration := 5000, isClosable := true },
         .setIsLoading false])
    match outcome with
    | .error error => failed error.message
    | .ok response =>
      if !response.ok then failed (orElseOpt response.message "Registration failed".toList)
      else
        ({ s with errors := validated.1, isLoading := false },
          [.preventDefault, .setErrors validated.1, .setIsLoading true, request,
           .toast { title := "Registration successful".toList,
                    description := some "You can now sign in with your credentials".toList,
                    status := .success, duration := 5000, isClosable := true },
           .navigate "/login".toList, .setIsLoading false])

/-! ## Image URLs (`api.js`, lines 62-67) -/

/-- The text a template literal inserts for a value that may be undefined. -/
def templateValue : Option Str → Str
  | none => "undefined".toList
  | some s => s

/-- The function `getFullImageUrl(imageUrl)` (`api.js`, lines 63-67);
`apiUrl` is the value of `process.env.REACT_APP_API_URL`, and `none` stands
for `null` and `undefined`. -/
def getFullImageUrl (apiUrl : Option Str) (imageUrl : Option Str) : Option Str :=
  match imageUrl with
  | none => none
  | some u =>
    if !truthy u then none
    else if "http".toList.isPrefixOf u then some u
    else some (templateValue apiUrl ++ u)

/-- The folder name an effect passes to `foldersAPI.createFolder`, when the
effect is the create call. -/
def FolderEffect.createName : FolderEffect → Option Str
  | .createFolder _ name => some name
  | _ => none

/-! ## Concrete inputs -/

/-- An editor opened for a new note in the root folder, no rich-text editor
mounted yet. -/
def newNoteEnv : EditorEnv := { note := none, folder := "/".toList, editorRef := none }

/-- An editor state whose title is blank. -/
def blankTitleEditor : EditorState :=
  { title := "  ".toList, content := "<p>text</p>".toList, tags := [],
    category := "Work".toList, newTag := [], isSaving := false, existingTags := [],
    existingCategories := [], newCategory := [], images := [], isFavorite := false }

/-- Query parameters that name the sort field `title` and nothing else. -/
def titleOnlyParams : Params :=
  { sort := some "title".toList, order := none, folder := none, tags := none,
    search := none, category := none }

/-- The props of the "All Notes" dashboard, `<Dashboard />`. -/
def allNotesProps : DashProps :=
  { filterFavorites := false, filterArchived := false, filterByCategory := false,
    folderPath := none, hideTitle := false, category := none }

/-- The folder `/Work`. -/
def workFolder : Folder := { path := "/Work".toList, name := "Work".toList }

/-- The folder `/Work/2024`. -/
def work2024Folder : Folder := { path := "/Work/2024".toList, name := "2024".toList }

/-- The folder `/Projects`. -/
def projectsFolder : Folder := { path := "/Projects".toList, name := "Projects".toList }

/-- A folder page at the root: the sidebar holds `/Work` and `/Work/2024`, the
folder view holds `/Work`, and the rename dialog is open on `/Work` with the
new name `Projects` entered. -/
def workPage : FolderPage :=
  { sidebar := { initialSidebarState with folders := [workFolder, work2024Folder] }
    view :=
      { folderPath := none, folderData := some { folders := [workFolder] },
        isLoading := false, selectedFolder := some workFolder,
        newName := "Projects".toList, newFolderName := [], isDeleteOpen := false,
        isRenameOpen := true, isNewFolderOpen := false } }

/-- A sidebar that holds `/Work`, with the name `Work` entered in its
new-folder dialog for the parent `/`. -/
def duplicateSidebar : SidebarState :=
  { initialSidebarState with
    folders := [workFolder], isOpen := true, newFolderName := "Work".toList }

/-- A folder view at the root that holds `/Work`, with the name `Work`
entered in its new-folder dialog. -/
def duplicateFolderView : FolderViewState :=
  { folderPath := none, folderData := some { folders := [workFolder] },
    isLoading := false, selectedFolder := none, newName := [],
    newFolderName := "Work".toList, isDeleteOpen := false, isRenameOpen := false,
    isNewFolderOpen := true }

/-- A sidebar with a blank name entered in its new-folder dialog. -/
def blankNameSidebar : SidebarState :=
  { initialSidebarState with
    folders := [workFolder], isOpen := true, newFolderName := "  ".toList }

/-- A note with the given id and title. -/
def sampleNote (id title : Str) : Note :=
  { _id := id, title := title, content := "<p>text</p>".toList, tags := [],
    category := "Work".toList, folder := "/".toList, isFavorite := false,
    isArchived := false }

/-- The response to the fetch for the first descriptor. -/
def firstResponse : NotesResponse :=
  { data := some [sampleNote "1".toList "alpha".toList, sampleNote "2".toList "roadmap".toList] }

/-- The response to the fetch for the second descriptor. -/
def secondResponse : NotesResponse :=
  { data := some [sampleNote "2".toList "roadmap".toList] }

/-- An empty sidebar with the name `Work` entered in its new-folder dialog
for the parent `/`. -/
def createWorkSidebar : SidebarState :=
  { initialSidebarState with isOpen := true, newFolderName := "Work".toList }

/-- A folder view showing the folder `Work` with the name `2024` entered in
its new-folder dialog. -/
def createIn2024FolderView : FolderViewState :=
  { folderPath := some "Work".toList, folderData := some { folders := [] },
    isLoading := false, selectedFolder := none, newName := [],
    newFolderName := "2024".toList, isDeleteOpen := false, isRenameOpen := false,
    isNewFolderOpen := true }

/-- A valid editor state for a new note. -/
def validEditor : EditorState :=
  { title := "Plan".toList, content := "<p>text</p>".toList, tags := [],
    category := "Work".toList, newTag := [], isSaving := false, existingTags := [],
    existingCategories := [], newCategory := [], images := [], isFavorite := false }

/-- A server body that reports a failure with the given message. -/
def failureBody (message : Str) : Body Unit :=
  { success := some false, message := some message, data := .undefined }

/-- A dashboard state holding one note that is neither favorite nor archived. -/
def oneNoteState : DashState :=
  { initialDashState with
    notes := [sampleNote "1".toList "alpha".toList], isLoading := false }

/-- The props of the favorites dashboard with a folder path supplied. -/
def favoritesInFolderProps : DashProps :=
  { filterFavorites := true, filterArchived := false, filterByCategory := false,
    folderPath := some "/Work".toList, hideTitle := false, category := none }

/-- An editor opened on the existing note `n1`. -/
def editNoteEnv : EditorEnv :=
  { note := some { _id := some "n1".toList }, folder := "/".toList, editorRef := none }

/-- An editor state whose category holds two spaces. -/
def blankCategoryEditor : EditorState :=
  { title := "Plan".toList, content := "<p>text</p>".toList, tags := [],
    category := "  ".toList, newTag := [], isSaving := false, existingTags := [],
    existingCategories := [], newCategory := [], images := [], isFavorite := false }

/-- A dashboard state holding two notes, with the first selected for editing. -/
def editingState : DashState :=
  { initialDashState with
    notes := [sampleNote "1".toList "alpha".toList, sampleNote "2".toList "roadmap".toList]
    selectedNote := some (sampleNote "1".toList "alpha".toList), isLoading := false }

/-- A successful response body with the given `data` property. -/
def successBody (data : DataField (List Nat)) : Body (List Nat) :=
  { success := some true, message := none, data := data }

/-- A sidebar with the name ` Work`, a leading space included, entered for
the parent `/`. -/
def paddedNameSidebar : SidebarState :=
  { initialSidebarState with isOpen := true, newFolderName := " Work".toList }

/-- A folder view at the root with the name ` Work`, a leading space
included, entered in its new-folder dialog. -/
def paddedNameFolderView : FolderViewState :=
  { folderPath := none, folderData := some { folders := [] }, isLoading := false,
    selectedFolder := none, newName := [], newFolderName := " Work".toList,
    isDeleteOpen := false, isRenameOpen := false, isNewFolderOpen := true }

/-- An editor state for a new note whose tags are `a` and ` a`, the second
with a leading space. -/
def untrimmedTagsEditor : EditorState :=
  { title := "Plan".toList, content := "<p>text</p>".toList,
    tags := ["a".toList, " a".toList], category := "Work".toList, newTag := [],
    isSaving := false, existingTags := [], existingCategories := [], newCategory := [],
    images := [], isFavorite := false }

/-- A folder list holding a folder whose path is `/`. -/
def rootFolderList : List Folder := [{ path := "/".toList, name := "Root".toList }]

/-- A registration form whose password and confirmation are three times the
character `U+1F600`: three characters, six UTF-16 code units. -/
def emojiPasswordForm : RegisterForm :=
  { name := "Ann".toList, email := "ann@mail.org".toList,
    password := [Char.ofNat 0x1F600, Char.ofNat 0x1F600, Char.ofNat 0x1F600],
    confirmPassword := [Char.ofNat 0x1F600, Char.ofNat 0x1F600, Char.ofNat 0x1F600] }

/-- The state of the registration page holding the given form, before any
submission. -/
def registerStateOf (form : RegisterForm) : RegisterState :=
  { formData := form
    errors := { name := none, email := none, password := none, confirmPassword := none }
    showPassword := false, isLoading := false }

/-- A run of a dashboard under the route `/categories/work`: the search text
is typed, the poll timer fires, the props of the favorites page are
delivered and then those of the category route again. -/
def categoryRun : List Event :=
  [.action (.search "roadmap".toList), .tick 2, .newProps CallSite.favorites.props,
   .newProps (CallSite.categories "work".toList).props]

/-! ## Theorems -/

theorem mem_subfolders (folders : List Folder) (p : Str) (f : Folder) :
    f ∈ subfolders folders p ↔ f ∈ folders ∧ parentOf f.path = p := by
  simp [subfolders, List.mem_filter]

/-- C1 (child-of invariant). The children that `renderFolders(p)` computes
from a folder list `L` are exactly the folders of `L` whose `parentOf` path is
`p`, in list order: a folder is among them iff it is in `L` with parent `p`,
they form a sublist of `L`, every folder with parent `p` occurs as often as in
`L`, every child has parent `p`, and a list that contains
`{path: '/Work', name: 'Work'}` has that folder among the children of `'/'`. -/
theorem child_of_invariant (L : List Folder) (p : Str) :
    (∀ f, f ∈ subfolders L p ↔ f ∈ L ∧ parentOf f.path = p) ∧
    (subfolders L p).Sublist L ∧
    (∀ f, parentOf f.path = p → (subfolders L p).count f = L.count f) ∧
    (∀ f ∈ subfolders L p, parentOf f.path = p) ∧
    (({ path := "/Work".toList, name := "Work".toList } : Folder) ∈ L →
      ({ path := "/Work".toList, name := "Work".toList } : Folder)
        ∈ subfolders L "/".toList) := by
  refine ⟨mem_subfolders L p, ?_, ?_, ?_, ?_⟩
  · exact List.filter_sublist L
  · intro f hf
    unfold subfolders
    rw [List.count_filter]
    simpa using hf
  · intro f hf
    exact ((mem_subfolders L p f).1 hf).2
  · intro h
    exact (mem_subfolders L _ _).2 ⟨h, by decide⟩

/-- An instance of C1: the children of `/` in the list `/Work`, `/Work/2024`
are exactly `/Work`. -/
theorem child_of_invariant_witness :
    (({ path := "/Work".toList, name := "Work".toList } : Folder)
        ∈ [({ path := "/Work".toList, name := "Work".toList } : Folder),
           { path := "/Work/2024".toList, name := "2024".toList }]) ∧
    subfolders [({ path := "/Work".toList, name := "Work".toList } : Folder),
           { path := "/Work/2024".toList, name := "2024".toList }] "/".toList
      = [{ path := "/Work".toList, name := "Work".toList }] ∧
    ({ path := "/Work".toList, name := "Work".toList } : Folder)
        ∈ subfolders [({ path := "/Work".toList, name := "Work".toList } : Folder),
           { path := "/Work/2024".toList, name := "2024".toList }] "/".toList :=
  ⟨by decide, by decide,
   (child_of_invariant _ "/".toList).2.2.2.2 (by decide)⟩

theorem handleSave_of_blank_title {R : Type} (env : EditorEnv) (s : EditorState)
    (save : Except JSError R) (cats : Except JSError Unit) (h : trim s.title = []) :
    handleSave env s save cats =
      (s, [.toast { title := "Title is required".toList, description := none,
                    status := .error, duration := 3000, isClosable := true }]) := by
  simp [handleSave, truthy, h]

theorem handleSave_of_no_category {R : Type} (env : EditorEnv) (s : EditorState)
    (save : Except JSError R) (cats : Except JSError Unit)
    (ht : trim s.title ≠ []) (h : s.category = []) :
    handleSave env s save cats =
      (s, [.toast { title := "Category is required".toList,
                    description := some "Please select or create a category".toList,
                    status := .error, duration := 3000, isClosable := true }]) := by
  simp [handleSave, truthy, h, ht]

theorem handleSave_of_blank_content {R : Type} (env : EditorEnv) (s : EditorState)
    (save : Except JSError R) (cats : Except JSError Unit)
    (ht : trim s.title ≠ []) (hc : s.category ≠ [])
    (h : trim (currentContent env s) = []) :
    handleSave env s save cats =
      (s, [.toast { title := "Content is required".toList, description := none,
                    status := .error, duration := 3000, isClosable := true }]) := by
  simp [handleSave, truthy, h, ht, hc]

theorem saveCall_isSaveCall (R : Type) (env : EditorEnv) (d : NoteData) :
    (saveCall R env d).isSaveCall = true := by
  unfold saveCall
  cases noteId env <;> rfl

theorem handleSave_of_valid {R : Type} (env : EditorEnv) (s : EditorState)
    (save : Except JSError R) (cats : Except JSError Unit)
    (ht : trim s.title ≠ []) (hc : s.category ≠ [])
    (h : trim (currentContent env s) ≠ []) :
    ∃ rest, handleSave env s save cats =
      ({ s with isSaving := false },
        .setIsSaving true ::
          saveCall R env (buildNoteData env s (currentContent env s)) :: rest) := by
  have h1 : (!truthy (trim s.title)) = false := by simp [truthy, ht]
  have h2 : (!truthy s.category) = false := by simp [truthy, hc]
  have h3 : (!truthy (trim (currentContent env s))) = false := by simp [truthy, h]
  simp only [handleSave, h1, h2, h3, Bool.false_eq_true, if_false]
  cases save with
  | error e => exact ⟨_, rfl⟩
  | ok r =>
    by_cases hf : s.isFavorite = true
    · cases cats with
      | error e => simp only [hf, if_true]; exact ⟨_, rfl⟩
      | ok u => simp only [hf, if_true]; exact ⟨_, rfl⟩
    · simp only [hf, if_false]; exact ⟨_, rfl⟩

/-- C2 (note validation fails fast). For every editor state and every outcome
of the remote calls, `handleSave` issues a remote create/update call iff the
title is non-empty after trimming, the category is non-empty and the content
(the one `handleSave` validates and sends: the editor's current content) is
non-empty after trimming; when one of the three is empty the whole effect of
`handleSave` is a single error toast: no remote call of any kind is issued, no
state setter is called and the editor state is unchanged. -/
theorem save_validation_fails_fast {R : Type} (env : EditorEnv) (s : EditorState)
    (save : Except JSError R) (cats : Except JSError Unit) :
    ((∃ e ∈ (handleSave env s save cats).2, e.isSaveCall = true) ↔
      (trim s.title ≠ [] ∧ s.category ≠ [] ∧ trim (currentContent env s) ≠ [])) ∧
    (¬ (trim s.title ≠ [] ∧ s.category ≠ [] ∧ trim (currentContent env s) ≠ []) →
      (handleSave env s save cats).1 = s ∧
      (∀ e ∈ (handleSave env s save cats).2, e.isRemoteCall = false) ∧
      ∃ t, (handleSave env s save cats).2 = [.toast t] ∧ t.status = .error) := by
  by_cases ht : trim s.title = []
  · rw [handleSave_of_blank_title env s save cats ht]
    simp [ht, EditorEffect.isSaveCall, EditorEffect.isRemoteCall]
  by_cases hc : s.category = []
  · rw [handleSave_of_no_category env s save cats ht hc]
    simp [hc, EditorEffect.isSaveCall, EditorEffect.isRemoteCall]
  by_cases h : trim (currentContent env s) = []
  · rw [handleSave_of_blank_content env s save cats ht hc h]
    simp [h, EditorEffect.isSaveCall, EditorEffect.isRemoteCall]
  · obtain ⟨rest, hrest⟩ := handleSave_of_valid env s save cats ht hc h
    rw [hrest]
    refine ⟨⟨fun _ => ⟨ht, hc, h⟩, fun _ => ⟨_, List.mem_cons_of_mem _ (List.mem_cons_self _ _),
      saveCall_isSaveCall R env _⟩⟩, ?_⟩
    intro hn
    exact absurd ⟨ht, hc, h⟩ hn

/-- An instance of C2: saving with a blank title only shows the error toast. -/
theorem save_validation_fails_fast_witness :
    ¬ (trim blankTitleEditor.title ≠ [] ∧ blankTitleEditor.category ≠ [] ∧
        trim (currentContent newNoteEnv blankTitleEditor) ≠ []) ∧
    (handleSave newNoteEnv blankTitleEditor (Except.ok ()) (Except.ok ())).1
      = blankTitleEditor ∧
    (handleSave newNoteEnv blankTitleEditor (Except.ok ()) (Except.ok ())).2
      = [.toast { title := "Title is required".toList, description := none,
                  status := .error, duration := 3000, isClosable := true }] :=
  ⟨by decide,
   ((save_validation_fails_fast newNoteEnv blankTitleEditor (Except.ok ()) (Except.ok ())).2
      (by decide)).1,
   by decide⟩

/-- C3 (fetch failure preserves the result set). For every view state and
every error the list call fails with, after `fetchNotes` the notes sequence is
the one held before (no `setNotes` call is made), the view is not loading, the
rest of the state is untouched, and the failure is reported with status
`error` and the error message as its detail. -/
theorem fetch_failure_preserves_notes (props : DashProps) (st : DashState) (error : JSError) :
    (fetchNotes props st (.error error)).1.notes = st.notes ∧
    (fetchNotes props st (.error error)).1.isLoading = false ∧
    (fetchNotes props st (.error error)).1 = { st with isLoading := false } ∧
    (∀ e ∈ (fetchNotes props st (.error error)).2, ∀ l, e ≠ DashEffect.setNotes l) ∧
    (∃ t, DashEffect.toast t ∈ (fetchNotes props st (.error error)).2 ∧
      t.status = .error ∧ t.description = some error.message) ∧
    (fetchNotes props st (.error error)).2.getLast? = some (.setIsLoading false) := by
  refine ⟨rfl, rfl, rfl, ?_, ⟨fetchErrorToast error, ?_, rfl, rfl⟩, ?_⟩
  · intro e he l
    simp [fetchNotes, fetchNotesStart, fetchNotesSettle] at he
    rcases he with h | h | h | h <;> simp [h]
  · simp [fetchNotes, fetchNotesStart, fetchNotesSettle]
  · simp [fetchNotes, fetchNotesStart, fetchNotesSettle]

/-- C4 (toggle-favorite rollback). For every dashboard state and every note
(in the notes sequence or not), when the `updateNote` call made by
`handleToggleFavorite` fails the state after the handler is the state before
it: the notes sequence, with the favorite flag of every note, and the loading
flag are unchanged, and no state setter was called. -/
theorem toggle_favorite_failure_restores (st : DashState) (note : Note) (error : JSError) :
    (handleToggleFavorite st note (.error error)).1 = st ∧
    (handleToggleFavorite st note (.error error)).1.notes = st.notes ∧
    (handleToggleFavorite st note (.error error)).1.isLoading = st.isLoading ∧
    (∀ e ∈ (handleToggleFavorite st note (.error error)).2, e.isSetter = false) ∧
    (handleToggleFavorite st note (.error error)).2.head? =
      some (.updateNote note._id { note with isFavorite := !note.isFavorite }) := by
  refine ⟨rfl, rfl, rfl, ?_, rfl⟩
  intro e he
  simp [handleToggleFavorite] at he
  rcases he with h | h <;> simp [h, DashEffect.isSetter]

/-- The sort field and order reachable through the user actions: the pairs
the "Sort By" menu sets, the initial pair among them. -/
theorem sort_pair_of_actions (actions : List DashAction) :
    let st := actions.foldl (fun s a => applyAction a s) initialDashState
    (st.sortBy = "updatedAt".toList ∧ st.sortOrder = "desc".toList) ∨
    (st.sortBy = "createdAt".toList ∧ st.sortOrder = "desc".toList) ∨
    (st.sortBy = "title".toList ∧ st.sortOrder = "asc".toList) := by
  have key : ∀ (as : List DashAction) (s : DashState),
      ((s.sortBy = "updatedAt".toList ∧ s.sortOrder = "desc".toList) ∨
       (s.sortBy = "createdAt".toList ∧ s.sortOrder = "desc".toList) ∨
       (s.sortBy = "title".toList ∧ s.sortOrder = "asc".toList)) →
      (((as.foldl (fun s a => applyAction a s) s).sortBy = "updatedAt".toList ∧
        (as.foldl (fun s a => applyAction a s) s).sortOrder = "desc".toList) ∨
       ((as.foldl (fun s a => applyAction a s) s).sortBy = "createdAt".toList ∧
        (as.foldl (fun s a => applyAction a s) s).sortOrder = "desc".toList) ∨
       ((as.foldl (fun s a => applyAction a s) s).sortBy = "title".toList ∧
        (as.foldl (fun s a => applyAction a s) s).sortOrder = "asc".toList)) := by
    intro as
    induction as with
    | nil => intro s h; exact h
    | cons a rest ih =>
      intro s h
      rw [List.foldl_cons]
      apply ih
      cases a with
      | sort item =>
        cases item
        · exact Or.inl ⟨rfl, rfl⟩
        · exact Or.inr (Or.inl ⟨rfl, rfl⟩)
        · exact Or.inr (Or.inr ⟨rfl, rfl⟩)
      | search query => exact h
      | tagSelect tag => exact h
      | selectCategory value => exact h
  exact key actions initialDashState (Or.inl ⟨rfl, rfl⟩)

theorem requestParams_fetchNotesCall_sort (props : DashProps) (st : DashState)
    (hs : st.sortBy ≠ []) (ho : st.sortOrder ≠ []) :
    (fetchNotesCall props st).requestParams.sort = some st.sortBy ∧
    (fetchNotesCall props st).requestParams.order = some st.sortOrder := by
  unfold fetchNotesCall
  split_ifs
  · exact ⟨rfl, rfl⟩
  · exact ⟨rfl, rfl⟩
  · exact ⟨rfl, rfl⟩
  · exact ⟨rfl, rfl⟩
  · simp [ListCall.requestParams, getNotesParams, fetchParams, orElseOpt, orElse, truthy, hs, ho]

/-- C5, the claim as stated fails: `notesAPI.getNotes` called with the sort
field `title` and no order sends the order `desc`, not `asc`. -/
theorem getNotes_title_order_counterexample :
    (ListCall.getNotes titleOnlyParams).requestParams.sort
      = some "title".toList ∧
    (ListCall.getNotes titleOnlyParams).requestParams.order
      = some "desc".toList ∧
    (ListCall.getNotes titleOnlyParams).requestParams.order
      ≠ some "asc".toList := by
  decide

/-- C5 (sort-order defaulting, amended). The dashboard starts with the sort
field `updatedAt` and the order `desc`; after every sequence of user actions
the sort field sent to the remote store by `fetchNotes` is the selected one,
one of `updatedAt`, `createdAt`, `title`, and the order sent is `asc` when the
field is `title` and `desc` when it is `updatedAt` or `createdAt`.
`notesAPI.getNotes` itself sends a given sort field and order unchanged when
they are non-empty, defaults a missing sort field to `updatedAt` and defaults
a missing order to `desc` whatever the sort field. -/
theorem sort_order_defaulting :
    (initialDashState.sortBy = "updatedAt".toList ∧
      initialDashState.sortOrder = "desc".toList) ∧
    (∀ (props : DashProps) (actions : List DashAction),
      let st := actions.foldl (fun s a => applyAction a s) initialDashState
      let sent := (fetchNotesCall props st).requestParams
      sent.sort = some st.sortBy ∧
      st.sortBy ∈ ["updatedAt".toList, "createdAt".toList, "title".toList] ∧
      (st.sortBy = "title".toList → sent.order = some "asc".toList) ∧
      (st.sortBy = "updatedAt".toList ∨ st.sortBy = "createdAt".toList →
        sent.order = some "desc".toList)) ∧
    (∀ params : Params,
      (params.sort = none → (ListCall.getNotes params).requestParams.sort
        = some "updatedAt".toList) ∧
      (params.order = none → (ListCall.getNotes params).requestParams.order
        = some "desc".toList) ∧
      (∀ f, f ≠ [] → params.sort = some f →
        (ListCall.getNotes params).requestParams.sort = some f) ∧
      (∀ o, o ≠ [] → params.order = some o →
        (ListCall.getNotes params).requestParams.order = some o)) := by
  refine ⟨⟨rfl, rfl⟩, ?_, ?_⟩
  · intro props actions
    have hpair := sort_pair_of_actions actions
    simp only at hpair ⊢
    generalize actions.foldl (fun s a => applyAction a s) initialDashState = st at hpair
    rcases hpair with ⟨h1, h2⟩ | ⟨h1, h2⟩ | ⟨h1, h2⟩ <;>
      · obtain ⟨h3, h4⟩ := requestParams_fetchNotesCall_sort props st
          (by rw [h1]; decide) (by rw [h2]; decide)
        rw [h3, h4, h1, h2]
        refine ⟨rfl, by decide, ?_, ?_⟩
        · intro h; first | rfl | exact absurd h (by decide)
        · intro h; first | rfl | exact absurd h (by decide)
  · intro params
    refine ⟨?_, ?_, ?_, ?_⟩
    · intro h; simp [ListCall.requestParams, getNotesParams, h, orElseOpt]
    · intro h; simp [ListCall.requestParams, getNotesParams, h, orElseOpt]
    · intro f hf h
      simp [ListCall.requestParams, getNotesParams, h, orElseOpt, orElse, truthy, hf]
    · intro o ho h
      simp [ListCall.requestParams, getNotesParams, h, orElseOpt, orElse, truthy, ho]

/-- An instance of C5: after a search and a click on the Title item the
dashboard sends the order `asc`. -/
theorem sort_order_defaulting_witness :
    (let st := [DashAction.search "roadmap".toList, DashAction.sort SortItem.title].foldl
        (fun s a => applyAction a s) initialDashState
     st.sortBy = "title".toList ∧
     (fetchNotesCall allNotesProps st).requestParams.order = some "asc".toList) :=
  ⟨by decide,
   ((sort_order_defaulting.2.1 allNotesProps
      [DashAction.search "roadmap".toList, DashAction.sort SortItem.title]).2.2.1)
      (by decide)⟩

/-- C6 (view kind is mutually exclusive). For every combination of the inputs
one run of `fetchNotes` calls exactly one list operation, whatever its
outcome, and that operation is: favorites iff `filterFavorites`; archived iff
not `filterFavorites` and `filterArchived`; by-category iff neither of them,
`filterByCategory` and a non-empty route category (which is the category
requested); by-folder iff none of the above and a non-empty `folderPath`
(which is the folder requested); all iff none of the above. -/
theorem view_kind_exclusive (props : DashProps) (st : DashState)
    (outcome : Except JSError NotesResponse) :
    (∃ call, (fetchNotes props st outcome).2.filter DashEffect.isListCall = [.list call] ∧
      call = fetchNotesCall props st) ∧
    ((fetchNotesCall props st).kind = .favorites ↔ props.filterFavorites = true) ∧
    ((fetchNotesCall props st).kind = .archived ↔
      props.filterFavorites = false ∧ props.filterArchived = true) ∧
    ((fetchNotesCall props st).kind = .byCategory ↔
      props.filterFavorites = false ∧ props.filterArchived = false ∧
      props.filterByCategory = true ∧ ∃ c, props.category = some c ∧ c ≠ []) ∧
    ((fetchNotesCall props st).kind = .byFolder ↔
      props.filterFavorites = false ∧ props.filterArchived = false ∧
      ¬ (props.filterByCategory = true ∧ ∃ c, props.category = some c ∧ c ≠ []) ∧
      ∃ fp, props.folderPath = some fp ∧ fp ≠ []) ∧
    ((fetchNotesCall props st).kind = .all ↔
      props.filterFavorites = false ∧ props.filterArchived = false ∧
      ¬ (props.filterByCategory = true ∧ ∃ c, props.category = some c ∧ c ≠ []) ∧
      ¬ ∃ fp, props.folderPath = some fp ∧ fp ≠ []) ∧
    (∀ c params, fetchNotesCall props st = .getNotesByCategory c params →
      props.category = some c) ∧
    (∀ fp params, fetchNotesCall props st = .getNotesByFolder fp params →
      props.folderPath = some fp) := by
  obtain ⟨ff, fa, fbc, folderPath, hideTitle, category⟩ := props
  refine ⟨⟨_, ?_, rfl⟩, ?_⟩
  · cases outcome <;>
      simp [fetchNotes, fetchNotesStart, fetchNotesSettle, DashEffect.isListCall]
  · cases ff <;> cases fa <;> cases fbc <;> rcases category with _ | c <;>
      rcases folderPath with _ | fp <;>
      (try rcases c with _ | ⟨c0, cs⟩) <;> (try rcases fp with _ | ⟨f0, fs⟩) <;>
      simp [fetchNotesCall, ListCall.kind, truthyOpt, truthy]

theorem View.startFetch_fields (v : View) (cb : Callback) :
    (v.startFetch cb).mounted = v.mounted ∧ (v.startFetch cb).timers = v.timers ∧
    (v.startFetch cb).pollingInterval = v.pollingInterval ∧
    (v.startFetch cb).nextTimerId = v.nextTimerId ∧
    (v.startFetch cb).callback = v.callback := by
  unfold View.startFetch View.setState
  split_ifs <;> exact ⟨rfl, rfl, rfl, rfl, rfl⟩

theorem View.runEffect_timerInv (v : View) (hm : v.mounted = true) (ht : v.timers = [])
    (hn : 0 < v.nextTimerId) : (v.runEffect).TimerInv := by
  obtain ⟨h1, h2, _, h4, h5⟩ := v.startFetch_fields v.callback
  refine ⟨?_, ?_, ?_⟩
  · show 0 < (v.startFetch v.callback).nextTimerId + 1
    omega
  · intro _
    refine ⟨v.nextTimerId, hn, ?_, ?_⟩
    · show some (v.startFetch v.callback).nextTimerId = some v.nextTimerId
      rw [h4]
    · show (v.startFetch v.callback).timers ++
          [{ id := (v.startFetch v.callback).nextTimerId, delay := 30000,
             callback := (v.startFetch v.callback).callback }]
            = [{ id := v.nextTimerId, delay := 30000,
                 callback := (v.startFetch v.callback).callback }]
      rw [h2, ht, h4]
      rfl
  · intro h
    have : (v.runEffect).mounted = (v.startFetch v.callback).mounted := rfl
    rw [this, h1, hm] at h
    exact absurd h (by decide)

theorem View.cleanup_timers (v : View) (id : Nat) (cb : Callback) (hid : 0 < id)
    (hp : v.pollingInterval = some id)
    (ht : v.timers = [{ id := id, delay := 30000, callback := cb }]) :
    (v.cleanup).timers = [] ∧ (v.cleanup).mounted = v.mounted ∧
    (v.cleanup).nextTimerId = v.nextTimerId ∧ (v.cleanup).st = v.st ∧
    (v.cleanup).issued = v.issued := by
  unfold View.cleanup
  rw [hp]
  have hne : id ≠ 0 := by omega
  simp [hne, ht]

theorem View.rerender_timerInv (v : View) (props : DashProps) (st : DashState)
    (hm : v.mounted = true) (h : v.TimerInv) : (v.rerender props st).TimerInv := by
  obtain ⟨hn, hmt, _⟩ := h
  obtain ⟨id, hid, hp, ht⟩ := hmt hm
  unfold View.rerender
  split_ifs with hd
  · exact ⟨hn, fun _ => ⟨id, hid, hp, ht⟩, fun hf => by
      have : v.mounted = false := hf
      rw [hm] at this
      exact absurd this (by decide)⟩
  · obtain ⟨c1, c2, c3, _, _⟩ := View.cleanup_timers
      { v with props := props, st := st, callback := { props := props, st := st } }
      id v.callback hid hp ht
    apply View.runEffect_timerInv
    · rw [c2]; exact hm
    · exact c1
    · rw [c3]; exact hn

theorem View.step_timerInv (v : View) (e : Event) (h : v.TimerInv) : (v.step e).TimerInv := by
  cases e with
  | action a =>
    simp only [View.step]
    split_ifs with hm
    · exact View.rerender_timerInv v _ _ hm h
    · exact h
  | newProps props =>
    simp only [View.step]
    split_ifs with hm
    · exact View.rerender_timerInv v _ _ hm h
    · exact h
  | refresh =>
    simp only [View.step]
    split_ifs with hm
    · obtain ⟨h1, h2, h3, h4, h5⟩ := v.startFetch_fields v.callback
      unfold View.TimerInv
      rw [h1, h2, h3, h4, h5]
      exact h
    · exact h
  | tick id =>
    simp only [View.step]
    split
    · rename_i t _
      obtain ⟨h1, h2, h3, h4, h5⟩ := v.startFetch_fields t.callback
      unfold View.TimerInv
      rw [h1, h2, h3, h4, h5]
      exact h
    · exact h
  | settle i outcome =>
    simp only [View.step]
    split_ifs with hi
    · unfold View.TimerInv at h
      cases outcome with
      | error error =>
        by_cases hm : v.mounted = true <;>
          simpa [View.TimerInv, View.setState, hm] using h
      | ok response =>
        by_cases hm : v.mounted = true <;>
          simpa [View.TimerInv, View.setState, hm] using h
    · exact h
  | unmount =>
    simp only [View.step]
    split_ifs with hm
    · obtain ⟨hn, hmt, _⟩ := h
      obtain ⟨id, hid, hp, ht⟩ := hmt hm
      obtain ⟨c1, _, c3, _, _⟩ := View.cleanup_timers v id v.callback hid hp ht
      refine ⟨?_, ?_, ?_⟩
      · show 0 < (v.cleanup).nextTimerId
        rw [c3]; exact hn
      · intro hf
        exact absurd (show false = true from hf) (by decide)
      · intro _
        exact c1
    · exact h

theorem View.run_timerInv (events : List Event) (v : View) (h : v.TimerInv) :
    (v.run events).TimerInv := by
  induction events generalizing v with
  | nil => exact h
  | cons e rest ih => exact ih (v.step e) (View.step_timerInv v e h)

theorem mount_timerInv (props : DashProps) : (mount props).TimerInv := by
  unfold mount
  apply View.runEffect_timerInv <;> simp

theorem View.step_unmounted (v : View) (e : Event) (hm : v.mounted = false)
    (ht : v.timers = []) :
    (v.step e).mounted = false ∧ (v.step e).timers = [] ∧ (v.step e).st = v.st ∧
    (v.step e).issued = v.issued := by
  cases e with
  | action a => simp [View.step, hm, ht]
  | newProps props => simp [View.step, hm, ht]
  | refresh => simp [View.step, hm, ht]
  | tick id => simp [View.step, hm, ht]
  | settle i outcome =>
    simp only [View.step]
    split_ifs with hi
    · cases outcome <;> simp [View.setState, hm, ht]
    · exact ⟨hm, ht, rfl, rfl⟩
  | unmount => simp [View.step, hm, ht]

theorem View.run_unmounted (events : List Event) (v : View) (hm : v.mounted = false)
    (ht : v.timers = []) :
    (v.run events).mounted = false ∧ (v.run events).timers = [] ∧
    (v.run events).st = v.st ∧ (v.run events).issued = v.issued := by
  induction events generalizing v with
  | nil => exact ⟨hm, ht, rfl, rfl⟩
  | cons e rest ih =>
    obtain ⟨s1, s2, s3, s4⟩ := View.step_unmounted v e hm ht
    obtain ⟨r1, r2, r3, r4⟩ := ih (v.step e) s1 s2
    exact ⟨r1, r2, r3.trans s3, r4.trans s4⟩

theorem View.tick_of_no_timers (v : View) (id : Nat) (h : v.timers = []) :
    v.step (.tick id) = v := by
  simp [View.step, h]

theorem View.unmount_of_timerInv (v : View) (h : v.TimerInv) :
    (v.step .unmount).mounted = false ∧ (v.step .unmount).timers = [] ∧
    (v.step .unmount).st = v.st ∧ (v.step .unmount).issued = v.issued := by
  by_cases hm : v.mounted = true
  · obtain ⟨_, hmt, _⟩ := h
    obtain ⟨id, hid, hp, ht⟩ := hmt hm
    obtain ⟨c1, _, _, c4, c5⟩ := View.cleanup_timers v id v.callback hid hp ht
    refine ⟨?_, ?_, ?_, ?_⟩ <;> simp [View.step, hm, c1, c4, c5]
  · have hf : v.mounted = false := by simpa using hm
    have ht : v.timers = [] := h.2.2 hf
    refine ⟨?_, ?_, ?_, ?_⟩ <;> simp [View.step, hf, ht]

/-- The handler rewrites no held path. For every folder page and every outcome
of the awaited calls, `handleRenameFolder` leaves the folder list of the
sidebar as it was; the folder data of the folder view is either left as it
was or, when the rename call succeeded, replaced as a whole by the data the
re-fetch of the current folder returned; a failed rename call changes
nothing, and a blank new name changes nothing and issues no remote call. -/
theorem handleRenameFolder_held_lists (p : FolderPage) (renamed : Except JSError Unit)
    (fetched : Except JSError (Option FolderData)) :
    (p.rename renamed fetched).1.sidebar = p.sidebar ∧
    ((p.rename renamed fetched).1.view.folderData = p.view.folderData ∨
      ∃ d, renamed = .ok () ∧ fetched = .ok d ∧
        (p.rename renamed fetched).1.view.folderData = d) ∧
    (∀ error, renamed = .error error → (p.rename renamed fetched).1 = p) ∧
    (trim p.view.newName = [] →
      (p.rename renamed fetched).1 = p ∧
      ∀ e ∈ (p.rename renamed fetched).2, e.isRemoteCall = false) := by
  refine ⟨rfl, ?_, ?_, ?_⟩
  · simp only [FolderPage.rename, handleRenameFolder]
    split_ifs
    · exact Or.inl rfl
    · cases p.view.selectedFolder with
      | none => exact Or.inl rfl
      | some f =>
        cases renamed with
        | error e => exact Or.inl rfl
        | ok u =>
          cases fetched with
          | error e => exact Or.inl rfl
          | ok d => exact Or.inr ⟨d, rfl, rfl, rfl⟩
  · intro error h
    subst h
    simp only [FolderPage.rename, handleRenameFolder]
    split_ifs
    · rfl
    · cases p.view.selectedFolder <;> rfl
  · intro h
    simp [FolderPage.rename, handleRenameFolder, truthy, h, FolderEffect.isRemoteCall]

theorem renameFolderOutcome_eq (remote : Except JSError Unit) :
    renameFolderOutcome remote = .error (notAFunction "foldersAPI.renameFolder".toList) := by
  rfl

theorem handleRenameFolder_error_toasts (s : FolderViewState) (error : JSError)
    (fetched : Except JSError (Option FolderData)) :
    ∀ t, FolderEffect.toast t ∈ (handleRenameFolder s (.error error) fetched).2 →
      t.status = .error := by
  intro t ht
  simp only [handleRenameFolder] at ht
  split_ifs at ht
  · simp only [List.mem_singleton, FolderEffect.toast.injEq] at ht
    rw [ht]
    rfl
  · cases hsel : s.selectedFolder with
    | none =>
      rw [hsel] at ht
      simp only [List.mem_singleton, FolderEffect.toast.injEq] at ht
      rw [ht]
      rfl
    | some f =>
      rw [hsel] at ht
      simp only [List.mem_cons, List.mem_singleton, List.not_mem_nil, or_false,
        FolderEffect.toast.injEq, reduceCtorEq, false_or] at ht
      rw [ht]
      rfl

/-- C7, the code at a failing input. The folder page holds `/Work` and
`/Work/2024` in the sidebar and `/Work` in the folder view, and `/Work` is
renamed to `Projects`. `api.js` defines no `foldersAPI.renameFolder`, so the
call made by `handleRenameFolder` throws a `TypeError` before any request is
sent, whatever the remote store would answer: the handler shows the toast
`Error renaming folder`, and the page holds the paths it held, `/Work` not
turned into `/Projects` and `/Work/2024` not into `/Projects/2024`. For every
folder page the rename call fails in this way: the page is left as it was and
every toast shown is an error toast, so no rename is ever successful. -/
theorem rename_call_is_undefined :
    (foldersAPIMethods.contains "renameFolder".toList = false) ∧
    (workPage.rename (renameFolderOutcome (.ok ())) (.ok (some { folders := [projectsFolder] }))
      = (workPage,
          [.renameFolder "/Work".toList "Projects".toList,
           .toast { title := "Error renaming folder".toList,
                    description := some "foldersAPI.renameFolder is not a function".toList,
                    status := .error, duration := 3000, isClosable := false }])) ∧
    ((workPage.rename (renameFolderOutcome (.ok ()))
        (.ok (some { folders := [projectsFolder] }))).1.heldPaths
      = ["/Work".toList, "/Work/2024".toList, "/Work".toList]) ∧
    (∀ (p : FolderPage) (remote : Except JSError Unit)
        (fetched : Except JSError (Option FolderData)),
      renameFolderOutcome remote = .error (notAFunction "foldersAPI.renameFolder".toList) ∧
      (p.rename (renameFolderOutcome remote) fetched).1 = p ∧
      (∀ t, FolderEffect.toast t ∈ (p.rename (renameFolderOutcome remote) fetched).2 →
        t.status = .error)) := by
  refine ⟨by decide, by decide, by decide, ?_⟩
  intro p remote fetched
  refine ⟨rfl, ?_, ?_⟩
  · rw [renameFolderOutcome_eq]
    exact (handleRenameFolder_held_lists p _ fetched).2.2.1 _ rfl
  · rw [renameFolderOutcome_eq]
    exact handleRenameFolder_error_toasts p.view _ fetched

/-- C8, the claim as stated fails. The "All Notes" view mounts (first fetch
in flight), the search text changes (second fetch in flight), the second
fetch resolves and then the first: the view ends with the result of the
first fetch, not with the result of the second. -/
theorem stale_response_counterexample :
    (((mount allNotesProps).step (.action (.search "roadmap".toList))).pending.length = 2) ∧
    ((((mount allNotesProps).step (.action (.search "roadmap".toList))).run
        [.settle 1 (.ok secondResponse), .settle 0 (.ok firstResponse)]).st.notes
      = firstResponse.notes) ∧
    ((((mount allNotesProps).step (.action (.search "roadmap".toList))).run
        [.settle 1 (.ok secondResponse), .settle 0 (.ok firstResponse)]).st.notes
      ≠ secondResponse.notes) := by
  decide

/-- C8 (amended: the last response wins). When a fetch is in flight and a
user action changes the descriptor, both fetches are in flight, the first for
the old descriptor and the second for the new one, and the notes sequence the
view ends with is the result of the fetch that resolves last: the result of
the second fetch when the first resolves first, the result of the first
fetch when the second resolves first. -/
theorem last_response_wins (props : DashProps) (a : DashAction) (r1 r2 : NotesResponse)
    (h : deps props (applyAction a initialDashState) ≠ deps props initialDashState) :
    ((mount props).step (.action a)).pending
      = [fetchNotesCall props initialDashState,
         fetchNotesCall props (applyAction a initialDashState)] ∧
    (((mount props).step (.action a)).run
        [.settle 0 (.ok r1), .settle 0 (.ok r2)]).st.notes = r2.notes ∧
    (((mount props).step (.action a)).run
        [.settle 1 (.ok r2), .settle 0 (.ok r1)]).st.notes = r1.notes := by
  have hs : (mount props).st = initialDashState := rfl
  have hp : (mount props).props = props := rfl
  have hc : (mount props).callback = { props := props, st := initialDashState } := rfl
  have hm : (mount props).mounted = true := rfl
  have hstep : ((mount props).step (.action a)) =
      View.runEffect (View.cleanup { mount props with
        props := props, st := applyAction a initialDashState,
        callback := { props := props, st := applyAction a initialDashState } }) := by
    simp only [View.step, hm, if_true, View.rerender, hs, hp, hc]
    rw [if_neg h]
  rw [hstep]
  refine ⟨?_, ?_, ?_⟩
  · simp [View.runEffect, View.cleanup, View.startFetch, View.setState, mount]
  · simp [View.run, View.step, View.runEffect, View.cleanup, View.startFetch, View.setState,
      mount, fetchNotesSettle, NotesResponse.notes]
  · simp [View.run, View.step, View.runEffect, View.cleanup, View.startFetch, View.setState,
      mount, fetchNotesSettle, NotesResponse.notes]

/-- An instance of C8: when the first fetch resolves first, the view ends
with the result of the second. -/
theorem last_response_wins_witness :
    deps allNotesProps (applyAction (.search "roadmap".toList) initialDashState)
      ≠ deps allNotesProps initialDashState ∧
    (((mount allNotesProps).step (.action (.search "roadmap".toList))).run
        [.settle 0 (.ok firstResponse), .settle 0 (.ok secondResponse)]).st.notes
      = secondResponse.notes :=
  ⟨by decide,
   (last_response_wins allNotesProps (.search "roadmap".toList) firstResponse secondResponse
      (by decide)).2.1⟩

/-- C9 (unregistering stops polling). For every run of a dashboard view from
its mount, once the view is unmounted no timer is armed, and whatever events
follow (timer ticks, in-flight fetches settling, actions, refreshes) no timer
is armed again, a tick of any timer id does nothing, no further fetch is
issued, and the state of the view, its notes and loading flag included, stays
what it was at the unmount, which itself changed none of it. -/
theorem unmount_stops_polling (props : DashProps) (before after : List Event) :
    ((((mount props).run before).step .unmount).timers = []) ∧
    ((((mount props).run before).step .unmount).st = ((mount props).run before).st) ∧
    (((((mount props).run before).step .unmount).run after).mounted = false) ∧
    (((((mount props).run before).step .unmount).run after).timers = []) ∧
    (∀ id, (((((mount props).run before).step .unmount).run after).step (.tick id))
      = ((((mount props).run before).step .unmount).run after)) ∧
    (((((mount props).run before).step .unmount).run after).issued
      = (((mount props).run before).step .unmount).issued) ∧
    (((((mount props).run before).step .unmount).run after).st
      = (((mount props).run before).step .unmount).st) ∧
    (((((mount props).run before).step .unmount).run after).st.notes
      = ((mount props).run before).st.notes) ∧
    (((((mount props).run before).step .unmount).run after).st.isLoading
      = ((mount props).run before).st.isLoading) := by
  have hinv := View.run_timerInv before (mount props) (mount_timerInv props)
  obtain ⟨u1, u2, u3, u4⟩ := View.unmount_of_timerInv _ hinv
  obtain ⟨r1, r2, r3, r4⟩ := View.run_unmounted after _ u1 u2
  refine ⟨u2, u3, r1, r2, ?_, r4, r3, ?_, ?_⟩
  · intro id
    exact View.tick_of_no_timers _ id r2
  · rw [r3, u3]
  · rw [r3, u3]

/-- C10, the claim as stated fails. The sidebar holds `/Work` and the name
`Work` is entered for the parent `/`: the handler issues the remote
create-folder call. So does the handler of the folder view at the root. -/
theorem create_duplicate_counterexample :
    workFolder ∈ duplicateSidebar.folders ∧
    FolderEffect.createFolder "/".toList "Work".toList
      ∈ (Sidebar.handleCreateFolder duplicateSidebar (.ok ()) (.ok (some [workFolder]))).2 ∧
    duplicateFolderView.folderData = some { folders := [workFolder] } ∧
    FolderEffect.createFolder [] "Work".toList
      ∈ (FolderView.handleCreateFolder duplicateFolderView (.ok ())
          (.ok (some { folders := [workFolder] }))).2 := by
  decide

/-- C10 (amended). Folder creation is rejected locally for a blank name only.
In both create-folder handlers the remote create call is issued iff the
entered name is non-empty after trimming, whatever folders are held locally;
for a blank name the handler shows the error toast, issues no remote call and
leaves the state, the held folders included, as it was. -/
theorem create_folder_rejects_blank_names_only :
    (∀ (s : SidebarState) (created : Except JSError Unit)
        (fetched : Except JSError (Option (List Folder))),
      ((∃ e ∈ (Sidebar.handleCreateFolder s created fetched).2, e.isCreateCall = true) ↔
        trim s.newFolderName ≠ []) ∧
      (trim s.newFolderName = [] →
        Sidebar.handleCreateFolder s created fetched = (s, [.toast nameRequiredToast]))) ∧
    (∀ (s : FolderViewState) (created : Except JSError Unit)
        (fetched : Except JSError (Option FolderData)),
      ((∃ e ∈ (FolderView.handleCreateFolder s created fetched).2, e.isCreateCall = true) ↔
        trim s.newFolderName ≠ []) ∧
      (trim s.newFolderName = [] →
        FolderView.handleCreateFolder s created fetched = (s, [.toast nameRequiredToast]))) := by
  constructor
  · intro s created fetched
    by_cases h : trim s.newFolderName = []
    · simp [Sidebar.handleCreateFolder, truthy, h, FolderEffect.isCreateCall]
    · refine ⟨⟨fun _ => h, fun _ => ?_⟩, fun h' => absurd h' h⟩
      refine ⟨.createFolder s.currentPath s.newFolderName, ?_, rfl⟩
      cases created <;> simp [Sidebar.handleCreateFolder, truthy, h]
  · intro s created fetched
    by_cases h : trim s.newFolderName = []
    · simp [FolderView.handleCreateFolder, truthy, h, FolderEffect.isCreateCall]
    · refine ⟨⟨fun _ => h, fun _ => ?_⟩, fun h' => absurd h' h⟩
      refine ⟨.createFolder (orElseOpt s.folderPath []) (trim s.newFolderName), ?_, rfl⟩
      cases created <;> simp [FolderView.handleCreateFolder, truthy, h]

/-- An instance of C10: a blank folder name is rejected with the error toast
and the state is left as it was. -/
theorem create_folder_rejects_blank_names_only_witness :
    trim blankNameSidebar.newFolderName = [] ∧
    Sidebar.handleCreateFolder blankNameSidebar (.ok ()) (.ok none)
      = (blankNameSidebar, [.toast nameRequiredToast]) :=
  ⟨by decide,
   (create_folder_rejects_blank_names_only.1 blankNameSidebar (.ok ()) (.ok none)).2
     (by decide)⟩

theorem mem_setProp (o : JSObject) (k : PropKey) (v : Prim) (p : PropKey × Prim)
    (h : p ∈ setProp o k v) : p ∈ o ∨ p = (k, v) := by
  unfold setProp at h
  split_ifs at h
  · rw [List.mem_map] at h
    obtain ⟨q, hq, hqp⟩ := h
    split_ifs at hqp
    · exact Or.inr hqp.symm
    · exact Or.inl (hqp ▸ hq)
  · rw [List.mem_append, List.mem_singleton] at h
    exact h

theorem lookup_replace {α β : Type} [DecidableEq α] (o : List (α × β)) (k : α) (v : β)
    (h : (o.any fun p => p.1 == k) = true) :
    (o.map (fun p => if p.1 == k then (k, v) else p)).lookup k = some v := by
  induction o with
  | nil => simp at h
  | cons q rest ih =>
    obtain ⟨q1, q2⟩ := q
    simp only [List.map_cons]
    split_ifs with hc
    · rw [List.lookup_cons]
      simp
    · have hq : ¬ q1 = k := by simpa using hc
      have hne : (k == q1) = false := by
        simp only [beq_eq_false_iff_ne, ne_eq]
        exact fun e => hq e.symm
      have hrest : (rest.any fun p => p.1 == k) = true := by
        simpa [List.any_cons, hq] using h
      rw [List.lookup_cons, hne]
      exact ih hrest

theorem lookup_append_new {α β : Type} [DecidableEq α] (o : List (α × β)) (k : α) (v : β)
    (h : ¬ (o.any fun p => p.1 == k) = true) :
    (o ++ [(k, v)]).lookup k = some v := by
  induction o with
  | nil => simp [List.lookup]
  | cons q rest ih =>
    obtain ⟨q1, q2⟩ := q
    have hq : ¬ q1 = k := by
      intro e
      simp [List.any_cons, e] at h
    have hne : (k == q1) = false := by
      simp only [beq_eq_false_iff_ne, ne_eq]
      exact fun e => hq e.symm
    have hrest : ¬ (rest.any fun p => p.1 == k) = true := by
      intro e
      simp [List.any_cons, e] at h
    rw [List.cons_append, List.lookup_cons, hne]
    exact ih hrest

theorem lookup_setProp (o : JSObject) (k : PropKey) (v : Prim) :
    (setProp o k v).lookup k = some v := by
  unfold setProp
  split_ifs with h
  · exact lookup_replace o k v h
  · exact lookup_append_new o k v h

theorem ownProps_str_keys (s : Str) (p : PropKey × Prim) (h : p ∈ ownProps (.str s)) :
    ∃ i, p.1 = PropKey.index i := by
  simp only [ownProps, List.mem_map] at h
  obtain ⟨q, _, hq⟩ := h
  exact ⟨q.1, by rw [← hq]⟩

/-- C11, the code at a failing input. In the sidebar the name `Work` is
entered for the parent `/`, in the folder view showing `Work` the name
`2024`: each handler issues the create call, and the body posted holds the
characters of its first argument under their indices and `parentId: null`,
and no folder name. For every first argument and every name the body posted
by the handlers has no `name` property, has `parentId` null, and is the same
whatever the name is. -/
theorem create_folder_body_drops_name :
    (FolderEffect.createFolder "/".toList "Work".toList
      ∈ (Sidebar.handleCreateFolder createWorkSidebar (.ok ()) (.ok none)).2) ∧
    ((FolderEffect.createFolder "/".toList "Work".toList).createBody
      = some [(.index 0, .str ['/']), (.named "parentId".toList, .null)]) ∧
    (FolderEffect.createFolder "Work".toList "2024".toList
      ∈ (FolderView.handleCreateFolder createIn2024FolderView (.ok ()) (.ok none)).2) ∧
    ((FolderEffect.createFolder "Work".toList "2024".toList).createBody
      = some [(.index 0, .str ['W']), (.index 1, .str ['o']), (.index 2, .str ['r']),
              (.index 3, .str ['k']), (.named "parentId".toList, .null)]) ∧
    (∀ first name : Str,
      (handlerCreateFolderBody first name).lookup (.named "name".toList) = none ∧
      (∀ p ∈ handlerCreateFolderBody first name, p.1 ≠ PropKey.named "name".toList) ∧
      (handlerCreateFolderBody first name).lookup (.named "parentId".toList) = some .null ∧
      ∀ other : Str, handlerCreateFolderBody first other = handlerCreateFolderBody first name) := by
  refine ⟨by decide, by decide, by decide, by decide, ?_⟩
  intro first name
  have hkeys : ∀ p ∈ handlerCreateFolderBody first name,
      p.1 ≠ PropKey.named "name".toList := by
    intro p hp
    rcases mem_setProp _ _ _ p hp with h | h
    · obtain ⟨i, hi⟩ := ownProps_str_keys first p h
      rw [hi]
      exact fun e => PropKey.noConfusion e
    · rw [h]
      intro e
      exact absurd (PropKey.named.inj e) (by decide)
  refine ⟨?_, hkeys, lookup_setProp _ _ _, fun _ => rfl⟩
  rw [List.lookup_eq_none_iff]
  intro p hp
  have := hkeys p hp
  simp only [bne_iff_ne, ne_eq]
  exact fun e => this e.symm

theorem lastIndexOf_bounds (s : Str) (c : Char) :
    -1 ≤ lastIndexOf s c ∧ lastIndexOf s c < s.length := by
  induction s with
  | nil => simp [lastIndexOf]
  | cons x xs ih =>
    simp only [lastIndexOf, List.length_cons, Nat.cast_add, Nat.cast_one]
    split_ifs <;> omega

theorem lastIndexOf_of_not_mem (s : Str) (c : Char) (h : c ∉ s) : lastIndexOf s c = -1 := by
  induction s with
  | nil => rfl
  | cons x xs ih =>
    rw [List.mem_cons, not_or] at h
    have hx : ¬ x = c := fun e => h.1 e.symm
    simp [lastIndexOf, ih h.2, hx]

theorem lastIndexOf_nonneg_of_mem (s : Str) (c : Char) (h : c ∈ s) : 0 ≤ lastIndexOf s c := by
  induction s with
  | nil => simp at h
  | cons x xs ih =>
    simp only [lastIndexOf]
    split_ifs with h1 h2
    · omega
    · omega
    · rw [List.mem_cons] at h
      rcases h with h | h
      · exact absurd h.symm h2
      · exact absurd (ih h) h1

theorem lastIndexOf_append_cons (q name : Str) (c : Char) (h : c ∉ name) :
    lastIndexOf (q ++ c :: name) c = q.length := by
  induction q with
  | nil => simp [lastIndexOf, lastIndexOf_of_not_mem name c h]
  | cons x xs ih =>
    have hstep : lastIndexOf (x :: (xs ++ c :: name)) c = (xs.length : Int) + 1 := by
      simp only [lastIndexOf]
      rw [ih]
      split_ifs <;> omega
    simpa using hstep

theorem substring_zero (s : Str) (b : Int) : substring s 0 b = s.take b.toNat := by
  unfold substring
  simp only [Int.toNat_zero, Nat.zero_min, Nat.zero_max, List.drop_zero, Nat.sub_zero]
  by_cases h : b.toNat ≤ s.length
  · rw [Nat.min_eq_left h]
  · have h2 : s.length ≤ b.toNat := by omega
    rw [Nat.min_eq_right h2, List.take_of_length_le h2, List.take_of_length_le (le_refl _)]

theorem parentOf_eq (p : Str) :
    parentOf p = orElse (p.take (lastIndexOf p '/').toNat) "/".toList := by
  unfold parentOf
  rw [substring_zero]

/-- C13 (parent derivation). For every non-empty name containing no `/`,
`parentOf('/' + name)` is `'/'`, and for every path `q` that starts with `/`,
is not `/` and does not end with `/`, `parentOf(q + '/' + name)` is `q`: the
last segment is stripped. -/
theorem parent_derivation (name : Str) (_hne : name ≠ []) (hs : '/' ∉ name) :
    parentOf ('/' :: name) = "/".toList ∧
    ∀ q : Str, q.head? = some '/' → q ≠ "/".toList → q.getLast? ≠ some '/' →
      parentOf (q ++ '/' :: name) = q := by
  constructor
  · rw [parentOf_eq]
    have h := lastIndexOf_append_cons [] name '/' hs
    simp only [List.nil_append, List.length_nil, Nat.cast_zero] at h
    rw [h]
    rfl
  · intro q hq _ _
    rw [parentOf_eq, lastIndexOf_append_cons q name '/' hs]
    have hq0 : q ≠ [] := by
      intro e
      rw [e] at hq
      simp at hq
    simp only [Int.toNat_ofNat, List.take_left']
    simp [orElse, truthy, hq0]

/-- An instance of C13: the parent of `/Work/2024` is `/Work`. -/
theorem parent_derivation_witness :
    "2024".toList ≠ [] ∧ '/' ∉ "2024".toList ∧
    parentOf ("/Work".toList ++ '/' :: "2024".toList) = "/Work".toList :=
  ⟨by decide, by decide,
   (parent_derivation "2024".toList (by decide) (by decide)).2 "/Work".toList
     (by decide) (by decide) (by decide)⟩

theorem parentOf_of_rooted (p : Str) (hs : p.head? = some '/') :
    (parentOf p).head? = some '/' ∧ parentOf p <+: p ∧
    (p ≠ "/".toList → (parentOf p).length < p.length) := by
  obtain ⟨hlo, hhi⟩ := lastIndexOf_bounds p '/'
  cases p with
  | nil => simp at hs
  | cons x xs =>
    have hx : x = '/' := by simpa using hs
    subst hx
    have hmem : '/' ∈ ('/' :: xs) := List.mem_cons_self _ _
    have h0 := lastIndexOf_nonneg_of_mem _ _ hmem
    rw [parentOf_eq]
    obtain ⟨n, hn⟩ := Int.eq_ofNat_of_zero_le h0
    rw [hn] at hhi ⊢
    simp only [Int.toNat_ofNat]
    have hlen : n < ('/' :: xs).length := by exact_mod_cast hhi
    cases n with
    | zero =>
      refine ⟨rfl, ?_, ?_⟩
      · show ['/'] <+: '/' :: xs
        exact ⟨xs, rfl⟩
      · intro hne
        show 1 < ('/' :: xs).length
        cases xs with
        | nil => exact absurd rfl hne
        | cons y ys => simp
    | succ m =>
      have htake : List.take (m + 1) ('/' :: xs) = '/' :: List.take m xs := rfl
      have hor : orElse (List.take (m + 1) ('/' :: xs)) "/".toList
          = List.take (m + 1) ('/' :: xs) := by
        rw [htake]
        rfl
      rw [hor]
      refine ⟨by rw [htake]; rfl, List.take_prefix _ _, fun _ => ?_⟩
      rw [List.length_take]
      omega

theorem parentOf_iterate_rooted (p : Str) (hs : p.head? = some '/') (k : Nat) :
    (parentOf^[k] p).head? = some '/' ∧ (parentOf^[k] p).length ≤ p.length := by
  induction k with
  | zero => exact ⟨hs, le_refl _⟩
  | succ k ih =>
    rw [Function.iterate_succ_apply']
    obtain ⟨h1, h2, _⟩ := parentOf_of_rooted _ ih.1
    exact ⟨h1, le_trans h2.length_le ih.2⟩

/-- C16, the claim as stated fails: `parentOf('/')` is `'/'` itself, not a
strictly shorter string, so the root is its own parent; and for a path that
does not start with `/`, such as `Work`, `parentOf` is `'/'`, which is no
prefix of it. -/
theorem parent_of_root_counterexample :
    parentOf "/".toList = "/".toList ∧
    ¬ (parentOf "/".toList).length < "/".toList.length ∧
    parentOf "Work".toList = "/".toList ∧
    ¬ parentOf "Work".toList <+: "Work".toList := by
  decide

/-- C16 (amended). For every folder path `p` below the root, that is every
`p` that starts with `/` and is not `/`, `parentOf(p)` is a strict prefix of
`p`: a prefix, strictly shorter than `p`, hence different from `p`; and every
ancestor, the result of applying `parentOf` one or more times, is strictly
shorter than `p` and so different from `p`: no such folder is its own parent
or ancestor. The root `/` is its own `parentOf`. -/
theorem parent_strict_prefix_below_root (p : Str) (hs : p.head? = some '/')
    (hr : p ≠ "/".toList) :
    parentOf p <+: p ∧ (parentOf p).length < p.length ∧ parentOf p ≠ p ∧
    (∀ k, 0 < k → (parentOf^[k] p).length < p.length ∧ parentOf^[k] p ≠ p) ∧
    parentOf "/".toList = "/".toList := by
  obtain ⟨h1, h2, h3⟩ := parentOf_of_rooted p hs
  have hlt := h3 hr
  have hk : ∀ k, 0 < k → (parentOf^[k] p).length < p.length := by
    intro k hk
    obtain ⟨j, rfl⟩ : ∃ j, k = j + 1 := ⟨k - 1, by omega⟩
    rw [Function.iterate_succ_apply]
    exact lt_of_le_of_lt (parentOf_iterate_rooted _ h1 j).2 hlt
  refine ⟨h2, hlt, ?_, ?_, by decide⟩
  · intro e
    rw [e] at hlt
    exact lt_irrefl _ hlt
  · intro k hpos
    refine ⟨hk k hpos, fun e => ?_⟩
    have := hk k hpos
    rw [e] at this
    exact lt_irrefl _ this

/-- An instance of C16: the parent of `/Work/2024` is a strict prefix of it. -/
theorem parent_strict_prefix_below_root_witness :
    "/Work/2024".toList.head? = some '/' ∧ "/Work/2024".toList ≠ "/".toList ∧
    parentOf "/Work/2024".toList <+: "/Work/2024".toList ∧
    (parentOf "/Work/2024".toList).length < "/Work/2024".toList.length :=
  ⟨by decide, by decide,
   (parent_strict_prefix_below_root "/Work/2024".toList (by decide) (by decide)).1,
   (parent_strict_prefix_below_root "/Work/2024".toList (by decide) (by decide)).2.1⟩

theorem split_no_sep (sep : Char) (p : Str) : ∀ s ∈ split sep p, sep ∉ s := by
  induction p with
  | nil => simp [split]
  | cons c cs ih =>
    intro s hs
    simp only [split] at hs
    split_ifs at hs with hc
    · rcases List.mem_cons.1 hs with h | h
      · rw [h]; simp
      · exact ih s h
    · cases hsp : split sep cs with
      | nil =>
        rw [hsp] at hs
        simp only [List.mem_singleton] at hs
        rw [hs]
        simpa using fun e => hc e.symm
      | cons h t =>
        rw [hsp] at hs ih
        rcases List.mem_cons.1 hs with e | e
        · rw [e]
          have := ih h (List.mem_cons_self _ _)
          simp only [List.mem_cons, not_or]
          exact ⟨fun e' => hc e'.symm, this⟩
        · exact ih s (List.mem_cons_of_mem _ e)

theorem split_of_no_sep (sep : Char) (s : Str) (h : sep ∉ s) : split sep s = [s] := by
  induction s with
  | nil => rfl
  | cons c cs ih =>
    rw [List.mem_cons, not_or] at h
    have hc : ¬ c = sep := fun e => h.1 e.symm
    simp [split, hc, ih h.2]

theorem split_append_sep (sep : Char) (s r : Str) (h : sep ∉ s) :
    split sep (s ++ sep :: r) = s :: split sep r := by
  induction s with
  | nil => simp [split]
  | cons c cs ih =>
    rw [List.mem_cons, not_or] at h
    have hc : ¬ c = sep := fun e => h.1 e.symm
    simp [split, hc, ih h.2]

theorem segments_spec (folderPath : Option Str) :
    ∀ s ∈ segments folderPath, s ≠ [] ∧ '/' ∉ s := by
  intro s hs
  unfold segments at hs
  cases folderPath with
  | none => simp at hs
  | some p =>
    simp only at hs
    split_ifs at hs
    · rw [List.mem_filter] at hs
      refine ⟨?_, split_no_sep '/' p s hs.1⟩
      intro e
      rw [e] at hs
      simp [truthy] at hs
    · simp at hs

theorem split_pathOfSegments (s : Str) (rest : List Str) (hs : '/' ∉ s)
    (hrest : ∀ t ∈ rest, t ≠ [] ∧ '/' ∉ t) :
    (split '/' (s ++ pathOfSegments rest)).filter truthy = (s :: rest).filter truthy := by
  induction rest generalizing s with
  | nil => simp [pathOfSegments, split_of_no_sep '/' s hs]
  | cons t ts ih =>
    have ht := hrest t (List.mem_cons_self _ _)
    have hts : ∀ u ∈ ts, u ≠ [] ∧ '/' ∉ u := fun u hu => hrest u (List.mem_cons_of_mem _ hu)
    have hsplit : split '/' (s ++ pathOfSegments (t :: ts))
        = s :: split '/' (t ++ pathOfSegments ts) := by
      show split '/' (s ++ '/' :: (t ++ pathOfSegments ts)) = _
      exact split_append_sep '/' s _ hs
    rw [hsplit]
    simp only [List.filter_cons]
    rw [ih t ht.2 hts]
    simp only [List.filter_cons]

theorem segments_pathOfSegments (segs : List Str) (h : ∀ s ∈ segs, s ≠ [] ∧ '/' ∉ s) :
    segments (some (pathOfSegments segs)) = segs := by
  cases segs with
  | nil => rfl
  | cons s rest =>
    have hrest : ∀ t ∈ rest, t ≠ [] ∧ '/' ∉ t := fun t ht => h t (List.mem_cons_of_mem _ ht)
    have hs := h s (List.mem_cons_self _ _)
    have hall : (s :: rest).filter truthy = s :: rest := by
      rw [List.filter_eq_self]
      intro t ht
      have := (h t ht).1
      cases t with
      | nil => exact absurd rfl this
      | cons _ _ => rfl
    have hsplit : split '/' (pathOfSegments (s :: rest))
        = [] :: split '/' (s ++ pathOfSegments rest) := by
      show split '/' ('/' :: (s ++ pathOfSegments rest)) = _
      simp [split]
    have htruthy : truthy (pathOfSegments (s :: rest)) = true := rfl
    simp only [segments, htruthy, if_true]
    rw [hsplit, List.filter_cons]
    have hnil : truthy ([] : Str) = false := rfl
    simp only [hnil, Bool.false_eq_true, if_false]
    rw [split_pathOfSegments s rest hs.2 hrest, hall]

theorem crumbsFrom_labels (total : Nat) (clicked : Str) (parts : List Str) :
    ∀ (i : Nat) (fp : Str),
      (crumbsFrom total clicked (i + 1) fp parts).map (fun c => c.label) = parts ∧
      (crumbsFrom total clicked (i + 1) fp parts).length = parts.length := by
  induction parts with
  | nil => intro i fp; exact ⟨rfl, rfl⟩
  | cons p rest ih =>
    intro i fp
    obtain ⟨h1, h2⟩ := ih (i + 1) (fp ++ "/".toList ++ p)
    simp only [crumbsFrom, Nat.add_one_ne_zero, if_false, List.map_cons, List.length_cons]
    exact ⟨by rw [h1], by rw [h2]⟩

theorem crumbsFrom_paths (total : Nat) (clicked : Str) (parts : List Str) :
    ∀ (i : Nat) (fp : Str) (j : Nat), j < parts.length →
      ((crumbsFrom total clicked (i + 1) fp parts).map (fun c => c.fullPath))[j]?
        = some (fp ++ pathOfSegments (parts.take (j + 1))) := by
  induction parts with
  | nil => intro i fp j hj; simp at hj
  | cons p rest ih =>
    intro i fp j hj
    simp only [crumbsFrom, Nat.add_one_ne_zero, if_false, List.map_cons]
    cases j with
    | zero => simp [pathOfSegments]
    | succ j =>
      have hj2 : j < rest.length := by simpa using hj
      rw [List.getElem?_cons_succ, ih (i + 1) _ j hj2]
      simp [pathOfSegments]

theorem crumbsFrom_pairwise (total : Nat) (clicked : Str) (parts : List Str)
    (hne : ∀ s ∈ parts, s ≠ []) :
    ∀ (i : Nat) (fp : Str),
      (∀ x ∈ (crumbsFrom total clicked (i + 1) fp parts).map (fun c => c.fullPath),
        fp <+: x ∧ fp.length < x.length) ∧
      ((crumbsFrom total clicked (i + 1) fp parts).map (fun c => c.fullPath)).Pairwise
        (fun a b => a <+: b ∧ a.length < b.length) := by
  induction parts with
  | nil => intro i fp; simp [crumbsFrom]
  | cons p rest ih =>
    intro i fp
    have hrest : ∀ s ∈ rest, s ≠ [] := fun s hs => hne s (List.mem_cons_of_mem _ hs)
    obtain ⟨h1, h2⟩ := ih hrest (i + 1) (fp ++ "/".toList ++ p)
    have hstep : fp <+: fp ++ "/".toList ++ p ∧ fp.length < (fp ++ "/".toList ++ p).length := by
      refine ⟨⟨"/".toList ++ p, by simp⟩, ?_⟩
      simp only [List.length_append]
      have : ("/".toList).length = 1 := rfl
      omega
    simp only [crumbsFrom, Nat.add_one_ne_zero, if_false, List.map_cons, List.pairwise_cons]
    refine ⟨?_, h1, h2⟩
    intro x hx
    rcases List.mem_cons.1 hx with e | e
    · rw [e]; exact hstep
    · obtain ⟨a, b⟩ := h1 x e
      exact ⟨hstep.1.trans a, lt_trans hstep.2 b⟩

theorem crumbsFrom_targets (total : Nat) (clicked : Str) (parts : List Str) :
    ∀ (i : Nat) (fp : Str),
      (crumbsFrom total clicked (i + 1) fp parts).map (fun c => c.target)
        = parts.map (fun _ => "/folders".toList ++ clicked) := by
  induction parts with
  | nil => intro i fp; rfl
  | cons p rest ih =>
    intro i fp
    simp only [crumbsFrom, Nat.add_one_ne_zero, if_false, List.map_cons]
    rw [ih (i + 1) (fp ++ "/".toList ++ p)]

theorem fullPathAfter_succ (parts : List Str) :
    ∀ (i : Nat) (fp : Str), fullPathAfter (i + 1) fp parts = fp ++ pathOfSegments parts := by
  induction parts with
  | nil => intro i fp; simp [fullPathAfter, pathOfSegments]
  | cons p rest ih =>
    intro i fp
    simp only [fullPathAfter, Nat.add_one_ne_zero, if_false]
    rw [ih (i + 1) (fp ++ "/".toList ++ p)]
    simp [pathOfSegments]

theorem fullPathAfter_paths (segs : List Str) :
    fullPathAfter 0 [] ("/".toList :: segs) = pathOfSegments segs := by
  show fullPathAfter (0 + 1) [] segs = _
  rw [fullPathAfter_succ segs 0 []]
  rfl

theorem renderBreadcrumbs_eq (folderPath : Option Str) :
    renderBreadcrumbs folderPath =
      { key := "root".toList, label := "Root".toList, fullPath := [],
        target := "/dashboard".toList,
        isLast := 0 == ("/".toList :: segments folderPath).length - 1 } ::
      crumbsFrom ("/".toList :: segments folderPath).length
        (fullPathAfter 0 [] ("/".toList :: segments folderPath)) 1 [] (segments folderPath) := by
  rfl

/-- The items as they are rendered. For every folder path, with `s1..sn` its
non-empty `/`-separated segments, `renderBreadcrumbs` maps exactly `n + 1`
items, in order: the labels are `Root`, `s1`, ..., `sn`; the value of
`fullPath` when the item `i` is rendered is `'/' + s1 + ... + '/' + si`
(empty for the root item); these values are pairwise distinct and each is a
prefix of the next. The segments are non-empty and hold no `/`, and every
such list of segments is the list of segments of the path built from it. The
breadcrumbs of `NotePage` are these items for the folder of the note,
followed by the item showing the title of the note. -/
theorem renderBreadcrumbs_items (folderPath : Option Str) :
    (renderBreadcrumbs folderPath).length = (segments folderPath).length + 1 ∧
    (renderBreadcrumbs folderPath).map (fun c => c.label)
      = "Root".toList :: segments folderPath ∧
    (∀ i, i ≤ (segments folderPath).length →
      ((renderBreadcrumbs folderPath).map (fun c => c.fullPath))[i]?
        = some (pathOfSegments ((segments folderPath).take i))) ∧
    ((renderBreadcrumbs folderPath).map (fun c => c.fullPath)).Nodup ∧
    List.Chain' (fun a b => a <+: b) ((renderBreadcrumbs folderPath).map (fun c => c.fullPath)) ∧
    (∀ s ∈ segments folderPath, s ≠ [] ∧ '/' ∉ s) ∧
    (∀ segs : List Str, (∀ s ∈ segs, s ≠ [] ∧ '/' ∉ s) →
      segments (some (pathOfSegments segs)) = segs) ∧
    (∀ note : PageNote, NotePage.renderBreadcrumbs (some note)
      = some (renderBreadcrumbs note.folder, note.title)) := by
  have hne : ∀ s ∈ segments folderPath, s ≠ [] := fun s hs => (segments_spec folderPath s hs).1
  obtain ⟨hl1, hl2⟩ := crumbsFrom_labels ("/".toList :: segments folderPath).length
    (fullPathAfter 0 [] ("/".toList :: segments folderPath)) (segments folderPath) 0 []
  obtain ⟨hp1, hp2⟩ := crumbsFrom_pairwise ("/".toList :: segments folderPath).length
    (fullPathAfter 0 [] ("/".toList :: segments folderPath)) (segments folderPath) hne 0 []
  have hpair : ((renderBreadcrumbs folderPath).map (fun c => c.fullPath)).Pairwise
      (fun a b => a <+: b ∧ a.length < b.length) := by
    rw [renderBreadcrumbs_eq, List.map_cons, List.pairwise_cons]
    exact ⟨hp1, hp2⟩
  refine ⟨?_, ?_, ?_, ?_, ?_, segments_spec folderPath, segments_pathOfSegments, fun _ => rfl⟩
  · rw [renderBreadcrumbs_eq, List.length_cons, hl2]
  · rw [renderBreadcrumbs_eq, List.map_cons, hl1]
  · intro i hi
    rw [renderBreadcrumbs_eq, List.map_cons]
    cases i with
    | zero => simp [pathOfSegments]
    | succ j =>
      have hj : j < (segments folderPath).length := by omega
      rw [List.getElem?_cons_succ, crumbsFrom_paths _ _ _ 0 [] j hj]
      rfl
  · refine hpair.imp ?_
    intro a b hab e
    rw [e] at hab
    exact lt_irrefl _ hab.2
  · exact (hpair.imp (fun hab => hab.1)).chain'

/-- C12, the code at a failing input. For the folder path `/Work/2024` the
items are labelled `Root`, `Work`, `2024` and are rendered while `fullPath`
is empty, `/Work` and `/Work/2024`; but the `onClick` closures read the
variable `fullPath` when the link is clicked, after the rendering, so the
link labelled `Work` navigates to `/folders/Work/2024` and not to
`/folders/Work`: the paths the entries lead to are neither the paths
`'/' + s1 + ... + '/' + si` nor pairwise distinct, in `FolderView` and in
`NotePage` alike. For every folder path the root link navigates to
`/dashboard` and every other link to the whole path; the number of the
items, their labels and the values of `fullPath` at rendering are as the
claim says. -/
theorem breadcrumb_links_lead_to_full_path :
    ((renderBreadcrumbs (some "/Work/2024".toList)).map (fun c => c.label)
      = ["Root".toList, "Work".toList, "2024".toList]) ∧
    ((renderBreadcrumbs (some "/Work/2024".toList)).map (fun c => c.fullPath)
      = [[], "/Work".toList, "/Work/2024".toList]) ∧
    ((renderBreadcrumbs (some "/Work/2024".toList)).map (fun c => c.target)
      = ["/dashboard".toList, "/folders/Work/2024".toList, "/folders/Work/2024".toList]) ∧
    (¬ ((renderBreadcrumbs (some "/Work/2024".toList)).map (fun c => c.target)).Nodup) ∧
    ((NotePage.renderBreadcrumbs
        (some { folder := some "/Work/2024".toList, title := "Plan".toList })).map
          (fun r => r.1.map (fun c => c.target))
      = some ["/dashboard".toList, "/folders/Work/2024".toList,
          "/folders/Work/2024".toList]) ∧
    (∀ folderPath : Option Str,
      (renderBreadcrumbs folderPath).map (fun c => c.target)
        = "/dashboard".toList ::
          (segments folderPath).map
            (fun _ => "/folders".toList ++ pathOfSegments (segments folderPath)) ∧
      (renderBreadcrumbs folderPath).length = (segments folderPath).length + 1 ∧
      (renderBreadcrumbs folderPath).map (fun c => c.label)
        = "Root".toList :: segments folderPath ∧
      (∀ i, i ≤ (segments folderPath).length →
        ((renderBreadcrumbs folderPath).map (fun c => c.fullPath))[i]?
          = some (pathOfSegments ((segments folderPath).take i)))) := by
  refine ⟨by decide, by decide, by decide, by decide, by decide, ?_⟩
  intro folderPath
  have h := renderBreadcrumbs_items folderPath
  refine ⟨?_, h.1, h.2.1, h.2.2.1⟩
  rw [renderBreadcrumbs_eq, List.map_cons, crumbsFrom_targets, fullPathAfter_paths]

theorem mergeFolders_cons (prev : List Folder) (folder : Folder) (rest : List Folder) :
    mergeFolders prev (folder :: rest) =
      mergeFolders
        (if (prev.find? (fun f => f.path == folder.path)).isSome then prev
         else prev ++ [folder]) rest := by
  rfl

theorem mergeFolders_spec (fetched : List Folder) :
    ∀ prev : List Folder, (prev.map (fun f => f.path)).Nodup →
      ((mergeFolders prev fetched).map (fun f => f.path)).Nodup ∧
      prev <+: mergeFolders prev fetched ∧
      (∀ f ∈ fetched, f.path ∈ (mergeFolders prev fetched).map (fun f => f.path)) ∧
      (∀ f ∈ mergeFolders prev fetched, f ∈ prev ∨ f ∈ fetched) := by
  induction fetched with
  | nil =>
    intro prev h
    exact ⟨h, List.prefix_refl _, by simp, fun f hf => Or.inl hf⟩
  | cons folder rest ih =>
    intro prev h
    rw [mergeFolders_cons]
    by_cases hfind : (prev.find? (fun f => f.path == folder.path)).isSome = true
    · rw [if_pos hfind]
      obtain ⟨a, b, c, d⟩ := ih prev h
      refine ⟨a, b, ?_, ?_⟩
      · intro f hf
        rcases List.mem_cons.1 hf with e | e
        · rw [List.find?_isSome] at hfind
          obtain ⟨g, hg, hgp⟩ := hfind
          have hgp' : g.path = folder.path := by simpa using hgp
          rw [e, ← hgp']
          exact List.mem_map_of_mem _ (b.subset hg)
        · exact c f e
      · intro f hf
        rcases d f hf with e | e
        · exact Or.inl e
        · exact Or.inr (List.mem_cons_of_mem _ e)
    · rw [if_neg hfind]
      have hnot : folder.path ∉ prev.map (fun f => f.path) := by
        intro hmem
        rw [List.mem_map] at hmem
        obtain ⟨g, hg, hgp⟩ := hmem
        apply hfind
        rw [List.find?_isSome]
        exact ⟨g, hg, by simpa using hgp⟩
      have hnodup : ((prev ++ [folder]).map (fun f => f.path)).Nodup := by
        rw [List.map_append, List.map_singleton]
        exact List.Nodup.append h (List.nodup_singleton _)
          (by simpa [List.Disjoint] using hnot)
      obtain ⟨a, b, c, d⟩ := ih (prev ++ [folder]) hnodup
      refine ⟨a, (List.prefix_append prev [folder]).trans b, ?_, ?_⟩
      · intro f hf
        rcases List.mem_cons.1 hf with e | e
        · rw [e]
          exact List.mem_map_of_mem _ (b.subset (by simp))
        · exact c f e
      · intro f hf
        rcases d f hf with e | e
        · rcases List.mem_append.1 e with e | e
          · exact Or.inl e
          · rw [List.mem_singleton] at e
            exact Or.inr (e ▸ List.mem_cons_self _ _)
        · exact Or.inr (List.mem_cons_of_mem _ e)

/-- C15 (path uniqueness is preserved by the lazy child merge). For every
held folder list with pairwise-distinct paths and every fetched list, the
list that the merge of `toggleFolder` stores has pairwise-distinct paths,
starts with the held list (every held folder keeps its position), holds a
folder for every fetched path and holds only held or fetched folders; and
this is the folder list of the sidebar after `toggleFolder` expanded a folder
and the request succeeded. -/
theorem merge_preserves_unique_paths (prev fetched : List Folder)
    (h : (prev.map (fun f => f.path)).Nodup) :
    ((mergeFolders prev fetched).map (fun f => f.path)).Nodup ∧
    prev <+: mergeFolders prev fetched ∧
    (mergeFolders prev fetched).take prev.length = prev ∧
    (∀ i, i < prev.length → (mergeFolders prev fetched)[i]? = prev[i]?) ∧
    (∀ f ∈ fetched, f.path ∈ (mergeFolders prev fetched).map (fun f => f.path)) ∧
    (∀ f ∈ mergeFolders prev fetched, f ∈ prev ∨ f ∈ fetched) ∧
    (∀ (s : SidebarState) (path : Str), s.folders = prev →
      isExpanded s.expandedFolders path = false →
      (toggleFolder s path (.ok fetched)).1.folders = mergeFolders prev fetched) := by
  obtain ⟨a, b, c, d⟩ := mergeFolders_spec fetched prev h
  obtain ⟨t, ht⟩ := b
  refine ⟨a, ⟨t, ht⟩, ?_, ?_, c, d, ?_⟩
  · rw [← ht, List.take_left']
    rfl
  · intro i hi
    rw [← ht, List.getElem?_append_left hi]
  · intro s path hs he
    simp [toggleFolder, he, hs]

/-- An instance of C15: `/Work` is held and `/Work`, `/Work/2024` (twice)
and `/Projects` are fetched. -/
theorem merge_preserves_unique_paths_witness :
    ([workFolder].map (fun f => f.path)).Nodup ∧
    mergeFolders [workFolder] [workFolder, work2024Folder, work2024Folder, projectsFolder]
      = [workFolder, work2024Folder, projectsFolder] ∧
    ((mergeFolders [workFolder]
        [workFolder, work2024Folder, work2024Folder, projectsFolder]).map
      (fun f => f.path)).Nodup :=
  ⟨by decide, by decide,
   (merge_preserves_unique_paths [workFolder]
      [workFolder, work2024Folder, work2024Folder, projectsFolder] (by decide)).1⟩

/-- C14, the claim as stated fails. A 401 response carrying the message
`Invalid token` is rejected with the message `Session expired - please login
again`; and when a save call fails with a 500 response carrying the message
`Title too long`, the interceptor rejects with that message but `handleSave`
shows the description `Please try again`. -/
theorem remote_error_counterexample :
    (responseInterceptor
        (AxiosOutcome.error (some (401, failureBody "Invalid token".toList)))
      = .error (rejection "Session expired - please login again".toList)) ∧
    (responseInterceptor
        (AxiosOutcome.error (some (500, failureBody "Title too long".toList)))
      = .error (rejection "Title too long".toList)) ∧
    (EditorEffect.toast
        { title := "Error saving note".toList,
          description := some "Please try again".toList,
          status := .error, duration := 3000, isClosable := true }
      ∈ (handleSave newNoteEnv validEditor
          (Except.error (rejection "Title too long".toList) : Except JSError Unit)
          (.ok ())).2) :=
  ⟨rfl, rfl, by decide⟩

/-- C14 (amended). For every server response carrying a non-empty message
`m`, a response whose success flag is false and an error response whose
status is not 401 are rejected by the interceptor with an error whose message
is exactly `m`, and a 401 response is rejected with the fixed message
`Session expired - please login again`. An operation that shows
`error.message` shows the message of the rejected error unchanged: the error
toasts of `fetchNotes`, `handleToggleFavorite`, `handleDeleteNote` and of the
create-folder and rename handlers have that message as their description. -/
theorem remote_error_message_verbatim {A : Type} (m : Str) (hm : m ≠ []) :
    (∀ (status : Nat) (body : Body A), body.success = some false → body.message = some m →
      responseInterceptor (.response status body) = .error (rejection m)) ∧
    (∀ (status : Nat) (body : Body A), status ≠ 401 → body.message = some m →
      responseInterceptor (.error (some (status, body))) = .error (rejection m)) ∧
    (∀ body : Body A, responseInterceptor (.error (some (401, body)))
      = .error (rejection "Session expired - please login again".toList)) ∧
    ((rejection m).message = m) ∧
    (∀ (props : DashProps) (st : DashState),
      DashEffect.toast (fetchErrorToast (rejection m))
        ∈ (fetchNotes props st (.error (rejection m))).2 ∧
      (fetchErrorToast (rejection m)).description = some m) ∧
    (∀ (st : DashState) (note : Note),
      ∃ t, DashEffect.toast t ∈ (handleToggleFavorite st note (.error (rejection m))).2 ∧
        t.description = some m) ∧
    (∀ (st : DashState) (id : Str),
      ∃ t, DashEffect.toast t ∈ (handleDeleteNote st id true (.error (rejection m))).2 ∧
        t.description = some m) ∧
    (∀ (s : SidebarState) (fetched : Except JSError (Option (List Folder))),
      trim s.newFolderName ≠ [] →
      ∃ t, FolderEffect.toast t
          ∈ (Sidebar.handleCreateFolder s (.error (rejection m)) fetched).2 ∧
        t.description = some m) ∧
    ((renameErrorToast (rejection m)).description = some m) := by
  have hor : ∀ d : Str, orElseOpt (some m) d = m := by
    intro d
    simp [orElseOpt, orElse, truthy, hm]
  refine ⟨?_, ?_, ?_, rfl, ?_, ?_, ?_, ?_, rfl⟩
  · intro status body hs hb
    simp [responseInterceptor, hs, hb, hor]
  · intro status body hs hb
    simp [responseInterceptor, hs, hb, hor]
  · intro body
    simp [responseInterceptor]
  · intro props st
    exact ⟨by simp [fetchNotes, fetchNotesStart, fetchNotesSettle], rfl⟩
  · intro st note
    refine ⟨{ title := "Error updating note".toList, description := some m,
              status := .error, duration := 3000, isClosable := false }, ?_, rfl⟩
    simp [handleToggleFavorite, rejection]
  · intro st id
    refine ⟨{ title := "Error deleting note".toList, description := some m,
              status := .error, duration := 3000, isClosable := false }, ?_, rfl⟩
    simp [handleDeleteNote, rejection]
  · intro s fetched hname
    refine ⟨{ title := "Error creating folder".toList, description := some m,
              status := .error, duration := 3000, isClosable := false }, ?_, rfl⟩
    simp [Sidebar.handleCreateFolder, truthy, hname, rejection]

/-- An instance of C14: a 500 response with the message `Title too long`. -/
theorem remote_error_message_verbatim_witness :
    "Title too long".toList ≠ [] ∧ (500 : Nat) ≠ 401 ∧
    responseInterceptor (AxiosOutcome.error (some (500, failureBody "Title too long".toList)))
      = .error (rejection "Title too long".toList) :=
  ⟨by decide, by decide,
   (remote_error_message_verbatim (A := Unit) "Title too long".toList (by decide)).2.1
      500 (failureBody "Title too long".toList) (by decide) rfl⟩

/-- C17, the claim as stated fails. The view holds one note, not favorite and
not archived. When the remote call of toggle-favorite, of toggle-archive and
of a confirmed delete is issued, the notes sequence is still the one held
before: the flag is not flipped and the note is not removed. -/
theorem optimistic_ordering_counterexample :
    ((stateAtCall oneNoteState
        (handleToggleFavorite oneNoteState (sampleNote "1".toList "alpha".toList)
          (.ok { data := { sampleNote "1".toList "alpha".toList with isFavorite := true } })).2).notes
      = [sampleNote "1".toList "alpha".toList]) ∧
    ((stateAtCall oneNoteState
        (handleToggleFavorite oneNoteState (sampleNote "1".toList "alpha".toList)
          (.ok { data := { sampleNote "1".toList "alpha".toList with isFavorite := true } })).2).notes
      ≠ [{ sampleNote "1".toList "alpha".toList with isFavorite := true }]) ∧
    ((stateAtCall oneNoteState
        (handleToggleArchive oneNoteState (sampleNote "1".toList "alpha".toList)
          (.ok { data := { sampleNote "1".toList "alpha".toList with isArchived := true } })).2).notes
      ≠ [{ sampleNote "1".toList "alpha".toList with isArchived := true }]) ∧
    ((stateAtCall oneNoteState
        (handleDeleteNote oneNoteState "1".toList true (.ok ())).2).notes
      = [sampleNote "1".toList "alpha".toList]) ∧
    ((stateAtCall oneNoteState
        (handleDeleteNote oneNoteState "1".toList true (.ok ())).2).notes ≠ []) := by
  decide

/-- C17 (amended: the change is applied after the remote call succeeded).
For toggle-favorite, toggle-archive and a confirmed delete, the remote call is
the first effect of the handler, so the state of the view at the moment the
call is issued is the state the handler started from; the notes sequence
changes only once the call has succeeded, to the sequence with the record
returned by the remote store in place of the note (toggles) or without the
notes of the deleted id (delete); when the call fails the state never
changes. -/
theorem mutation_applied_after_remote_success (st : DashState) (note : Note) (id : Str) :
    (∀ outcome,
      (handleToggleFavorite st note outcome).2.head?
        = some (.updateNote note._id { note with isFavorite := !note.isFavorite }) ∧
      stateAtCall st (handleToggleFavorite st note outcome).2 = st) ∧
    (∀ outcome,
      (handleToggleArchive st note outcome).2.head?
        = some (.updateNote note._id { note with isArchived := !note.isArchived }) ∧
      stateAtCall st (handleToggleArchive st note outcome).2 = st) ∧
    (∀ outcome,
      (handleDeleteNote st id true outcome).2.head? = some (.deleteNote id) ∧
      stateAtCall st (handleDeleteNote st id true outcome).2 = st) ∧
    (∀ response : NoteResponse,
      (handleToggleFavorite st note (.ok response)).1.notes
        = st.notes.map (fun n => if n._id = note._id then response.data else n) ∧
      (handleToggleArchive st note (.ok response)).1.notes
        = st.notes.map (fun n => if n._id = note._id then response.data else n)) ∧
    ((handleDeleteNote st id true (.ok ())).1.notes
      = st.notes.filter (fun n => n._id != id)) ∧
    (∀ error : JSError,
      (handleToggleFavorite st note (.error error)).1 = st ∧
      (handleToggleArchive st note (.error error)).1 = st ∧
      (handleDeleteNote st id true (.error error)).1 = st) := by
  refine ⟨?_, ?_, ?_, fun _ => ⟨rfl, rfl⟩, rfl, fun _ => ⟨rfl, rfl, rfl⟩⟩
  · intro outcome
    cases outcome <;> exact ⟨rfl, rfl⟩
  · intro outcome
    cases outcome <;> exact ⟨rfl, rfl⟩
  · intro outcome
    cases outcome <;> exact ⟨rfl, rfl⟩

/-- C19, the claim as stated fails: the favorites dashboard given the folder
path `/Work` calls the favorites operation and forwards `folder: '/Work'`. -/
theorem folder_forwarded_counterexample :
    (fetchNotesCall favoritesInFolderProps initialDashState).kind = .favorites ∧
    (fetchNotesCall favoritesInFolderProps initialDashState).requestParams.folder
      = some "/Work".toList := by
  decide

/-- C19 (amended). The query parameters built by `fetchNotes` do not depend
on the view kind: for every input combination the parameters sent carry the
folder path whenever `folderPath` is supplied and the category whenever the
category selected in the filter menu is non-empty, with the favorites,
archived, by-category, by-folder and all views alike; the view kind only
selects the list operation that receives them. -/
theorem params_forwarded_whatever_view_kind (props : DashProps) (st : DashState) :
    (fetchNotesCall props st).requestParams.folder = props.folderPath ∧
    (fetchNotesCall props st).requestParams.category
      = (if st.selectedCategory ≠ [] then some st.selectedCategory else none) ∧
    (∀ props2 : DashProps, props2.folderPath = props.folderPath →
      (fetchNotesCall props2 st).requestParams.folder
        = (fetchNotesCall props st).requestParams.folder ∧
      (fetchNotesCall props2 st).requestParams.category
        = (fetchNotesCall props st).requestParams.category) := by
  have key : ∀ p : DashProps,
      (fetchNotesCall p st).requestParams.folder = p.folderPath ∧
      (fetchNotesCall p st).requestParams.category
        = (if st.selectedCategory ≠ [] then some st.selectedCategory else none) := by
    intro p
    unfold fetchNotesCall
    split_ifs <;>
      simp_all [ListCall.requestParams, getNotesParams, fetchParams, truthy]
  refine ⟨(key props).1, (key props).2, ?_⟩
  intro props2 h
  rw [(key props2).1, (key props2).2, (key props).1, (key props).2, h]
  exact ⟨rfl, rfl⟩

/-- An instance of C19: the favorites dashboard and the plain dashboard,
given the same folder path, send the same folder parameter. -/
theorem params_forwarded_whatever_view_kind_witness :
    { favoritesInFolderProps with filterFavorites := false }.folderPath
      = favoritesInFolderProps.folderPath ∧
    (fetchNotesCall { favoritesInFolderProps with filterFavorites := false }
        initialDashState).requestParams.folder
      = (fetchNotesCall favoritesInFolderProps initialDashState).requestParams.folder :=
  ⟨rfl,
   ((params_forwarded_whatever_view_kind favoritesInFolderProps initialDashState).2.2
      { favoritesInFolderProps with filterFavorites := false } rfl).1⟩

/-- C20 (optional filters are forwarded, never applied locally). For every
input combination the query sent by `fetchNotes` has a `tags` parameter iff
the tag selection is non-empty, then equal to the selected tags joined by `,`
in selection order, and a `search` parameter iff the search text is non-empty,
then equal to the search text; and after a fetch that returned an array the
notes held, and the cards shown for a non-empty array, are the returned
sequence itself. -/
theorem optional_filters_forwarded (props : DashProps) (st : DashState) :
    ((fetchNotesCall props st).requestParams.tags
      = (if st.selectedTags = [] then none else some (join ",".toList st.selectedTags))) ∧
    ((fetchNotesCall props st).requestParams.search
      = (if st.searchQuery = [] then none else some st.searchQuery)) ∧
    (((fetchNotesCall props st).requestParams.tags).isSome ↔ st.selectedTags ≠ []) ∧
    (((fetchNotesCall props st).requestParams.search).isSome ↔ st.searchQuery ≠ []) ∧
    (∀ returned : List Note,
      (fetchNotes props st (.ok { data := some returned })).1.notes = returned ∧
      (returned ≠ [] →
        renderNotes (fetchNotes props st (.ok { data := some returned })).1
          = .cards returned)) := by
  have htags : (fetchNotesCall props st).requestParams.tags
      = (if st.selectedTags = [] then none else some (join ",".toList st.selectedTags)) := by
    unfold fetchNotesCall
    cases hsel : st.selectedTags <;> split_ifs <;>
      simp_all [ListCall.requestParams, getNotesParams, fetchParams]
  have hsearch : (fetchNotesCall props st).requestParams.search
      = (if st.searchQuery = [] then none else some st.searchQuery) := by
    unfold fetchNotesCall
    cases hq : st.searchQuery <;> split_ifs <;>
      simp_all [ListCall.requestParams, getNotesParams, fetchParams, truthy]
  refine ⟨htags, hsearch, ?_, ?_, ?_⟩
  · rw [htags]
    by_cases h : st.selectedTags = [] <;> simp [h]
  · rw [hsearch]
    by_cases h : st.searchQuery = [] <;> simp [h]
  · intro returned
    refine ⟨rfl, fun hne => ?_⟩
    cases returned with
    | nil => exact absurd rfl hne
    | cons n rest => rfl

/-- An instance of C20: a non-empty returned sequence is shown as it is. -/
theorem optional_filters_forwarded_witness :
    [sampleNote "2".toList "roadmap".toList] ≠ [] ∧
    renderNotes (fetchNotes allNotesProps initialDashState
        (.ok { data := some [sampleNote "2".toList "roadmap".toList] })).1
      = .cards [sampleNote "2".toList "roadmap".toList] :=
  ⟨by decide,
   ((optional_filters_forwarded allNotesProps initialDashState).2.2.2.2
      [sampleNote "2".toList "roadmap".toList]).2 (by decide)⟩

theorem fetchNotesCall_congr (p p2 : DashProps) (s s2 : DashState)
    (h : deps p s = deps p2 s2) (hf : p.filterByCategory = p2.filterByCategory) :
    fetchNotesCall p s = fetchNotesCall p2 s2 := by
  simp only [deps, Deps.mk.injEq] at h
  obtain ⟨h1, h2, h3, h4, h5, h6, h7, h8, h9⟩ := h
  simp only [fetchNotesCall, fetchParams, h1, h2, h3, h4, h5, h6, h7, h8, h9, hf]

theorem View.startFetch_callbackInv (v : View) (cb : Callback) (h : v.CallbackInv) :
    (v.startFetch cb).CallbackInv := by
  unfold View.CallbackInv View.startFetch View.setState at *
  by_cases hm : v.mounted = true
  · simp only [hm, if_true]
    exact h
  · simp only [hm, Bool.false_eq_true, if_false]
    exact h

theorem View.runEffect_callbackInv (v : View) (h : v.CallbackInv) :
    (v.runEffect).CallbackInv :=
  View.startFetch_callbackInv v v.callback h

theorem View.cleanup_fields (v : View) :
    (v.cleanup).props = v.props ∧ (v.cleanup).st = v.st ∧
    (v.cleanup).callback = v.callback := by
  unfold View.cleanup
  split
  · split_ifs <;> exact ⟨rfl, rfl, rfl⟩
  · exact ⟨rfl, rfl, rfl⟩

theorem View.rerender_callbackInv (v : View) (props : DashProps) (st : DashState) :
    (v.rerender props st).CallbackInv := by
  unfold View.rerender
  split_ifs with hd
  · exact hd.symm
  · apply View.runEffect_callbackInv
    obtain ⟨c1, c2, c3⟩ := View.cleanup_fields
      { v with props := props, st := st, callback := { props := props, st := st } }
    unfold View.CallbackInv
    rw [c1, c2, c3]

theorem View.step_callbackInv (v : View) (e : Event) (h : v.CallbackInv) :
    (v.step e).CallbackInv := by
  cases e with
  | action a =>
    simp only [View.step]
    split_ifs
    · exact View.rerender_callbackInv v _ _
    · exact h
  | newProps props =>
    simp only [View.step]
    split_ifs
    · exact View.rerender_callbackInv v _ _
    · exact h
  | refresh =>
    simp only [View.step]
    split_ifs
    · exact View.startFetch_callbackInv v _ h
    · exact h
  | tick id =>
    simp only [View.step]
    split
    · exact View.startFetch_callbackInv v _ h
    · exact h
  | settle i outcome =>
    simp only [View.step]
    split_ifs
    · unfold View.CallbackInv at h
      cases outcome <;>
        by_cases hm : v.mounted = true <;>
          simpa [View.CallbackInv, View.setState, hm, fetchNotesSettle, deps] using h
    · exact h
  | unmount =>
    simp only [View.step]
    split_ifs
    · obtain ⟨c1, c2, c3⟩ := View.cleanup_fields v
      unfold View.CallbackInv at *
      show deps (v.cleanup).callback.props (v.cleanup).callback.st
        = deps (v.cleanup).props (v.cleanup).st
      rw [c1, c2, c3]
      exact h
    · exact h

theorem View.run_callbackInv (events : List Event) (v : View) (h : v.CallbackInv) :
    (v.run events).CallbackInv := by
  induction events generalizing v with
  | nil => exact h
  | cons e rest ih => exact ih (v.step e) (View.step_callbackInv v e h)

theorem mount_callbackInv (props : DashProps) : (mount props).CallbackInv := by
  unfold mount
  apply View.runEffect_callbackInv
  rfl

/-- The polling invariant for arbitrary props. At every moment of a run from
the mount at which the view is mounted, exactly one timer is armed, with the
delay 30000 and the memoised callback; the values the callback captured agree
with the current props and state on every dependency of `useCallback` (the
favorites and archived flags, the route category, the folder path, the sort
field and order, the tags, the search text and the selected category); a tick
of the armed timer issues the list call of the callback; and that call is the
list call of the current props and state whenever the callback captured the
current `filterByCategory` flag. -/
theorem polling_invariant_up_to_category_flag (props : DashProps) (events : List Event)
    (hm : ((mount props).run events).mounted = true) :
    ∃ id, 0 < id ∧
      ((mount props).run events).timers
        = [{ id := id, delay := 30000, callback := ((mount props).run events).callback }] ∧
      deps ((mount props).run events).callback.props ((mount props).run events).callback.st
        = deps ((mount props).run events).props ((mount props).run events).st ∧
      (((mount props).run events).step (.tick id)).issued
        = ((mount props).run events).issued ++
          [fetchNotesCall ((mount props).run events).callback.props
            ((mount props).run events).callback.st] ∧
      (((mount props).run events).callback.props.filterByCategory
          = ((mount props).run events).props.filterByCategory →
        fetchNotesCall ((mount props).run events).callback.props
            ((mount props).run events).callback.st
          = fetchNotesCall ((mount props).run events).props ((mount props).run events).st) := by
  have hinv := View.run_timerInv events (mount props) (mount_timerInv props)
  have hcb := View.run_callbackInv events (mount props) (mount_callbackInv props)
  generalize (mount props).run events = v at hm hinv hcb
  obtain ⟨_, hmt, _⟩ := hinv
  obtain ⟨id, hid, _, ht⟩ := hmt hm
  refine ⟨id, hid, ht, hcb, ?_, fun hf => fetchNotesCall_congr _ _ _ _ hcb hf⟩
  simp [View.step, ht, View.startFetch, View.setState, hm]

theorem CallSite.props_flag (site : CallSite) :
    site.props.filterByCategory = site.props.category.isSome := by
  cases site <;> rfl

theorem View.startFetch_flagInv (v : View) (cb : Callback) (h : v.FlagInv) :
    (v.startFetch cb).FlagInv := by
  unfold View.FlagInv View.startFetch View.setState at *
  by_cases hm : v.mounted = true
  · simp only [hm, if_true]
    exact h
  · simp only [hm, Bool.false_eq_true, if_false]
    exact h

theorem View.rerender_flagInv (v : View) (props : DashProps) (st : DashState)
    (hp : props.filterByCategory = props.category.isSome) (h : v.FlagInv) :
    (v.rerender props st).FlagInv := by
  unfold View.rerender
  split_ifs with hd
  · exact ⟨hp, h.2⟩
  · apply View.startFetch_flagInv
    obtain ⟨c1, _, c3⟩ := View.cleanup_fields
      { v with props := props, st := st, callback := { props := props, st := st } }
    unfold View.FlagInv
    rw [c1, c3]
    exact ⟨hp, hp⟩

theorem View.step_flagInv (v : View) (e : Event) (he : e.fromCallSite) (h : v.FlagInv) :
    (v.step e).FlagInv := by
  cases e with
  | action a =>
    simp only [View.step]
    split_ifs
    · exact View.rerender_flagInv v _ _ h.1 h
    · exact h
  | newProps props =>
    obtain ⟨site, hsite⟩ := he
    simp only [View.step]
    split_ifs
    · exact View.rerender_flagInv v _ _ (hsite ▸ site.props_flag) h
    · exact h
  | refresh =>
    simp only [View.step]
    split_ifs
    · exact View.startFetch_flagInv v _ h
    · exact h
  | tick id =>
    simp only [View.step]
    split
    · exact View.startFetch_flagInv v _ h
    · exact h
  | settle i outcome =>
    simp only [View.step]
    split_ifs
    · unfold View.FlagInv at h
      cases outcome <;>
        by_cases hm : v.mounted = true <;>
          simpa [View.FlagInv, View.setState, hm] using h
    · exact h
  | unmount =>
    simp only [View.step]
    split_ifs
    · obtain ⟨c1, _, c3⟩ := View.cleanup_fields v
      unfold View.FlagInv at *
      show (v.cleanup).props.filterByCategory = (v.cleanup).props.category.isSome ∧
        (v.cleanup).callback.props.filterByCategory = (v.cleanup).callback.props.category.isSome
      rw [c1, c3]
      exact h
    · exact h

theorem View.run_flagInv (events : List Event) (v : View)
    (he : ∀ e ∈ events, e.fromCallSite) (h : v.FlagInv) : (v.run events).FlagInv := by
  induction events generalizing v with
  | nil => exact h
  | cons e rest ih =>
    exact ih (v.step e) (fun x hx => he x (List.mem_cons_of_mem _ hx))
      (View.step_flagInv v e (he e (List.mem_cons_self _ _)) h)

theorem mount_flagInv (site : CallSite) : (mount site.props).FlagInv := by
  unfold mount
  apply View.startFetch_flagInv
  exact ⟨site.props_flag, site.props_flag⟩

/-- C18 (polling invariant). A dashboard is rendered by one of the call sites
of the application and receives any sequence of events (user actions, props
of a call site, refreshes, timer ticks, responses, the unmount). At every
moment at which it is mounted exactly one poll timer is armed, its delay is
30000, the callback it holds is the current memoised `fetchNotes`, and the
list call that a tick of the timer issues is the list call of the current
props and query state (view kind, route category, folder, sort field and
order, tags, search text, selected category), not one of an earlier
descriptor; a tick under any other id does nothing. -/
theorem poll_uses_current_descriptor (site : CallSite) (events : List Event)
    (hsite : ∀ e ∈ events, e.fromCallSite)
    (hm : ((mount site.props).run events).mounted = true) :
    ∃ id, 0 < id ∧
      ((mount site.props).run events).timers
        = [{ id := id, delay := 30000,
             callback := ((mount site.props).run events).callback }] ∧
      fetchNotesCall ((mount site.props).run events).callback.props
          ((mount site.props).run events).callback.st
        = fetchNotesCall ((mount site.props).run events).props
            ((mount site.props).run events).st ∧
      (((mount site.props).run events).step (.tick id)).issued
        = ((mount site.props).run events).issued ++
          [fetchNotesCall ((mount site.props).run events).props
            ((mount site.props).run events).st] ∧
      (∀ other, other ≠ id →
        ((mount site.props).run events).step (.tick other)
          = (mount site.props).run events) := by
  have hflag := View.run_flagInv events (mount site.props) hsite (mount_flagInv site)
  have hcb := View.run_callbackInv events (mount site.props) (mount_callbackInv site.props)
  obtain ⟨id, hid, ht, _, hissued, hcall⟩ :=
    polling_invariant_up_to_category_flag site.props events hm
  generalize (mount site.props).run events = v at hm hflag hcb ht hissued hcall
  have hcat : v.callback.props.category = v.props.category := by
    have := congrArg Deps.category hcb
    exact this
  have hf : v.callback.props.filterByCategory = v.props.filterByCategory := by
    rw [hflag.1, hflag.2, hcat]
  refine ⟨id, hid, ht, hcall hf, ?_, ?_⟩
  · rw [hissued, hcall hf]
  · intro other hne
    have hnone : v.timers.find? (fun t => t.id = other) = none := by
      rw [ht]
      simp [List.find?, hne.symm]
    simp only [View.step, hnone]

/-- An instance of C18: under the route `/categories/work`, after a search,
a tick and two changes of props, the one armed timer issues the by-category
call for `work` with the search text. -/
theorem poll_uses_current_descriptor_witness :
    (∀ e ∈ categoryRun, e.fromCallSite) ∧
    ((mount (CallSite.categories "work".toList).props).run categoryRun).mounted = true ∧
    ∃ id, 0 < id ∧
      ((mount (CallSite.categories "work".toList).props).run categoryRun).timers
        = [{ id := id, delay := 30000,
             callback :=
               ((mount (CallSite.categories "work".toList).props).run categoryRun).callback }] ∧
      fetchNotesCall
          ((mount (CallSite.categories "work".toList).props).run categoryRun).callback.props
          ((mount (CallSite.categories "work".toList).props).run categoryRun).callback.st
        = fetchNotesCall
            ((mount (CallSite.categories "work".toList).props).run categoryRun).props
            ((mount (CallSite.categories "work".toList).props).run categoryRun).st :=
  have hsite : ∀ e ∈ categoryRun, e.fromCallSite := by
    intro e he
    simp only [categoryRun, List.mem_cons, List.mem_singleton, List.not_mem_nil, or_false] at he
    rcases he with rfl | rfl | rfl | rfl
    · exact trivial
    · exact trivial
    · exact ⟨.favorites, rfl⟩
    · exact ⟨.categories "work".toList, rfl⟩
  have h := poll_uses_current_descriptor (CallSite.categories "work".toList) categoryRun hsite (by decide)
  ⟨hsite, by decide, h.elim (fun id hid => ⟨id, hid.1, hid.2.1, hid.2.2.1⟩)⟩

theorem orElse_ne_nil (a d : Str) (hd : d ≠ []) : orElse a d ≠ [] := by
  unfold orElse
  split_ifs with h
  · intro e
    rw [e] at h
    simp [truthy] at h
  · exact hd

theorem orElseOpt_ne_nil (a : Option Str) (d : Str) (hd : d ≠ []) : orElseOpt a d ≠ [] := by
  cases a with
  | none => exact hd
  | some s => exact orElse_ne_nil s d hd

/-- The fields of a save request as far as they are guaranteed. For every
editor state and every save request `handleSave` issues, the title of the
body sent is non-empty; the category of a create request is non-empty; and
the category of an update request is non-empty whenever the category of the
editor is non-empty after trimming. -/
theorem save_request_fields {R : Type} (env : EditorEnv) (s : EditorState)
    (save : Except JSError R) (cats : Except JSError Unit) (e : EditorEffect R) (b : NoteBody)
    (he : e ∈ (handleSave env s save cats).2) (hb : e.requestBody = some b) :
    b.title ≠ [] ∧ (noteId env = none → b.category ≠ []) ∧
    (trim s.category ≠ [] → b.category ≠ []) := by
  by_cases ht : trim s.title = []
  · rw [handleSave_of_blank_title env s save cats ht] at he
    simp only [List.mem_singleton] at he
    rw [he] at hb
    simp [EditorEffect.requestBody] at hb
  by_cases hc : s.category = []
  · rw [handleSave_of_no_category env s save cats ht hc] at he
    simp only [List.mem_singleton] at he
    rw [he] at hb
    simp [EditorEffect.requestBody] at hb
  by_cases h : trim (currentContent env s) = []
  · rw [handleSave_of_blank_content env s save cats ht hc h] at he
    simp only [List.mem_singleton] at he
    rw [he] at hb
    simp [EditorEffect.requestBody] at hb
  · have h1 : (!truthy (trim s.title)) = false := by simp [truthy, ht]
    have h2 : (!truthy s.category) = false := by simp [truthy, hc]
    have h3 : (!truthy (trim (currentContent env s))) = false := by simp [truthy, h]
    have hcall : e = saveCall R env (buildNoteData env s (currentContent env s)) := by
      simp only [handleSave, h1, h2, h3, Bool.false_eq_true, if_false] at he
      cases save with
      | error err =>
        simp only [List.mem_cons, List.mem_singleton, List.not_mem_nil, or_false] at he
        rcases he with r | r | r | r
        · rw [r] at hb; simp [EditorEffect.requestBody] at hb
        · exact r
        · rw [r] at hb; simp [EditorEffect.requestBody] at hb
        · rw [r] at hb; simp [EditorEffect.requestBody] at hb
      | ok val =>
        by_cases hf : s.isFavorite = true
        · cases cats with
          | error err =>
            simp only [hf, if_true, List.mem_cons, List.mem_singleton, List.not_mem_nil,
              or_false] at he
            rcases he with r | r | r | r | r
            · rw [r] at hb; simp [EditorEffect.requestBody] at hb
            · exact r
            · rw [r] at hb; simp [EditorEffect.requestBody] at hb
            · rw [r] at hb; simp [EditorEffect.requestBody] at hb
            · rw [r] at hb; simp [EditorEffect.requestBody] at hb
          | ok u =>
            simp only [hf, if_true, List.mem_cons, List.mem_singleton, List.not_mem_nil,
              or_false] at he
            rcases he with r | r | r | r | r | r
            · rw [r] at hb; simp [EditorEffect.requestBody] at hb
            · exact r
            · rw [r] at hb; simp [EditorEffect.requestBody] at hb
            · rw [r] at hb; simp [EditorEffect.requestBody] at hb
            · rw [r] at hb; simp [EditorEffect.requestBody] at hb
            · rw [r] at hb; simp [EditorEffect.requestBody] at hb
        · have hf2 : s.isFavorite = false := by simpa using hf
          simp only [hf2, Bool.false_eq_true, if_false, List.mem_cons, List.mem_singleton,
            List.not_mem_nil, or_false] at he
          rcases he with r | r | r | r | r
          · rw [r] at hb; simp [EditorEffect.requestBody] at hb
          · exact r
          · rw [r] at hb; simp [EditorEffect.requestBody] at hb
          · rw [r] at hb; simp [EditorEffect.requestBody] at hb
          · rw [r] at hb; simp [EditorEffect.requestBody] at hb
    rw [hcall] at hb
    unfold saveCall at hb
    cases hid : noteId env with
    | none =>
      rw [hid] at hb
      simp only [EditorEffect.requestBody, Option.some.injEq] at hb
      rw [← hb]
      refine ⟨ht, fun _ => ?_, fun _ => ?_⟩
      · exact orElse_ne_nil _ _ (by decide)
      · exact orElse_ne_nil _ _ (by decide)
    | some id =>
      rw [hid] at hb
      simp only [EditorEffect.requestBody, Option.some.injEq] at hb
      rw [← hb]
      exact ⟨ht, fun hn => absurd hn (by simp), fun hcat => hcat⟩

/-- C21, the code at a failing input. The editor is open on the existing
note `n1` with the title `Plan`, a non-empty content and a category of two
spaces: the validation `!category` passes, `handleSave` issues the update
call, and the category of the body sent, `category.trim()`, is the empty
string. -/
theorem update_sends_blank_category :
    (trim blankCategoryEditor.title ≠ [] ∧ blankCategoryEditor.category ≠ [] ∧
      trim (currentContent editNoteEnv blankCategoryEditor) ≠ []) ∧
    (EditorEffect.updateNote "n1".toList
        (buildNoteData editNoteEnv blankCategoryEditor
          (currentContent editNoteEnv blankCategoryEditor))
      ∈ (handleSave editNoteEnv blankCategoryEditor (Except.ok ()) (Except.ok ())).2) ∧
    ((EditorEffect.updateNote (R := Unit) "n1".toList
        (buildNoteData editNoteEnv blankCategoryEditor
          (currentContent editNoteEnv blankCategoryEditor))).requestBody
      = some { title := "Plan".toList, content := "<p>text</p>".toList, tags := [],
               category := [], folder := some "/".toList, images := [],
               isFavorite := false }) := by
  decide

/-- C22 (save installs the authoritative record). For every dashboard state
and every record `r` returned by the remote store, when `handleSaveNote`
returns after an update (a note was selected for editing) the notes sequence
has the length it had, holds `r` at every position whose note had the id of
`r` and the previous note at every other position; after a create (no note
selected) it is `r` followed by the previous sequence. -/
theorem save_installs_authoritative_record (props : DashProps) (st : DashState)
    (r : NoteResponse) :
    (∀ sel, st.selectedNote = some sel →
      (handleSaveNote props st r).1.notes.length = st.notes.length ∧
      (∀ (i : Nat) (n : Note), st.notes[i]? = some n → n._id = r.data._id →
        (handleSaveNote props st r).1.notes[i]? = some r.data) ∧
      (∀ (i : Nat) (n : Note), st.notes[i]? = some n → n._id ≠ r.data._id →
        (handleSaveNote props st r).1.notes[i]? = some n) ∧
      (handleSaveNote props st r).1.notes
        = st.notes.map (fun n => if n._id = r.data._id then r.data else n)) ∧
    (st.selectedNote = none → (handleSaveNote props st r).1.notes = r.data :: st.notes) ∧
    ((handleSaveNote props st r).2.head? = some (.setNotes (handleSaveNote props st r).1.notes)) := by
  refine ⟨?_, ?_, ?_⟩
  · intro sel hsel
    have hnotes : (handleSaveNote props st r).1.notes
        = st.notes.map (fun n => if n._id = r.data._id then r.data else n) := by
      simp [handleSaveNote, hsel, fetchNotesStart]
    rw [hnotes]
    refine ⟨by simp, ?_, ?_, rfl⟩
    · intro i n hi hid
      rw [List.getElem?_map, hi]
      simp [hid]
    · intro i n hi hid
      rw [List.getElem?_map, hi]
      simp [hid]
  · intro hsel
    simp [handleSaveNote, hsel, fetchNotesStart]
  · cases hsel : st.selectedNote <;> simp [handleSaveNote, hsel, fetchNotesStart]

/-- An instance of C22: the first of two notes is updated. -/
theorem save_installs_authoritative_record_witness :
    editingState.selectedNote = some (sampleNote "1".toList "alpha".toList) ∧
    (handleSaveNote allNotesProps editingState
        { data := sampleNote "1".toList "beta".toList }).1.notes
      = [sampleNote "1".toList "beta".toList, sampleNote "2".toList "roadmap".toList] ∧
    (handleSaveNote allNotesProps editingState
        { data := sampleNote "1".toList "beta".toList }).1.notes.length
      = editingState.notes.length :=
  ⟨rfl, by decide,
   ((save_installs_authoritative_record allNotesProps editingState
      { data := sampleNote "1".toList "beta".toList }).1
      (sampleNote "1".toList "alpha".toList) rfl).1⟩

/-- C23 (every failure yields an error value). For every failure the
response interceptor handles, a response whose success flag is false, no
response received, a 401 response or a response with any other error status,
the interceptor rejects, with a value whose message is a non-empty string. -/
theorem interceptor_failure_rejects {A : Type} :
    (∀ (status : Nat) (body : Body A), body.success = some false →
      ∃ e, responseInterceptor (.response status body) = .error e ∧ e.message ≠ []) ∧
    (∃ e, responseInterceptor (AxiosOutcome.error (none : Option (Nat × Body A))) = .error e ∧
      e.message ≠ []) ∧
    (∀ body : Body A,
      ∃ e, responseInterceptor (.error (some (401, body))) = .error e ∧ e.message ≠ []) ∧
    (∀ (status : Nat) (body : Body A),
      ∃ e, responseInterceptor (.error (some (status, body))) = .error e ∧ e.message ≠ []) := by
  have hstatus : ∀ (status : Nat) (body : Body A),
      ∃ e, responseInterceptor (.error (some (status, body))) = .error e ∧ e.message ≠ [] := by
    intro status body
    by_cases h : status = 401
    · exact ⟨rejection "Session expired - please login again".toList,
        by simp [responseInterceptor, h], by decide⟩
    · exact ⟨rejection (orElseOpt body.message "Something went wrong".toList),
        by simp [responseInterceptor, h], orElseOpt_ne_nil _ _ (by decide)⟩
  refine ⟨?_, ?_, fun body => hstatus 401 body, hstatus⟩
  · intro status body hs
    exact ⟨rejection (orElseOpt body.message "Operation failed".toList),
      by simp [responseInterceptor, hs], orElseOpt_ne_nil _ _ (by decide)⟩
  · exact ⟨rejection "Network error - please check your internet connection".toList,
      rfl, by decide⟩

/-- An instance of C23: a response with the success flag false and no
message is rejected with the message `Operation failed`. -/
theorem interceptor_failure_rejects_witness :
    ({ success := some false, message := none, data := .undefined } : Body Unit).success
      = some false ∧
    ∃ e, responseInterceptor
        (.response 200 ({ success := some false, message := none, data := .undefined } : Body Unit))
      = .error e ∧ e.message ≠ [] :=
  ⟨rfl, (interceptor_failure_rejects (A := Unit)).1 200 _ rfl⟩

/-- C25, the code at a failing input. A successful response whose `data`
property is `0`, `''`, `false` or `null` is resolved to the whole body, not
to the `data` property, while an empty list is resolved to the `data`
property itself. For every response the interceptor rejects iff the success
flag is exactly false, and resolves to the `data` property whenever the flag
is not false and the property is truthy. -/
theorem falsy_data_returns_whole_body :
    (responseInterceptor (.response 200 (successBody (.number 0)))
      = .ok (.body (successBody (.number 0)))) ∧
    (responseInterceptor (.response 200 (successBody (.string [])))
      = .ok (.body (successBody (.string [])))) ∧
    (responseInterceptor (.response 200 (successBody (.bool false)))
      = .ok (.body (successBody (.bool false)))) ∧
    (responseInterceptor (.response 200 (successBody .null))
      = .ok (.body (successBody .null))) ∧
    (responseInterceptor (.response 200 (successBody (.value [])))
      = .ok (.data (.value []))) ∧
    (∀ (status : Nat) (body : Body (List Nat)),
      ((∃ e, responseInterceptor (.response status body) = .error e)
        ↔ body.success = some false) ∧
      (body.success ≠ some false → body.data.truthy = true →
        responseInterceptor (.response status body) = .ok (.data body.data))) := by
  refine ⟨rfl, rfl, rfl, rfl, rfl, ?_⟩
  intro status body
  by_cases hs : body.success = some false
  · exact ⟨⟨fun _ => hs, fun _ => ⟨rejection (orElseOpt body.message "Operation failed".toList),
      by simp [responseInterceptor, hs]⟩⟩, fun h => absurd hs h⟩
  · refine ⟨⟨fun ⟨e, he⟩ => ?_, fun h => absurd h hs⟩, fun _ ht => ?_⟩
    · by_cases ht : body.data.truthy = true <;>
        simp [responseInterceptor, hs, ht] at he
    · simp [responseInterceptor, hs, ht]

theorem sidebar_createCall_iff (s : SidebarState) (created : Except JSError Unit)
    (fetched : Except JSError (Option (List Folder))) :
    ((∃ e ∈ (Sidebar.handleCreateFolder s created fetched).2, e.isCreateCall = true) ↔
      trim s.newFolderName ≠ []) ∧
    (trim s.newFolderName = [] →
      Sidebar.handleCreateFolder s created fetched = (s, [.toast nameRequiredToast])) := by
  by_cases h : trim s.newFolderName = []
  · simp [Sidebar.handleCreateFolder, truthy, h, FolderEffect.isCreateCall]
  · refine ⟨⟨fun _ => h, fun _ => ?_⟩, fun h2 => absurd h2 h⟩
    refine ⟨.createFolder s.currentPath s.newFolderName, ?_, rfl⟩
    cases created <;> simp [Sidebar.handleCreateFolder, truthy, h]

theorem folderView_createCall_iff (s : FolderViewState) (created : Except JSError Unit)
    (fetched : Except JSError (Option FolderData)) :
    ((∃ e ∈ (FolderView.handleCreateFolder s created fetched).2, e.isCreateCall = true) ↔
      trim s.newFolderName ≠ []) ∧
    (trim s.newFolderName = [] →
      FolderView.handleCreateFolder s created fetched = (s, [.toast nameRequiredToast])) := by
  by_cases h : trim s.newFolderName = []
  · simp [FolderView.handleCreateFolder, truthy, h, FolderEffect.isCreateCall]
  · refine ⟨⟨fun _ => h, fun _ => ?_⟩, fun h2 => absurd h2 h⟩
    refine ⟨.createFolder (orElseOpt s.folderPath []) (trim s.newFolderName), ?_, rfl⟩
    cases created <;> simp [FolderView.handleCreateFolder, truthy, h]

/-- C27, the code at a failing input. The name ` Work`, with a leading
space, is entered in both dialogs: both handlers issue the create call, the
sidebar passes the name as entered and the folder view passes it trimmed. For
every entered name the two handlers agree on whether the call is issued, and
the name the folder view passes is the trimmed form of the name the sidebar
passes. -/
theorem create_entry_points_pass_different_names :
    ((Sidebar.handleCreateFolder paddedNameSidebar (.ok ()) (.ok none)).2.head?
      = some (.createFolder "/".toList " Work".toList)) ∧
    ((FolderView.handleCreateFolder paddedNameFolderView (.ok ()) (.ok none)).2.head?
      = some (.createFolder [] "Work".toList)) ∧
    (∀ (s : SidebarState) (v : FolderViewState) (c1 c2 : Except JSError Unit)
        (f1 : Except JSError (Option (List Folder))) (f2 : Except JSError (Option FolderData)),
      s.newFolderName = v.newFolderName →
      ((∃ e ∈ (Sidebar.handleCreateFolder s c1 f1).2, e.isCreateCall = true) ↔
        (∃ e ∈ (FolderView.handleCreateFolder v c2 f2).2, e.isCreateCall = true)) ∧
      (∀ e1 ∈ (Sidebar.handleCreateFolder s c1 f1).2,
        ∀ e2 ∈ (FolderView.handleCreateFolder v c2 f2).2,
        ∀ n1 n2, e1.createName = some n1 → e2.createName = some n2 →
          n1 = s.newFolderName ∧ n2 = trim n1)) := by
  refine ⟨by decide, by decide, ?_⟩
  intro s v c1 c2 f1 f2 hname
  have hs := sidebar_createCall_iff
  have hv := folderView_createCall_iff
  constructor
  · rw [(hs s c1 f1).1, (hv v c2 f2).1, hname]
  · intro e1 he1 e2 he2 n1 n2 h1 h2
    have hn1 : n1 = s.newFolderName := by
      by_cases h : trim s.newFolderName = []
      · rw [(hs s c1 f1).2 h] at he1
        simp only [List.mem_singleton] at he1
        rw [he1] at h1
        simp [FolderEffect.createName] at h1
      · have ht : (!truthy (trim s.newFolderName)) = false := by simp [truthy, h]
        cases c1 with
        | error err =>
          simp only [Sidebar.handleCreateFolder, ht, Bool.false_eq_true, if_false,
            List.mem_cons, List.mem_singleton, List.not_mem_nil, or_false] at he1
          rcases he1 with r | r <;> rw [r] at h1 <;> simp [FolderEffect.createName] at h1
          exact h1.symm
        | ok u =>
          simp only [Sidebar.handleCreateFolder, ht, Bool.false_eq_true, if_false,
            List.mem_append, List.mem_cons, List.mem_singleton, List.not_mem_nil,
            or_false] at he1
          rcases he1 with (r | r) | r
          · rw [r] at h1
            simp [FolderEffect.createName] at h1
            exact h1.symm
          · cases f1 with
            | error err =>
              simp only [fetchFolders, List.mem_cons, List.mem_singleton, List.not_mem_nil,
                or_false] at r
              rcases r with r | r <;> rw [r] at h1 <;> simp [FolderEffect.createName] at h1
            | ok l =>
              simp only [fetchFolders, List.mem_cons, List.mem_singleton, List.not_mem_nil,
                or_false] at r
              rcases r with r | r <;> rw [r] at h1 <;> simp [FolderEffect.createName] at h1
          · rcases r with r | r | r <;> rw [r] at h1 <;> simp [FolderEffect.createName] at h1
    have hn2 : n2 = trim v.newFolderName := by
      by_cases h : trim v.newFolderName = []
      · rw [(hv v c2 f2).2 h] at he2
        simp only [List.mem_singleton] at he2
        rw [he2] at h2
        simp [FolderEffect.createName] at h2
      · have ht : (!truthy (trim v.newFolderName)) = false := by simp [truthy, h]
        cases c2 with
        | error err =>
          simp only [FolderView.handleCreateFolder, ht, Bool.false_eq_true, if_false,
            List.mem_cons, List.mem_singleton, List.not_mem_nil, or_false] at he2
          rcases he2 with r | r <;> rw [r] at h2 <;> simp [FolderEffect.createName] at h2
          exact h2.symm
        | ok u =>
          cases f2 with
          | error err =>
            simp only [FolderView.handleCreateFolder, ht, Bool.false_eq_true, if_false,
              fetchFolderContents, List.take, List.drop, List.cons_append, List.nil_append,
              List.mem_cons, List.mem_singleton, List.not_mem_nil, or_false] at he2
            rcases he2 with r | r | r | r | r | r | r | r <;> rw [r] at h2 <;>
              simp [FolderEffect.createName] at h2
            exact h2.symm
          | ok d =>
            simp only [FolderView.handleCreateFolder, ht, Bool.false_eq_true, if_false,
              fetchFolderContents, List.take, List.drop, List.cons_append, List.nil_append,
              List.mem_cons, List.mem_singleton, List.not_mem_nil, or_false] at he2
            rcases he2 with r | r | r | r | r | r | r | r <;> rw [r] at h2 <;>
              simp [FolderEffect.createName] at h2
            exact h2.symm
    exact ⟨hn1, by rw [hn2, ← hname, hn1]⟩

/-- C28 (delete removes exactly the target). For every dashboard state and
every note id, after a confirmed `handleDeleteNote` whose remote call
succeeded the notes sequence is the previous one without the notes of that
id: it is a sublist of the previous sequence (the order is kept), a note is
in it iff it was in the previous sequence with another id, and every note
with another id occurs as often as before; when the remote call fails, or
the confirmation is declined, the state is unchanged. -/
theorem delete_removes_exactly_target (st : DashState) (id : Str) :
    ((handleDeleteNote st id true (.ok ())).1.notes
      = st.notes.filter (fun n => n._id != id)) ∧
    ((handleDeleteNote st id true (.ok ())).1.notes.Sublist st.notes) ∧
    (∀ n, n ∈ (handleDeleteNote st id true (.ok ())).1.notes ↔ n ∈ st.notes ∧ n._id ≠ id) ∧
    (∀ n, n._id ≠ id →
      (handleDeleteNote st id true (.ok ())).1.notes.count n = st.notes.count n) ∧
    (∀ error, (handleDeleteNote st id true (.error error)).1 = st) ∧
    (∀ outcome, handleDeleteNote st id false outcome = (st, [])) := by
  have hnotes : (handleDeleteNote st id true (.ok ())).1.notes
      = st.notes.filter (fun n => n._id != id) := rfl
  refine ⟨hnotes, ?_, ?_, ?_, fun _ => rfl, fun _ => rfl⟩
  · rw [hnotes]
    exact List.filter_sublist _
  · intro n
    rw [hnotes, List.mem_filter]
    simp
  · intro n hn
    rw [hnotes, List.count_filter]
    simpa using hn

/-- An instance of C28: deleting the note `1` of a single-note view. -/
theorem delete_removes_exactly_target_witness :
    (sampleNote "1".toList "alpha".toList)._id ≠ "2".toList ∧
    (handleDeleteNote oneNoteState "2".toList true (.ok ())).1.notes.count
        (sampleNote "1".toList "alpha".toList)
      = oneNoteState.notes.count (sampleNote "1".toList "alpha".toList) ∧
    (handleDeleteNote oneNoteState "1".toList true (.ok ())).1.notes = [] :=
  ⟨by decide,
   (delete_removes_exactly_target oneNoteState "2".toList).2.2.2.1
     (sampleNote "1".toList "alpha".toList) (by decide),
   by decide⟩

theorem trim_eq_rdropWhile (s : Str) :
    trim s = List.rdropWhile isTrimChar (s.dropWhile isTrimChar) := by
  rfl

theorem dropWhile_of_prefix_of_fixed (p : Char → Bool) (t a : Str) (hpre : t <+: a)
    (ha : a.dropWhile p = a) : t.dropWhile p = t := by
  cases t with
  | nil => rfl
  | cons x rest =>
    obtain ⟨r, hr⟩ := hpre
    have hx : p x = false := by
      by_contra hpx
      have hpx2 : p x = true := by simpa using hpx
      rw [← hr, List.cons_append, List.dropWhile_cons, if_pos hpx2] at ha
      have hlen := (List.dropWhile_suffix (l := rest ++ r) p).length_le
      rw [ha] at hlen
      simp at hlen
    simp [List.dropWhile_cons, hx]

theorem trim_idempotent (s : Str) : trim (trim s) = trim s := by
  have hfix : (trim s).dropWhile isTrimChar = trim s := by
    apply dropWhile_of_prefix_of_fixed isTrimChar (trim s) (s.dropWhile isTrimChar)
    · rw [trim_eq_rdropWhile]
      exact List.rdropWhile_prefix _ _
    · exact List.dropWhile_idempotent _ _
  rw [trim_eq_rdropWhile (trim s), hfix, trim_eq_rdropWhile s]
  exact List.rdropWhile_idempotent _ _

theorem applyTagOp_nodup (s : EditorState) (op : TagOp) (h : s.tags.Nodup) :
    (applyTagOp s op).tags.Nodup := by
  cases op with
  | typeTag value => exact h
  | add tagToAdd =>
    simp only [applyTagOp, handleAddTag]
    split_ifs with hc
    · simp only [Bool.and_eq_true, Bool.not_eq_true', List.contains_eq_any_beq,
        List.any_eq_false, beq_iff_eq] at hc
      refine List.Nodup.append h (List.nodup_singleton _) ?_
      intro x hx hx2
      rw [List.mem_singleton] at hx2
      exact hc.2 x hx hx2.symm
    · exact h
  | remove tagToRemove => exact h.filter _

theorem applyTagOp_trimmed (s : EditorState) (op : TagOp) (h : ∀ t ∈ s.tags, trim t = t) :
    ∀ t ∈ (applyTagOp s op).tags, trim t = t := by
  cases op with
  | typeTag value => exact h
  | add tagToAdd =>
    simp only [applyTagOp, handleAddTag]
    split_ifs
    · intro t ht
      rcases List.mem_append.1 ht with e | e
      · exact h t e
      · rw [List.mem_singleton] at e
        rw [e]
        exact trim_idempotent _
    · exact h
  | remove tagToRemove =>
    intro t ht
    exact h t (List.mem_of_mem_filter ht)

/-- C24, the claim as stated fails. A note whose tags are `a` and ` a` (the
second with a leading space) has no duplicate tag, but the payload that
`handleSave` sends holds the trimmed tags `a`, `a`. -/
theorem payload_tags_counterexample :
    untrimmedTagsEditor.tags.Nodup ∧
    (EditorEffect.createNote
        (buildNoteData newNoteEnv untrimmedTagsEditor
          (currentContent newNoteEnv untrimmedTagsEditor))
      ∈ (handleSave newNoteEnv untrimmedTagsEditor (Except.ok ()) (Except.ok ())).2) ∧
    ((buildNoteData newNoteEnv untrimmedTagsEditor
        (currentContent newNoteEnv untrimmedTagsEditor)).tags = ["a".toList, "a".toList]) ∧
    ¬ (buildNoteData newNoteEnv untrimmedTagsEditor
        (currentContent newNoteEnv untrimmedTagsEditor)).tags.Nodup := by
  decide

/-- C24 (amended). Starting from an editor state whose tag list has no
duplicates, after every sequence of tag operations (typing in the tag input,
`handleAddTag`, `handleRemoveTag`) the tag list of the editor has no
duplicates. The tag list of the payload `handleSave` builds is the tag list
of the editor with every tag trimmed; when the tags the editor started from
were already trimmed, the tags of the editor stay trimmed, the payload
carries them unchanged and so without duplicates. -/
theorem tags_stay_duplicate_free (s : EditorState) (ops : List TagOp) (h : s.tags.Nodup) :
    (ops.foldl applyTagOp s).tags.Nodup ∧
    (∀ (env : EditorEnv) (content : Str),
      (buildNoteData env (ops.foldl applyTagOp s) content).tags
        = (ops.foldl applyTagOp s).tags.map trim) ∧
    ((∀ t ∈ s.tags, trim t = t) →
      (∀ t ∈ (ops.foldl applyTagOp s).tags, trim t = t) ∧
      ∀ (env : EditorEnv) (content : Str),
        (buildNoteData env (ops.foldl applyTagOp s) content).tags
          = (ops.foldl applyTagOp s).tags ∧
        (buildNoteData env (ops.foldl applyTagOp s) content).tags.Nodup) := by
  have hnodup : ∀ (ops : List TagOp) (s : EditorState), s.tags.Nodup →
      (ops.foldl applyTagOp s).tags.Nodup := by
    intro ops
    induction ops with
    | nil => intro s h; exact h
    | cons op rest ih => intro s h; exact ih _ (applyTagOp_nodup s op h)
  have htrim : ∀ (ops : List TagOp) (s : EditorState), (∀ t ∈ s.tags, trim t = t) →
      ∀ t ∈ (ops.foldl applyTagOp s).tags, trim t = t := by
    intro ops
    induction ops with
    | nil => intro s h; exact h
    | cons op rest ih => intro s h; exact ih _ (applyTagOp_trimmed s op h)
  refine ⟨hnodup ops s h, fun _ _ => rfl, fun ht => ⟨htrim ops s ht, fun env content => ?_⟩⟩
  have heq : (buildNoteData env (ops.foldl applyTagOp s) content).tags
      = (ops.foldl applyTagOp s).tags := by
    show (ops.foldl applyTagOp s).tags.map (fun tag => trim tag) = _
    conv_rhs => rw [← List.map_id (ops.foldl applyTagOp s).tags]
    exact List.map_congr_left (fun t hmem => htrim ops s ht t hmem)
  exact ⟨heq, heq ▸ hnodup ops s h⟩

/-- An instance of C24: the tag `urgent` is typed and added twice, then a tag
is removed, starting from the tags `a`, `b`. -/
theorem tags_stay_duplicate_free_witness :
    ({ validEditor with tags := ["a".toList, "b".toList] } : EditorState).tags.Nodup ∧
    ([TagOp.typeTag " urgent ".toList, TagOp.add none, TagOp.add (some "urgent".toList),
        TagOp.remove "a".toList].foldl applyTagOp
      { validEditor with tags := ["a".toList, "b".toList] }).tags
      = ["b".toList, "urgent".toList] ∧
    ([TagOp.typeTag " urgent ".toList, TagOp.add none, TagOp.add (some "urgent".toList),
        TagOp.remove "a".toList].foldl applyTagOp
      { validEditor with tags := ["a".toList, "b".toList] }).tags.Nodup :=
  ⟨by decide, by decide,
   (tags_stay_duplicate_free { validEditor with tags := ["a".toList, "b".toList] }
      [TagOp.typeTag " urgent ".toList, TagOp.add none, TagOp.add (some "urgent".toList),
        TagOp.remove "a".toList] (by decide)).1⟩

theorem parentOf_child_longer (d p : Str) (h : parentOf d = p) (hp : p ≠ "/".toList) :
    p.length < d.length := by
  obtain ⟨_, hhi⟩ := lastIndexOf_bounds d '/'
  rw [parentOf_eq] at h
  unfold orElse at h
  split_ifs at h with ht
  · have hne : List.take (lastIndexOf d '/').toNat d ≠ [] := by
      intro e
      rw [e] at ht
      simp [truthy] at ht
    have hk : 0 < (lastIndexOf d '/').toNat := by
      by_contra hk
      have : (lastIndexOf d '/').toNat = 0 := by omega
      rw [this] at hne
      exact hne rfl
    rw [← h, List.length_take]
    omega
  · exact absurd h.symm hp

theorem allSome_isSome {α : Type} (l : List (Option α)) (h : ∀ x ∈ l, x.isSome = true) :
    (allSome l).isSome = true := by
  induction l with
  | nil => rfl
  | cons x rest ih =>
    have hx := h x (List.mem_cons_self _ _)
    have hrest := ih (fun y hy => h y (List.mem_cons_of_mem _ hy))
    cases x with
    | none => simp at hx
    | some a =>
      cases hr : allSome rest with
      | none => rw [hr] at hrest; simp at hrest
      | some l => simp [allSome, hr]

theorem allSome_none_of_mem {α : Type} (l : List (Option α)) (h : none ∈ l) :
    allSome l = none := by
  induction l with
  | nil => simp at h
  | cons x rest ih =>
    cases x with
    | none => rfl
    | some a =>
      have hrest : none ∈ rest := by simpa using h
      simp [allSome, ih hrest]

theorem renderFolders_succ_isSome (folders : List Folder) (fuel : Nat) (p : Str)
    (h : ∀ c ∈ subfolders folders p, (renderFolders folders fuel c.path).isSome = true) :
    (renderFolders folders (fuel + 1) p).isSome = true := by
  simp only [renderFolders]
  split_ifs with hlen
  · rfl
  · have hall : (allSome ((subfolders folders p).map (fun folder =>
        match renderFolders folders fuel folder.path with
        | some r => some (folder, r)
        | none => none))).isSome = true := by
      apply allSome_isSome
      intro x hx
      rw [List.mem_map] at hx
      obtain ⟨c, hc, hcx⟩ := hx
      have hsome := h c hc
      cases hr : renderFolders folders fuel c.path with
      | none => rw [hr] at hsome; simp at hsome
      | some r => rw [hr] at hcx; rw [← hcx]; rfl
    cases hr : allSome ((subfolders folders p).map (fun folder =>
        match renderFolders folders fuel folder.path with
        | some r => some (folder, r)
        | none => none)) with
    | none => rw [hr] at hall; simp at hall
    | some items => rfl

theorem renderFolders_isSome_of_bound (folders : List Folder) (M : Nat)
    (hM : ∀ f ∈ folders, f.path.length ≤ M) (hroot : ∀ f ∈ folders, f.path ≠ "/".toList) :
    ∀ (n : Nat) (p : Str), p ≠ "/".toList → M + 1 ≤ n + p.length →
      (renderFolders folders (n + 1) p).isSome = true := by
  intro n
  induction n with
  | zero =>
    intro p hp hb
    apply renderFolders_succ_isSome
    intro c hc
    obtain ⟨hmem, hpar⟩ := (mem_subfolders folders p c).1 hc
    have h1 := parentOf_child_longer c.path p hpar hp
    have h2 := hM c hmem
    omega
  | succ m ih =>
    intro p hp hb
    apply renderFolders_succ_isSome
    intro c hc
    obtain ⟨hmem, hpar⟩ := (mem_subfolders folders p c).1 hc
    have h1 := parentOf_child_longer c.path p hpar hp
    exact ih c.path (hroot c hmem) (by omega)

theorem exists_path_bound (folders : List Folder) :
    ∃ M, ∀ f ∈ folders, f.path.length ≤ M := by
  induction folders with
  | nil => exact ⟨0, by simp⟩
  | cons g rest ih =>
    obtain ⟨M, hM⟩ := ih
    refine ⟨max g.path.length M, ?_⟩
    intro f hf
    rcases List.mem_cons.1 hf with e | e
    · rw [e]; exact le_max_left _ _
    · exact le_trans (hM f e) (le_max_right _ _)

theorem renderFolders_none_of_root (folders : List Folder) (f : Folder) (hf : f ∈ folders)
    (hpath : f.path = "/".toList) : ∀ fuel, renderFolders folders fuel "/".toList = none := by
  intro fuel
  induction fuel with
  | zero => rfl
  | succ k ih =>
    have hsub : f ∈ subfolders folders "/".toList := by
      rw [mem_subfolders]
      refine ⟨hf, ?_⟩
      rw [hpath]
      decide
    simp only [renderFolders]
    have hlen : ¬ (subfolders folders "/".toList).length = 0 := by
      intro e
      rw [List.length_eq_zero] at e
      rw [e] at hsub
      simp at hsub
    rw [if_neg hlen]
    have hnone : allSome ((subfolders folders "/".toList).map (fun folder =>
        match renderFolders folders k folder.path with
        | some r => some (folder, r)
        | none => none)) = none := by
      apply allSome_none_of_mem
      rw [List.mem_map]
      refine ⟨f, hsub, ?_⟩
      rw [hpath, ih]
    rw [hnone]

/-- C26, the claim as stated fails. For the folder list that holds a folder
whose path is `/`, that folder is among the subfolders of `/` (its own
`parentOf` is `/`), so `renderFolders('/')` calls `renderFolders('/')` again:
whatever bound is put on the depth of the recursion, the computation has not
returned. -/
theorem render_root_folder_counterexample :
    (subfolders rootFolderList "/".toList = rootFolderList) ∧
    (renderFolders rootFolderList 1000 "/".toList).isNone = true ∧
    (∀ fuel, renderFolders rootFolderList fuel "/".toList = none) :=
  ⟨by decide,
   by rw [renderFolders_none_of_root rootFolderList _ (List.mem_cons_self _ _) rfl 1000]; rfl,
   renderFolders_none_of_root rootFolderList _ (List.mem_cons_self _ _) rfl⟩

/-- C26 (amended). For every finite folder list (arbitrary path strings,
duplicates allowed) the recursive computation `renderFolders('/')`
terminates, that is returns within some depth of recursion, if and only if
no folder of the list has the path `/`; and when no folder has the path `/`
the computation `renderFolders(p)` terminates for every parent path `p`. -/
theorem render_terminates_iff_no_root_folder (folders : List Folder) :
    ((∃ fuel, (renderFolders folders fuel "/".toList).isSome = true) ↔
      ∀ f ∈ folders, f.path ≠ "/".toList) ∧
    ((∀ f ∈ folders, f.path ≠ "/".toList) →
      ∀ p : Str, ∃ fuel, (renderFolders folders fuel p).isSome = true) := by
  have hall : (∀ f ∈ folders, f.path ≠ "/".toList) →
      ∀ p : Str, ∃ fuel, (renderFolders folders fuel p).isSome = true := by
    intro hroot p
    obtain ⟨M, hM⟩ := exists_path_bound folders
    have hb := renderFolders_isSome_of_bound folders M hM hroot
    by_cases hp : p = "/".toList
    · refine ⟨M + 1 + 1 + 1, ?_⟩
      apply renderFolders_succ_isSome
      intro c hc
      obtain ⟨hmem, _⟩ := (mem_subfolders folders p c).1 hc
      exact hb (M + 1) c.path (hroot c hmem) (by omega)
    · exact ⟨M + 1 + 1, hb (M + 1) p hp (by omega)⟩
  refine ⟨⟨?_, fun hroot => hall hroot _⟩, hall⟩
  rintro ⟨fuel, hfuel⟩ f hf hpath
  rw [renderFolders_none_of_root folders f hf hpath fuel] at hfuel
  simp at hfuel

/-- An instance of C26: the list `/Work`, `/Work/2024` is rendered within
three levels of recursion. -/
theorem render_terminates_iff_no_root_folder_witness :
    (∀ f ∈ [workFolder, work2024Folder], f.path ≠ "/".toList) ∧
    (renderFolders [workFolder, work2024Folder] 3 "/".toList).isSome = true ∧
    ∃ fuel, (renderFolders [workFolder, work2024Folder] fuel "/".toList).isSome = true :=
  ⟨by decide, by decide,
   (render_terminates_iff_no_root_folder [workFolder, work2024Folder]).1.2 (by decide)⟩

/-- C30, the claim as stated fails. With the relative base URL `/api` the
upload path `/uploads/a.png` resolves to `/api/uploads/a.png`, and resolving
that again gives `/api/api/uploads/a.png`. -/
theorem image_url_counterexample :
    (getFullImageUrl (some "/api".toList) (some "/uploads/a.png".toList)
      = some "/api/uploads/a.png".toList) ∧
    (getFullImageUrl (some "/api".toList)
        (getFullImageUrl (some "/api".toList) (some "/uploads/a.png".toList))
      = some "/api/api/uploads/a.png".toList) ∧
    (getFullImageUrl (some "/api".toList)
        (getFullImageUrl (some "/api".toList) (some "/uploads/a.png".toList))
      ≠ getFullImageUrl (some "/api".toList) (some "/uploads/a.png".toList)) := by
  decide

/-- C30 (amended). For every image URL `u` and every value of the API base
URL, an empty or missing `u` maps to `null`, a `u` starting with `http` is
returned unchanged, and any other `u` is returned with the base URL (the text
`undefined` when none is configured) put in front; and whenever the base URL
starts with `http`, resolving is idempotent:
`getFullImageUrl(getFullImageUrl(u)) = getFullImageUrl(u)`. -/
theorem image_url_resolution (apiUrl : Option Str) (u : Option Str) :
    (u = none ∨ u = some [] → getFullImageUrl apiUrl u = none) ∧
    (∀ v, u = some v → "http".toList <+: v → getFullImageUrl apiUrl u = some v) ∧
    (∀ v, u = some v → v ≠ [] → ¬ "http".toList <+: v →
      getFullImageUrl apiUrl u = some (templateValue apiUrl ++ v)) ∧
    ("http".toList <+: templateValue apiUrl →
      getFullImageUrl apiUrl (getFullImageUrl apiUrl u) = getFullImageUrl apiUrl u) := by
  have hhttp : ∀ v : Str, "http".toList <+: v → getFullImageUrl apiUrl (some v) = some v := by
    intro v hv
    have hne : v ≠ [] := by
      intro e
      rw [e] at hv
      simp at hv
    have hp : "http".toList.isPrefixOf v = true := List.isPrefixOf_iff_prefix.2 hv
    have ht : (!truthy v) = false := by simp [truthy, hne]
    simp only [getFullImageUrl, ht, hp, Bool.false_eq_true, if_false, if_true]
  have hother : ∀ v : Str, v ≠ [] → ¬ "http".toList <+: v →
      getFullImageUrl apiUrl (some v) = some (templateValue apiUrl ++ v) := by
    intro v hne hv
    have hp : "http".toList.isPrefixOf v = false :=
      Bool.eq_false_iff.2 (fun h => hv (List.isPrefixOf_iff_prefix.1 h))
    have ht : (!truthy v) = false := by simp [truthy, hne]
    simp only [getFullImageUrl, ht, hp, Bool.false_eq_true, if_false]
  refine ⟨?_, ?_, ?_, ?_⟩
  · intro h
    rcases h with h | h <;> rw [h] <;> rfl
  · intro v hu hv
    rw [hu]
    exact hhttp v hv
  · intro v hu hne hv
    rw [hu]
    exact hother v hne hv
  · intro hbase
    cases u with
    | none => rfl
    | some v =>
      by_cases hne : v = []
      · rw [hne]; rfl
      · by_cases hv : "http".toList <+: v
        · rw [hhttp v hv, hhttp v hv]
        · rw [hother v hne hv]
          exact hhttp _ (hbase.trans (List.prefix_append _ _))

/-- An instance of C30: with the base URL `http://localhost:5000/api` the
upload path `/uploads/a.png` resolves to the same URL once and twice. -/
theorem image_url_resolution_witness :
    "http".toList <+: templateValue (some "http://localhost:5000/api".toList) ∧
    getFullImageUrl (some "http://localhost:5000/api".toList)
        (getFullImageUrl (some "http://localhost:5000/api".toList)
          (some "/uploads/a.png".toList))
      = getFullImageUrl (some "http://localhost:5000/api".toList)
          (some "/uploads/a.png".toList) :=
  ⟨by decide,
   (image_url_resolution (some "http://localhost:5000/api".toList)
      (some "/uploads/a.png".toList)).2.2.2 (by decide)⟩


theorem FormErrors.keyCount_eq_zero (e : FormErrors) :
    e.keyCount = 0 ↔
      e.name = none ∧ e.email = none ∧ e.password = none ∧ e.confirmPassword = none := by
  obtain ⟨a, b, c, d⟩ := e
  cases a <;> cases b <;> cases c <;> cases d <;> simp [FormErrors.keyCount]

theorem validateForm_name (formData : RegisterForm) :
    (validateForm formData).1.name = none ↔ trim formData.name ≠ [] := by
  by_cases h : trim formData.name = [] <;> simp [validateForm, truthy, h]

theorem validateForm_email (formData : RegisterForm) :
    (validateForm formData).1.email = none ↔
      trim formData.email ≠ [] ∧ testEmail formData.email = true := by
  by_cases h : trim formData.email = [] <;> by_cases h2 : testEmail formData.email = true <;>
    simp [validateForm, truthy, h, h2]

theorem jsLength_bounds (s : Str) : s.length ≤ jsLength s ∧ jsLength s ≤ 2 * s.length := by
  induction s with
  | nil => exact ⟨le_refl _, le_refl _⟩
  | cons c rest ih =>
    have h : jsLength (c :: rest) = utf16Units c + jsLength rest := rfl
    have hc : 1 ≤ utf16Units c ∧ utf16Units c ≤ 2 := by
      unfold utf16Units
      split_ifs <;> omega
    rw [h, List.length_cons]
    omega

theorem jsLength_of_bmp (s : Str) (h : ∀ c ∈ s, c.toNat < 0x10000) : jsLength s = s.length := by
  induction s with
  | nil => rfl
  | cons c rest ih =>
    have hl : jsLength (c :: rest) = utf16Units c + jsLength rest := rfl
    have hc : utf16Units c = 1 := by
      unfold utf16Units
      rw [if_pos (h c (List.mem_cons_self _ _))]
    rw [hl, hc, ih (fun x hx => h x (List.mem_cons_of_mem _ hx)), List.length_cons]
    omega

theorem validateForm_password (formData : RegisterForm) :
    (validateForm formData).1.password = none ↔ 6 ≤ jsLength formData.password := by
  by_cases h : formData.password = []
  · simp [validateForm, truthy, h, jsLength]
  · by_cases h2 : jsLength formData.password < 6
    · simp [validateForm, truthy, h, h2]
    · simp [validateForm, truthy, h, h2]; omega

theorem validateForm_confirm (formData : RegisterForm) :
    (validateForm formData).1.confirmPassword = none ↔
      formData.password = formData.confirmPassword := by
  by_cases h : formData.password = formData.confirmPassword
  · simp only [validateForm, ne_eq, h, not_true_eq_false, if_false]
  · simp only [validateForm, ne_eq, h, not_false_eq_true, if_true, reduceCtorEq]

theorem validateForm_true_iff (formData : RegisterForm) :
    (validateForm formData).2 = true ↔
      trim formData.name ≠ [] ∧ trim formData.email ≠ [] ∧ testEmail formData.email = true ∧
      6 ≤ jsLength formData.password ∧ formData.password = formData.confirmPassword := by
  have h : (validateForm formData).2 = true ↔ (validateForm formData).1.keyCount = 0 := by
    simp [validateForm]
  rw [h, FormErrors.keyCount_eq_zero, validateForm_name, validateForm_email,
    validateForm_password, validateForm_confirm]
  tauto

theorem classify_ne_space (c : Char) : classify c ≠ Sym.space ↔ isTrimChar c = false := by
  unfold classify
  by_cases h : isTrimChar c = true
  · simp [h]
  · have h2 : isTrimChar c = false := by simpa using h
    rw [h2]
    simp only [Bool.false_eq_true, if_false, iff_true]
    split_ifs <;> exact fun e => Sym.noConfusion e

theorem classify_eq_atSign (c : Char) : classify c = Sym.atSign ↔ c = '@' := by
  unfold classify
  constructor
  · intro h
    split_ifs at h with h1 h2 h3
    · exact h2
  · intro h
    rw [h]
    decide

theorem classify_eq_dot (c : Char) : classify c = Sym.dot ↔ c = '.' := by
  unfold classify
  constructor
  · intro h
    split_ifs at h with h1 h2 h3
    · exact h3
  · intro h
    rw [h]
    decide

theorem nonSpace_rmatch (w : List Sym) :
    nonSpace.rmatch w = true ↔ ∃ x, w = [x] ∧ x ≠ Sym.space := by
  unfold nonSpace
  rw [RegularExpression.add_rmatch_iff, RegularExpression.add_rmatch_iff,
    RegularExpression.char_rmatch_iff, RegularExpression.char_rmatch_iff,
    RegularExpression.char_rmatch_iff]
  constructor
  · rintro ((h | h) | h)
    · exact ⟨_, h, by decide⟩
    · exact ⟨_, h, by decide⟩
    · exact ⟨_, h, by decide⟩
  · rintro ⟨x, hw, hx⟩
    rw [hw]
    cases x
    · exact Or.inl (Or.inl rfl)
    · exact Or.inl (Or.inr rfl)
    · exact Or.inr rfl
    · exact absurd rfl hx

theorem flatten_map_singleton {α : Type} (w : List α) :
    (w.map (fun x => [x])).flatten = w := by
  induction w with
  | nil => rfl
  | cons x rest ih => simp [ih]

theorem star_nonSpace_rmatch (w : List Sym) :
    (RegularExpression.star nonSpace).rmatch w = true ↔ ∀ x ∈ w, x ≠ Sym.space := by
  rw [RegularExpression.star_rmatch_iff]
  constructor
  · rintro ⟨S, hw, hS⟩ x hx
    rw [hw, List.mem_flatten] at hx
    obtain ⟨t, ht, hxt⟩ := hx
    obtain ⟨y, hy, hne⟩ := (nonSpace_rmatch t).1 (hS t ht).2
    rw [hy, List.mem_singleton] at hxt
    rw [hxt]
    exact hne
  · intro h
    refine ⟨w.map (fun x => [x]), (flatten_map_singleton w).symm, ?_⟩
    intro t ht
    rw [List.mem_map] at ht
    obtain ⟨x, hx, hxt⟩ := ht
    rw [← hxt]
    exact ⟨by simp, (nonSpace_rmatch [x]).2 ⟨x, rfl, h x hx⟩⟩

theorem nonSpaces_rmatch (w : List Sym) :
    nonSpaces.rmatch w = true ↔ w ≠ [] ∧ ∀ x ∈ w, x ≠ Sym.space := by
  unfold nonSpaces
  rw [RegularExpression.mul_rmatch_iff]
  constructor
  · rintro ⟨t, u, hw, ht, hu⟩
    obtain ⟨y, hy, hne⟩ := (nonSpace_rmatch t).1 ht
    rw [hw, hy]
    refine ⟨by simp, ?_⟩
    intro x hx
    rcases List.mem_append.1 hx with e | e
    · rw [List.mem_singleton] at e
      rw [e]
      exact hne
    · exact (star_nonSpace_rmatch u).1 hu x e
  · rintro ⟨hne, hall⟩
    cases w with
    | nil => exact absurd rfl hne
    | cons y rest =>
      refine ⟨[y], rest, rfl, (nonSpace_rmatch [y]).2 ⟨y, rfl, hall y (List.mem_cons_self _ _)⟩,
        (star_nonSpace_rmatch rest).2 (fun x hx => hall x (List.mem_cons_of_mem _ hx))⟩

theorem star_anySym_rmatch (w : List Sym) :
    (RegularExpression.star anySym).rmatch w = true := by
  rw [RegularExpression.star_rmatch_iff]
  refine ⟨w.map (fun x => [x]), (flatten_map_singleton w).symm, ?_⟩
  intro t ht
  rw [List.mem_map] at ht
  obtain ⟨x, _, hxt⟩ := ht
  rw [← hxt]
  refine ⟨by simp, ?_⟩
  unfold anySym
  rw [RegularExpression.add_rmatch_iff, RegularExpression.char_rmatch_iff]
  cases x
  · exact Or.inl ((nonSpace_rmatch _).2 ⟨_, rfl, by decide⟩)
  · exact Or.inl ((nonSpace_rmatch _).2 ⟨_, rfl, by decide⟩)
  · exact Or.inl ((nonSpace_rmatch _).2 ⟨_, rfl, by decide⟩)
  · exact Or.inr rfl

theorem emailPattern_rmatch (w : List Sym) :
    emailPattern.rmatch w = true ↔
      ∃ a b c, w = a ++ Sym.atSign :: (b ++ Sym.dot :: c) ∧
        (a ≠ [] ∧ ∀ x ∈ a, x ≠ Sym.space) ∧ (b ≠ [] ∧ ∀ x ∈ b, x ≠ Sym.space) ∧
        (c ≠ [] ∧ ∀ x ∈ c, x ≠ Sym.space) := by
  unfold emailPattern
  simp only [RegularExpression.mul_rmatch_iff, RegularExpression.char_rmatch_iff,
    nonSpaces_rmatch]
  constructor
  · rintro ⟨t1, c, hw, ⟨t2, d, ht1, ⟨t3, b, ht2, ⟨a, m, ht3, ha, hm⟩, hb⟩, hd⟩, hc⟩
    refine ⟨a, b, c, ?_, ha, hb, hc⟩
    rw [hw, ht1, ht2, ht3, hm, hd]
    simp
  · rintro ⟨a, b, c, hw, ha, hb, hc⟩
    refine ⟨a ++ [Sym.atSign] ++ b ++ [Sym.dot], c, ?_, ⟨a ++ [Sym.atSign] ++ b, [Sym.dot], rfl,
      ⟨a ++ [Sym.atSign], b, rfl, ⟨a, [Sym.atSign], rfl, ha, rfl⟩, hb⟩, rfl⟩, hc⟩
    rw [hw]
    simp

theorem map_classify_nonSpaces (a : Str) :
    (a.map classify ≠ [] ∧ ∀ x ∈ a.map classify, x ≠ Sym.space) ↔
      a ≠ [] ∧ ∀ x ∈ a, isTrimChar x = false := by
  constructor
  · rintro ⟨h1, h2⟩
    refine ⟨fun e => h1 (by rw [e]; rfl), fun x hx => ?_⟩
    exact (classify_ne_space x).1 (h2 _ (List.mem_map_of_mem _ hx))
  · rintro ⟨h1, h2⟩
    refine ⟨fun e => h1 (List.map_eq_nil_iff.1 e), fun y hy => ?_⟩
    rw [List.mem_map] at hy
    obtain ⟨x, hx, hxy⟩ := hy
    rw [← hxy]
    exact (classify_ne_space x).2 (h2 x hx)

/-- The test `/\S+@\S+\.\S+/.test(s)` succeeds iff `s` holds, one after the
other, a non-empty run of non-space characters, an `@`, a non-empty run of
non-space characters, a `.` and a non-empty run of non-space characters. -/
theorem testEmail_iff (s : Str) :
    testEmail s = true ↔
      ∃ pre a b c post, s = pre ++ a ++ '@' :: b ++ '.' :: c ++ post ∧
        (a ≠ [] ∧ ∀ x ∈ a, isTrimChar x = false) ∧
        (b ≠ [] ∧ ∀ x ∈ b, isTrimChar x = false) ∧
        (c ≠ [] ∧ ∀ x ∈ c, isTrimChar x = false) := by
  unfold testEmail
  rw [RegularExpression.mul_rmatch_iff]
  constructor
  · rintro ⟨t, post, hw, ht, _⟩
    rw [RegularExpression.mul_rmatch_iff] at ht
    obtain ⟨pre, mid, htm, _, hmid⟩ := ht
    obtain ⟨a, b, c, hmidw, ha, hb, hc⟩ := (emailPattern_rmatch mid).1 hmid
    rw [htm, hmidw] at hw
    obtain ⟨s1, spost, hs, hs1, _⟩ := List.map_eq_append_iff.1 hw
    obtain ⟨spre, smid, hs1e, _, hsmid⟩ := List.map_eq_append_iff.1 hs1
    obtain ⟨sa, srest, hsmide, hsa, hsrest⟩ := List.map_eq_append_iff.1 hsmid
    obtain ⟨x, srest2, hsreste, hx, hsrest2⟩ := List.map_eq_cons_iff.1 hsrest
    obtain ⟨sb, srest3, hsrest2e, hsb, hsrest3⟩ := List.map_eq_append_iff.1 hsrest2
    obtain ⟨y, sc, hsrest3e, hy, hsc⟩ := List.map_eq_cons_iff.1 hsrest3
    refine ⟨spre, sa, sb, sc, spost, ?_, ?_, ?_, ?_⟩
    · rw [hs, hs1e, hsmide, hsreste, hsrest2e, hsrest3e, (classify_eq_atSign x).1 hx,
        (classify_eq_dot y).1 hy]
      simp
    · exact (map_classify_nonSpaces sa).1 (hsa ▸ ha)
    · exact (map_classify_nonSpaces sb).1 (hsb ▸ hb)
    · exact (map_classify_nonSpaces sc).1 (hsc ▸ hc)
  · rintro ⟨pre, a, b, c, post, hs, ha, hb, hc⟩
    refine ⟨(pre ++ a ++ '@' :: b ++ '.' :: c).map classify, post.map classify, ?_, ?_,
      star_anySym_rmatch _⟩
    · rw [hs]
      simp
    · rw [RegularExpression.mul_rmatch_iff]
      refine ⟨pre.map classify, (a ++ '@' :: b ++ '.' :: c).map classify, by simp,
        star_anySym_rmatch _, ?_⟩
      rw [emailPattern_rmatch]
      refine ⟨a.map classify, b.map classify, c.map classify, ?_,
        (map_classify_nonSpaces a).2 ha, (map_classify_nonSpaces b).2 hb,
        (map_classify_nonSpaces c).2 hc⟩
      have h1 : classify '@' = Sym.atSign := by decide
      have h2 : classify '.' = Sym.dot := by decide
      simp [h1, h2]

theorem handleSubmit_of_invalid (s : RegisterState) (outcome : Except JSError RegisterResponse)
    (h : (validateForm s.formData).2 = false) :
    handleSubmit s outcome =
      ({ s with errors := (validateForm s.formData).1 },
        [.preventDefault, .setErrors (validateForm s.formData).1]) := by
  simp only [handleSubmit, h, Bool.not_false, if_true]

theorem handleSubmit_request_of_valid (s : RegisterState)
    (outcome : Except JSError RegisterResponse) (h : (validateForm s.formData).2 = true) :
    RegisterEffect.register s.formData.name s.formData.email s.formData.password ∈
      (handleSubmit s outcome).2 := by
  simp only [handleSubmit, h, Bool.not_true, Bool.false_eq_true, if_false]
  cases outcome with
  | error e => simp
  | ok r =>
    simp only []
    split_ifs <;> simp

/-- C29, the claim as stated fails. The password and its confirmation are
three times the character `U+1F600`: the password has three characters, fewer
than 6, but its `length`, which counts UTF-16 code units, is 6; so
`validateForm` records no error and returns true, and `handleSubmit` sends
the registration request. -/
theorem emoji_password_counterexample :
    emojiPasswordForm.password.length = 3 ∧
    jsLength emojiPasswordForm.password = 6 ∧
    validateForm emojiPasswordForm =
      ({ name := none, email := none, password := none, confirmPassword := none }, true) ∧
    (RegisterEffect.register emojiPasswordForm.name emojiPasswordForm.email
        emojiPasswordForm.password
      ∈ (handleSubmit (registerStateOf emojiPasswordForm)
          (.ok { ok := true, message := none })).2) := by
  decide

/-- C29 (amended). For every registration form, `Register.validateForm`
returns true iff the name is non-blank, the email is non-blank and contains a
match of the pattern `\S+@\S+\.\S+` (a non-empty run of non-space
characters, an `@`, a second such run, a `.` and a third such run, anywhere
in the text), the `length` of the password, its number of UTF-16 code units,
is at least 6 and the password equals `confirmPassword`. That length is at
least the number of characters of the password and equals it when no
character lies above `U+FFFF`. The validator returns true exactly when the
errors object it passes to `setErrors` has no key, and `handleSubmit` sends
no registration request when it returns false (and sends one when it returns
true). -/
theorem register_validator (formData : RegisterForm) :
    ((validateForm formData).2 = true ↔
      trim formData.name ≠ [] ∧ trim formData.email ≠ [] ∧
      (∃ pre a b c post, formData.email = pre ++ a ++ '@' :: b ++ '.' :: c ++ post ∧
        (a ≠ [] ∧ ∀ x ∈ a, isTrimChar x = false) ∧
        (b ≠ [] ∧ ∀ x ∈ b, isTrimChar x = false) ∧
        (c ≠ [] ∧ ∀ x ∈ c, isTrimChar x = false)) ∧
      6 ≤ jsLength formData.password ∧ formData.password = formData.confirmPassword) ∧
    (formData.password.length ≤ jsLength formData.password ∧
      ((∀ c ∈ formData.password, c.toNat < 0x10000) →
        jsLength formData.password = formData.password.length)) ∧
    ((validateForm formData).2 = true ↔
      (validateForm formData).1 =
        { name := none, email := none, password := none, confirmPassword := none }) ∧
    (∀ (s : RegisterState) (outcome : Except JSError RegisterResponse),
      s.formData = formData →
        ((validateForm formData).2 = false →
          ∀ e ∈ (handleSubmit s outcome).2, e.isRequest = false) ∧
        ((validateForm formData).2 = true →
          ∃ e ∈ (handleSubmit s outcome).2, e.isRequest = true)) := by
  refine ⟨?_, ⟨(jsLength_bounds _).1, jsLength_of_bmp _⟩, ?_, ?_⟩
  · rw [validateForm_true_iff, testEmail_iff]
  · have h : (validateForm formData).2 = true ↔ (validateForm formData).1.keyCount = 0 := by
      simp [validateForm]
    rw [h, FormErrors.keyCount_eq_zero]
    constructor
    · rintro ⟨h1, h2, h3, h4⟩
      cases hv : (validateForm formData).1 with
      | mk a b c d =>
        rw [hv] at h1 h2 h3 h4
        simp only at h1 h2 h3 h4
        rw [h1, h2, h3, h4]
    · intro hv
      rw [hv]
      exact ⟨rfl, rfl, rfl, rfl⟩
  · intro s outcome hs
    subst hs
    constructor
    · intro hv e he
      rw [handleSubmit_of_invalid s outcome hv] at he
      simp only [List.mem_cons, List.mem_singleton, List.not_mem_nil, or_false] at he
      rcases he with rfl | rfl <;> rfl
    · intro hv
      exact ⟨_, handleSubmit_request_of_valid s outcome hv, rfl⟩

end NotesFrontend
